import Mathlib

/-!
# KiwiDsp: the DSP node (`src/KiwiDspNode.cpp`)

A shallow embedding of `Kiwi::DspNode`.  The node is a record of its member
variables; every member function becomes a function from the node state to a
`Run`: how the call ended, the node state it left, and the ordered list of the
effects it performed.

Collaborators that live outside `KiwiDspNode.cpp` (the chain, the ports, the
error value, the `prepare`/`release` extension points) are either modelled from
the specification or taken as parameters (`DspEnv`).  The virtual `prepare()`
is a parameter: it acts on its node through the node's flag setters
`shouldPerform` and `setInplace`, and the environment tells which calls it
makes.  `release()` is recorded as an event; both extension points are taken to
return.  A chain that calls back into its member nodes while resuming is outside
the model.  Allocation with `new` is assumed to succeed.
-/

namespace Kiwi

/-! ## Collaborators -/

/-- Modelled from the spec: the `DspError` failure value, whose class is declared
outside `KiwiDspNode.cpp`; the constructors are the error kinds of section 7. -/
inductive DspError
  | cyclicGraph
  | portStartFailure
  | suspendFailure
  | invalidPortIndex
  deriving DecidableEq, Repr

/-- Modelled from the spec: a Port (`DspInput` / `DspOutput`, declared outside
`KiwiDspNode.cpp`): its index, the ordered set of peer nodes (by handle) and the
exchanged sample vector (`none` when no vector is held). -/
structure DspPort where
  index : Nat
  peers : List Nat
  vector : Option Nat
  deriving DecidableEq, Repr

/-- Modelled from the spec: `Port.add(peer)` maintains the peer set; adding an
already-present peer is a no-op. -/
def DspPort.add (p : DspPort) (node : Nat) : DspPort :=
  if node ∈ p.peers then p else { p with peers := p.peers ++ [node] }

/-- Modelled from the spec: `Port.remove(peer)`; removing an absent peer is a
no-op. -/
def DspPort.remove (p : DspPort) (node : Nat) : DspPort :=
  { p with peers := p.peers.filter (fun q => q ≠ node) }

/-- Modelled from the spec: `Port.empty()` is true iff the peer set is empty. -/
def DspPort.empty (p : DspPort) : Bool :=
  p.peers.isEmpty

/-- Modelled from the spec: `Port.clear()` releases the vector reference and does
not touch the peer set. -/
def DspPort.clear (p : DspPort) : DspPort :=
  { p with vector := none }

/-- Modelled from the spec: `Port.getVector()` returns the current vector
pointer (`none` is the null pointer). -/
def DspPort.getVector (p : DspPort) : Option Nat :=
  p.vector

/-- Modelled from the spec: the Chain (`DspChain`, declared outside
`KiwiDspNode.cpp`), reduced to what a node reads from it: the global sample
rate, the global block size and the running flag. -/
structure DspChain where
  samplerate : Nat
  vectorsize : Nat
  running : Bool
  deriving DecidableEq, Repr

/-- Modelled from the spec: `Chain.getSampleRate()`. -/
def DspChain.getSampleRate (c : DspChain) : Nat :=
  c.samplerate

/-- Modelled from the spec: `Chain.getVectorSize()`. -/
def DspChain.getVectorSize (c : DspChain) : Nat :=
  c.vectorsize

/-! ## The node -/

/-- The member variables of `DspNode`.  A buffer-pointer array is `none` for the
null pointer and `some arr` for an allocated array; an entry is `none` while it
is unbound.  `m_chain` holds the chain the node points to. -/
structure DspNode where
  m_chain : Option DspChain
  m_nins : Nat
  m_sample_ins : Option (List (Option Nat))
  m_nouts : Nat
  m_sample_outs : Option (List (Option Nat))
  m_samplerate : Nat
  m_vectorsize : Nat
  m_inplace : Bool
  m_running : Bool
  m_inputs : List DspPort
  m_outputs : List DspPort
  deriving DecidableEq, Repr

/-- A call that a concrete `prepare()` makes on its own node: one of the two
flag setters of `DspNode`. -/
inductive SetterCall
  | shouldPerform (status : Bool)
  | setInplace (status : Bool)
  deriving DecidableEq, Repr

/-- The behaviour of the collaborators that a node cannot decide itself: whether
the chain fails to suspend or to resume, what `start` does to an input or an
output Port (a failure, or the Port with its vector established), and which
setter calls the virtual `prepare()` makes, in order, on the node it is invoked
on. -/
structure DspEnv where
  suspendFailure : Option DspError
  resumeFailure : Option DspError
  startInput : DspPort → Except DspError DspPort
  startOutput : DspPort → Except DspError DspPort
  prepare : DspNode → List SetterCall

/-- Modelled from the spec: `Chain.suspend()`.  If running it returns the prior
running state and leaves the chain not running (or fails); if not running it
returns false and is a no-op. -/
def DspChain.suspend (env : DspEnv) (c : DspChain) : Except DspError (Bool × DspChain) :=
  if c.running then
    match env.suspendFailure with
    | some e => .error e
    | none => .ok (true, { c with running := false })
  else .ok (false, c)

/-- Modelled from the spec: `Chain.resume(priorState)`.  If `priorState` is true
the chain recompiles and restarts (or fails); if false it is left stopped. -/
def DspChain.resume (env : DspEnv) (c : DspChain) (state : Bool) : Except DspError DspChain :=
  if state then
    match env.resumeFailure with
    | some e => .error e
    | none => .ok { c with running := true }
  else .ok c

/-- The effects a member function performs, in program order. -/
inductive DspEvent
  | suspendReturned (state : Bool)
  | suspendThrew (e : DspError)
  | resumeReturned (state : Bool)
  | resumeThrew (state : Bool) (e : DspError)
  | setNins (n : Nat)
  | newSampleIns (n : Nat)
  | setNouts (n : Nat)
  | newSampleOuts (n : Nat)
  | setRunning (b : Bool)
  | setSampleRate (r : Nat)
  | setVectorSize (v : Nat)
  | release
  | prepare
  | inputStarted (i : Nat)
  | inputStartThrew (i : Nat) (e : DspError)
  | outputStarted (i : Nat)
  | outputStartThrew (i : Nat) (e : DspError)
  | bindInput (i : Nat) (v : Option Nat)
  | bindOutput (i : Nat) (v : Option Nat)
  | inputCleared (i : Nat)
  | outputCleared (i : Nat)
  | inputAdded (i : Nat) (node : Nat)
  | outputAdded (i : Nat) (node : Nat)
  | inputRemoved (i : Nat) (node : Nat)
  | outputRemoved (i : Nat) (node : Nat)
  | setInplace (b : Bool)
  deriving DecidableEq, Repr

/-- How a call ended: it returned, it threw a `DspError`, or it indexed a Port
list or a buffer-pointer array out of bounds (undefined behaviour in C++). -/
inductive Status
  | ok
  | thrown (e : DspError)
  | fault
  deriving DecidableEq, Repr

/-- The result of running a member function. -/
structure Run where
  status : Status
  node : DspNode
  log : List DspEvent
  deriving DecidableEq, Repr

/-- Sequencing: the continuation runs only after a normal return. -/
def Run.andThen (r : Run) (f : DspNode → Run) : Run :=
  match r.status with
  | .ok => { f r.node with log := r.log ++ (f r.node).log }
  | _ => r

/-- Effects performed before a run. -/
def Run.after (evs : List DspEvent) (r : Run) : Run :=
  { r with log := evs ++ r.log }

/-- The length of a buffer-pointer array (the null pointer holds no entry). -/
def bufferLength (a : Option (List (Option Nat))) : Nat :=
  match a with
  | none => 0
  | some arr => arr.length

/-- Modelled from the spec: `getChain()` (declared in the header) returns the
owning chain, or null. -/
def getChain (s : DspNode) : Option DspChain :=
  s.m_chain

/-- Modelled from the spec: `getNumberOfInputs()` (declared in the header) is
the input-port count. -/
def getNumberOfInputs (s : DspNode) : Nat :=
  s.m_nins

/-- Modelled from the spec: `getNumberOfOutputs()` (declared in the header) is
the output-port count. -/
def getNumberOfOutputs (s : DspNode) : Nat :=
  s.m_nouts

/-- The constructor `DspNode::DspNode(chain)`: both counts are zero, so neither
loop pushes a Port. -/
def DspNode.new (chain : Option DspChain) : DspNode :=
  { m_chain := chain, m_nins := 0, m_sample_ins := none, m_nouts := 0,
    m_sample_outs := none, m_samplerate := 0, m_vectorsize := 0,
    m_inplace := true, m_running := false, m_inputs := [], m_outputs := [] }

/-- The loop `for(i ...; i < getNumberOfInputs(); i++) m_inputs[i]->clear();` of
`stop()`, with `k` iterations left at index `i`. -/
def clearInputs : Nat → Nat → DspNode → Run
  | 0, _, s => ⟨.ok, s, []⟩
  | k + 1, i, s =>
    match s.m_inputs[i]? with
    | none => ⟨.fault, s, []⟩
    | some p =>
      Run.after [.inputCleared i]
        (clearInputs k (i + 1) { s with m_inputs := s.m_inputs.set i p.clear })

/-- The loop `for(i ...; i < getNumberOfOutputs(); i++) m_outputs[i]->clear();`
of `stop()`. -/
def clearOutputs : Nat → Nat → DspNode → Run
  | 0, _, s => ⟨.ok, s, []⟩
  | k + 1, i, s =>
    match s.m_outputs[i]? with
    | none => ⟨.fault, s, []⟩
    | some p =>
      Run.after [.outputCleared i]
        (clearOutputs k (i + 1) { s with m_outputs := s.m_outputs.set i p.clear })

/-- `DspNode::stop()`. -/
def stop (s : DspNode) : Run :=
  if s.m_running then
    Run.after [.setRunning false, .release]
      ((clearInputs (getNumberOfInputs s) 0 { s with m_running := false }).andThen
        fun s1 => clearOutputs (getNumberOfOutputs s1) 0 s1)
  else ⟨.ok, s, []⟩

/-- Lines 118-135 of `setNumberOfInlets`: the resize, then `chain->resume(state)`
when there is a chain. -/
def resizeInlets (env : DspEnv) (nins : Nat) (state : Bool) (s : DspNode) : Run :=
  match getChain s with
  | some chain =>
    match chain.resume env state with
    | .ok c =>
      ⟨.ok, { s with m_nins := nins, m_sample_ins := some (List.replicate nins none),
                      m_chain := some c },
        [.setNins nins, .newSampleIns nins, .resumeReturned state]⟩
    | .error e =>
      ⟨.thrown e, { s with m_nins := nins, m_sample_ins := some (List.replicate nins none) },
        [.setNins nins, .newSampleIns nins, .resumeThrew state e]⟩
  | none =>
    ⟨.ok, { s with m_nins := nins, m_sample_ins := some (List.replicate nins none) },
      [.setNins nins, .newSampleIns nins]⟩

/-- `DspNode::setNumberOfInlets(nins)`. -/
def setNumberOfInlets (env : DspEnv) (s : DspNode) (nins : Nat) : Run :=
  if s.m_running then
    match getChain s with
    | some chain =>
      match chain.suspend env with
      | .error e => ⟨.thrown e, s, [.suspendThrew e]⟩
      | .ok (state, c) =>
        Run.after [.suspendReturned state]
          (resizeInlets env nins state { s with m_chain := some c })
    | none => (stop s).andThen (resizeInlets env nins false)
  else resizeInlets env nins false s

/-- Lines 161-178 of `setNumberOfOutlets`: the resize, then
`chain->resume(state)` when there is a chain. -/
def resizeOutlets (env : DspEnv) (nouts : Nat) (state : Bool) (s : DspNode) : Run :=
  match getChain s with
  | some chain =>
    match chain.resume env state with
    | .ok c =>
      ⟨.ok, { s with m_nouts := nouts, m_sample_outs := some (List.replicate nouts none),
                      m_chain := some c },
        [.setNouts nouts, .newSampleOuts nouts, .resumeReturned state]⟩
    | .error e =>
      ⟨.thrown e, { s with m_nouts := nouts, m_sample_outs := some (List.replicate nouts none) },
        [.setNouts nouts, .newSampleOuts nouts, .resumeThrew state e]⟩
  | none =>
    ⟨.ok, { s with m_nouts := nouts, m_sample_outs := some (List.replicate nouts none) },
      [.setNouts nouts, .newSampleOuts nouts]⟩

/-- `DspNode::setNumberOfOutlets(nouts)`. -/
def setNumberOfOutlets (env : DspEnv) (s : DspNode) (nouts : Nat) : Run :=
  if s.m_running then
    match getChain s with
    | some chain =>
      match chain.suspend env with
      | .error e => ⟨.thrown e, s, [.suspendThrew e]⟩
      | .ok (state, c) =>
        Run.after [.suspendReturned state]
          (resizeOutlets env nouts state { s with m_chain := some c })
    | none => (stop s).andThen (resizeOutlets env nouts false)
  else resizeOutlets env nouts false s

/-- `DspNode::addInput(node, index)`. -/
def addInput (s : DspNode) (node index : Nat) : Run :=
  if index < s.m_inputs.length then
    match s.m_inputs[index]? with
    | some p => ⟨.ok, { s with m_inputs := s.m_inputs.set index (p.add node) },
                  [.inputAdded index node]⟩
    | none => ⟨.fault, s, []⟩
  else ⟨.ok, s, []⟩

/-- `DspNode::addOutput(node, index)`. -/
def addOutput (s : DspNode) (node index : Nat) : Run :=
  if index < s.m_outputs.length then
    match s.m_outputs[index]? with
    | some p => ⟨.ok, { s with m_outputs := s.m_outputs.set index (p.add node) },
                  [.outputAdded index node]⟩
    | none => ⟨.fault, s, []⟩
  else ⟨.ok, s, []⟩

/-- `DspNode::removeInput(node, index)`: the guard reads `m_outputs.size()`, the
access is `m_inputs[index]`. -/
def removeInput (s : DspNode) (node index : Nat) : Run :=
  if index < s.m_outputs.length then
    match s.m_inputs[index]? with
    | some p => ⟨.ok, { s with m_inputs := s.m_inputs.set index (p.remove node) },
                  [.inputRemoved index node]⟩
    | none => ⟨.fault, s, []⟩
  else ⟨.ok, s, []⟩

/-- `DspNode::removeOutput(node, index)`. -/
def removeOutput (s : DspNode) (node index : Nat) : Run :=
  if index < s.m_outputs.length then
    match s.m_outputs[index]? with
    | some p => ⟨.ok, { s with m_outputs := s.m_outputs.set index (p.remove node) },
                  [.outputRemoved index node]⟩
    | none => ⟨.fault, s, []⟩
  else ⟨.ok, s, []⟩

/-- `DspNode::isInputConnected(index)`; `none` when `m_inputs[index]` is out of
bounds. -/
def isInputConnected (s : DspNode) (index : Nat) : Option Bool :=
  (s.m_inputs[index]?).map fun p => !p.empty

/-- `DspNode::isOutputConnected(index)`; `none` when `m_outputs[index]` is out
of bounds. -/
def isOutputConnected (s : DspNode) (index : Nat) : Option Bool :=
  (s.m_outputs[index]?).map fun p => !p.empty

/-- `DspNode::setInplace(status)`. -/
def setInplace (s : DspNode) (status : Bool) : Run :=
  ⟨.ok, { s with m_inplace := status }, [.setInplace status]⟩

/-- `DspNode::shouldPerform(status)`. -/
def shouldPerform (s : DspNode) (status : Bool) : Run :=
  ⟨.ok, { s with m_running := status }, [.setRunning status]⟩

/-- The input loop of `start()`, with `k` iterations left at index `i`: start
Port `i` (on failure clear the running flag and rethrow), then bind
`m_sample_ins[i]` to the Port's vector. -/
def startInputs (env : DspEnv) : Nat → Nat → DspNode → Run
  | 0, _, s => ⟨.ok, s, []⟩
  | k + 1, i, s =>
    match s.m_inputs[i]? with
    | none => ⟨.fault, s, []⟩
    | some p =>
      match env.startInput p with
      | .error e =>
        ⟨.thrown e, { s with m_running := false }, [.inputStartThrew i e, .setRunning false]⟩
      | .ok q =>
        match s.m_sample_ins with
        | none => ⟨.fault, { s with m_inputs := s.m_inputs.set i q }, [.inputStarted i]⟩
        | some arr =>
          if i < arr.length then
            Run.after [.inputStarted i, .bindInput i q.getVector]
              (startInputs env k (i + 1)
                { s with m_inputs := s.m_inputs.set i q,
                         m_sample_ins := some (arr.set i q.getVector) })
          else ⟨.fault, { s with m_inputs := s.m_inputs.set i q }, [.inputStarted i]⟩

/-- The output loop of `start()`. -/
def startOutputs (env : DspEnv) : Nat → Nat → DspNode → Run
  | 0, _, s => ⟨.ok, s, []⟩
  | k + 1, i, s =>
    match s.m_outputs[i]? with
    | none => ⟨.fault, s, []⟩
    | some p =>
      match env.startOutput p with
      | .error e =>
        ⟨.thrown e, { s with m_running := false }, [.outputStartThrew i e, .setRunning false]⟩
      | .ok q =>
        match s.m_sample_outs with
        | none => ⟨.fault, { s with m_outputs := s.m_outputs.set i q }, [.outputStarted i]⟩
        | some arr =>
          if i < arr.length then
            Run.after [.outputStarted i, .bindOutput i q.getVector]
              (startOutputs env k (i + 1)
                { s with m_outputs := s.m_outputs.set i q,
                         m_sample_outs := some (arr.set i q.getVector) })
          else ⟨.fault, { s with m_outputs := s.m_outputs.set i q }, [.outputStarted i]⟩

/-- One setter call made by `prepare()`. -/
def SetterCall.run (s : DspNode) : SetterCall → Run
  | .shouldPerform status => Kiwi.shouldPerform s status
  | .setInplace status => Kiwi.setInplace s status

/-- The setter calls made by `prepare()`, in order. -/
def runSetterCalls : List SetterCall → DspNode → Run
  | [], s => ⟨.ok, s, []⟩
  | c :: cs, s => (c.run s).andThen (runSetterCalls cs)

/-- The call `prepare();` of line 271: the virtual extension point is invoked on
the node, on which it makes the setter calls the environment gives. -/
def prepare (env : DspEnv) (s : DspNode) : Run :=
  Run.after [.prepare] (runSetterCalls (env.prepare s) s)

/-- Lines 240-269 of `start()`: capture the chain settings, then start and bind
the input Ports and then the output Ports. -/
def startLoops (env : DspEnv) (chain : DspChain) (s : DspNode) : Run :=
  Run.after [.setSampleRate chain.getSampleRate, .setVectorSize chain.getVectorSize]
    ((startInputs env (getNumberOfInputs s) 0
        { s with m_samplerate := chain.getSampleRate,
                 m_vectorsize := chain.getVectorSize }).andThen
      fun s1 => startOutputs env (getNumberOfOutputs s1) 0 s1)

/-- The body of `start()` after `stop()`: the capture of the chain settings and
the two loops, then `prepare()`. -/
def startBody (env : DspEnv) (chain : DspChain) (s : DspNode) : Run :=
  (startLoops env chain s).andThen (prepare env)

/-- `DspNode::start()`. -/
def start (env : DspEnv) (s : DspNode) : Run :=
  match getChain s with
  | some chain => (stop s).andThen (startBody env chain)
  | none => ⟨.ok, s, []⟩


/-! ## Concrete collaborators and nodes -/

/-- An environment in which nothing fails: an input Port `p` receives the vector
`100 + p.index`, an output Port the vector `200 + p.index`; its `prepare()`
calls no setter. -/
def calmEnv : DspEnv :=
  { suspendFailure := none, resumeFailure := none,
    startInput := fun p => .ok { p with vector := some (100 + p.index) },
    startOutput := fun p => .ok { p with vector := some (200 + p.index) },
    prepare := fun _ => [] }

/-- The environment `calmEnv` with a `prepare()` that calls `setInplace(false)`
and ends by calling `shouldPerform(true)`. -/
def eagerEnv : DspEnv :=
  { calmEnv with prepare := fun _ => [.setInplace false, .shouldPerform true] }

/-- The environment `calmEnv` with a `prepare()` that calls
`shouldPerform(false)`. -/
def idleEnv : DspEnv :=
  { calmEnv with prepare := fun _ => [.shouldPerform false] }

/-- An environment whose chain cannot be suspended. -/
def stuckEnv : DspEnv :=
  { calmEnv with suspendFailure := some .suspendFailure }

/-- An environment whose chain suspends but fails to recompile on resume. -/
def cyclicEnv : DspEnv :=
  { calmEnv with resumeFailure := some .cyclicGraph }

/-- An environment in which the input Port of index 1 cannot start. -/
def brokenInputEnv : DspEnv :=
  { calmEnv with
    startInput := fun p =>
      if p.index = 1 then .error .portStartFailure
      else .ok { p with vector := some (100 + p.index) } }

/-- A running chain at 44100 Hz with blocks of 64 samples. -/
def liveChain : DspChain :=
  { samplerate := 44100, vectorsize := 64, running := true }

/-- A stopped node of `liveChain` with two input Ports and one output Port, whose
Port lists and buffer-pointer arrays match its counts; input 0 is fed by node 7
and the output feeds node 9. -/
def wiredNode : DspNode :=
  { m_chain := some liveChain, m_nins := 2, m_sample_ins := some [none, none],
    m_nouts := 1, m_sample_outs := some [none], m_samplerate := 0, m_vectorsize := 0,
    m_inplace := true, m_running := false,
    m_inputs := [⟨0, [7], none⟩, ⟨1, [], none⟩], m_outputs := [⟨0, [9], none⟩] }

/-- The node `wiredNode` once marked running, all three Ports holding a vector. -/
def busyNode : DspNode :=
  { wiredNode with
    m_samplerate := 44100, m_vectorsize := 64, m_running := true,
    m_sample_ins := some [some 100, some 101], m_sample_outs := some [some 200],
    m_inputs := [⟨0, [7], some 100⟩, ⟨1, [], some 101⟩],
    m_outputs := [⟨0, [9], some 200⟩] }

/-- The running node `busyNode` without an owning chain. -/
def orphanNode : DspNode :=
  { busyNode with m_chain := none }

/-! ## Vocabulary for statements -/

/-- Entry `j` of a buffer-pointer array: `none` when the array is null or `j` is
out of bounds, `some v` for the pointer `v` stored there. -/
def bufferEntry (a : Option (List (Option Nat))) (j : Nat) : Option (Option Nat) :=
  a.bind fun arr => arr[j]?

/-- The effects of `m` completed iterations of the input loop of `start()` from
index `i`, read off the Port list `ps` the loop leaves: Port `i` is started, then
`m_sample_ins[i]` is bound to its vector, then the same for `i + 1`, and so on. -/
def inputStartLog (ps : List DspPort) : Nat → Nat → List DspEvent
  | 0, _ => []
  | m + 1, i =>
    [.inputStarted i, .bindInput i ((ps[i]?).bind DspPort.getVector)] ++ inputStartLog ps m (i + 1)

/-- The effects of `m` completed iterations of the output loop of `start()`. -/
def outputStartLog (ps : List DspPort) : Nat → Nat → List DspEvent
  | 0, _ => []
  | m + 1, i =>
    [.outputStarted i, .bindOutput i ((ps[i]?).bind DspPort.getVector)] ++ outputStartLog ps m (i + 1)

/-- An event that records a Port failing to start. -/
def DspEvent.isStartFailure : DspEvent → Bool
  | .inputStartThrew _ _ => true
  | .outputStartThrew _ _ => true
  | _ => false

/-- The run of the input loop inside `start()`, on the state `t` left by the
leading `stop()`. -/
def startInputsRun (env : DspEnv) (chain : DspChain) (t : DspNode) : Run :=
  startInputs env (getNumberOfInputs t) 0
    { t with m_samplerate := chain.getSampleRate, m_vectorsize := chain.getVectorSize }

/-- The run of the output loop inside `start()`, on the state the input loop
leaves. -/
def startOutputsRun (env : DspEnv) (chain : DspChain) (t : DspNode) : Run :=
  startOutputs env (getNumberOfOutputs (startInputsRun env chain t).node) 0
    (startInputsRun env chain t).node

/-- The two assignments that open the body of `start()`. -/
def captureLog (chain : DspChain) : List DspEvent :=
  [.setSampleRate chain.getSampleRate, .setVectorSize chain.getVectorSize]

/-- The Port that `start()` hands to the Port's own `start`: the leading `stop()`
has cleared it when the node was running. -/
def portAtStart (s : DspNode) (p : DspPort) : DspPort :=
  if s.m_running then p.clear else p

/-- Every input and output Port below the counts starts without error when
`start()` reaches it. -/
def portsStart (env : DspEnv) (s : DspNode) : Prop :=
  (∀ j, j < s.m_nins →
    (s.m_inputs[j]?).all (fun p => (env.startInput (portAtStart s p)).isOk) = true) ∧
  (∀ j, j < s.m_nouts →
    (s.m_outputs[j]?).all (fun p => (env.startOutput (portAtStart s p)).isOk) = true)

instance (env : DspEnv) (s : DspNode) : Decidable (portsStart env s) :=
  inferInstanceAs (Decidable (_ ∧ _))

/-! ## Sequences of public operations -/

/-- The public operations of a node, with their arguments. -/
inductive DspOp
  | setNumberOfInlets (n : Nat)
  | setNumberOfOutlets (n : Nat)
  | addInput (node index : Nat)
  | addOutput (node index : Nat)
  | removeInput (node index : Nat)
  | removeOutput (node index : Nat)
  | setInplace (status : Bool)
  | shouldPerform (status : Bool)
  | start
  | stop
  deriving DecidableEq, Repr

/-- Running one public operation on a node. -/
def DspOp.run (env : DspEnv) (s : DspNode) : DspOp → Run
  | .setNumberOfInlets n => Kiwi.setNumberOfInlets env s n
  | .setNumberOfOutlets n => Kiwi.setNumberOfOutlets env s n
  | .addInput node index => Kiwi.addInput s node index
  | .addOutput node index => Kiwi.addOutput s node index
  | .removeInput node index => Kiwi.removeInput s node index
  | .removeOutput node index => Kiwi.removeOutput s node index
  | .setInplace status => Kiwi.setInplace s status
  | .shouldPerform status => Kiwi.shouldPerform s status
  | .start => Kiwi.start env s
  | .stop => Kiwi.stop s

/-- The states a node can be in: the state the constructor leaves, and the state
left by any public operation (returning or throwing, in any environment) issued
on such a state.  An operation that reads out of bounds leaves no state. -/
inductive Reachable : DspNode → Prop
  | fresh (chain : Option DspChain) : Reachable (DspNode.new chain)
  | step {s : DspNode} (env : DspEnv) (op : DspOp) :
      Reachable s → (op.run env s).status ≠ .fault → Reachable (op.run env s).node

/-- An effect that is a call of the Chain's `suspend()`. -/
def DspEvent.isSuspend : DspEvent → Bool
  | .suspendReturned _ => true
  | .suspendThrew _ => true
  | _ => false

/-- An effect that is a call of the Chain's `resume()`. -/
def DspEvent.isResume : DspEvent → Bool
  | .resumeReturned _ => true
  | .resumeThrew _ _ => true
  | _ => false

/-- An effect of `stop()`: the clearing of the flag, `release()`, or the clearing
of a Port. -/
def DspEvent.isStopEffect : DspEvent → Bool
  | .setRunning false => true
  | .release => true
  | .inputCleared _ => true
  | .outputCleared _ => true
  | _ => false

/-- An effect of a loop of `start()` that went through: a Port started, or a
buffer pointer bound. -/
def DspEvent.isStartEffect : DspEvent → Bool
  | .inputStarted _ => true
  | .outputStarted _ => true
  | .bindInput _ _ => true
  | .bindOutput _ _ => true
  | _ => false

/-- The node a constructor call and `setNumberOfInlets(1)` produce. -/
def oneInletNode : DspNode :=
  (setNumberOfInlets calmEnv (DspNode.new (some liveChain)) 1).node

/-- Each buffer-pointer array is as long as the matching port count (a null
array counting as empty). -/
def buffersMatch (s : DspNode) : Prop :=
  bufferLength s.m_sample_ins = getNumberOfInputs s ∧
  bufferLength s.m_sample_outs = getNumberOfOutputs s

instance (s : DspNode) : Decidable (buffersMatch s) :=
  inferInstanceAs (Decidable (_ ∧ _))

/-- Each Port list is as long as the matching port count. -/
def portsMatch (s : DspNode) : Prop :=
  s.m_inputs.length = getNumberOfInputs s ∧ s.m_outputs.length = getNumberOfOutputs s

instance (s : DspNode) : Decidable (portsMatch s) :=
  inferInstanceAs (Decidable (_ ∧ _))

/-- A session on a fresh node of `liveChain`: `setNumberOfInlets(2)`,
`setNumberOfOutlets(1)`, `shouldPerform(true)`, and then a `setNumberOfInlets(5)`
that fails because the chain cannot be suspended. -/
def sessionRun : Run :=
  DspOp.run stuckEnv
    (DspOp.run calmEnv
      (DspOp.run calmEnv
        (DspOp.run calmEnv (DspNode.new (some liveChain)) (.setNumberOfInlets 2)).node
        (.setNumberOfOutlets 1)).node
      (.shouldPerform true)).node
    (.setNumberOfInlets 5)

/-- The status of the last `shouldPerform` call in a list of setter calls, if
there is one. -/
def lastPerform : List SetterCall → Option Bool
  | [] => none
  | .shouldPerform status :: cs =>
    match lastPerform cs with
    | some later => some later
    | none => some status
  | .setInplace _ :: cs => lastPerform cs

/-- The status of the last `setInplace` call in a list of setter calls, if there
is one. -/
def lastInplace : List SetterCall → Option Bool
  | [] => none
  | .setInplace status :: cs =>
    match lastInplace cs with
    | some later => some later
    | none => some status
  | .shouldPerform _ :: cs => lastInplace cs

/-- The run of `start()` up to the point where it calls `prepare()`: the leading
`stop()`, the capture of the chain settings and the two loops.  Its node is the
node `prepare()` is invoked on. -/
def beforePrepare (env : DspEnv) (s : DspNode) : Run :=
  match getChain s with
  | some chain => (stop s).andThen (startLoops env chain)
  | none => ⟨.ok, s, []⟩

/-- A node constructed for the running chain `liveChain`. -/
def freshNode : DspNode :=
  DspNode.new (some liveChain)

/-- The node that `DspNode(chain)`, `setNumberOfInlets(1)` and
`shouldPerform(true)` produce: marked running, with one inlet and no Port. -/
def markedNode : DspNode :=
  (shouldPerform oneInletNode true).node

/-- The node that `DspNode(nullptr)`, `setNumberOfInlets(1)` and
`shouldPerform(true)` produce: running, without a chain, with one inlet and no
Port. -/
def looseNode : DspNode :=
  (shouldPerform (setNumberOfInlets calmEnv (DspNode.new none) 1).node true).node

/-! ## Sequencing -/

theorem Run.after_status (evs : List DspEvent) (r : Run) : (Run.after evs r).status = r.status := rfl

theorem Run.after_node (evs : List DspEvent) (r : Run) : (Run.after evs r).node = r.node := rfl

theorem Run.after_log (evs : List DspEvent) (r : Run) : (Run.after evs r).log = evs ++ r.log := rfl

theorem Run.andThen_ok (r : Run) (f : DspNode → Run) (h : r.status = .ok) :
    r.andThen f = { f r.node with log := r.log ++ (f r.node).log } := by
  simp [Run.andThen, h]

theorem Run.andThen_not_ok (r : Run) (f : DspNode → Run) (h : r.status ≠ .ok) :
    r.andThen f = r := by
  unfold Run.andThen
  cases hs : r.status with
  | ok => exact absurd hs h
  | thrown e => rfl
  | fault => rfl

/-! ## The loops of `stop()` -/

theorem clearInputs_frame (k : Nat) : ∀ (i : Nat) (s : DspNode),
    (clearInputs k i s).node = { s with m_inputs := (clearInputs k i s).node.m_inputs } := by
  induction k with
  | zero => intro i s; rfl
  | succ k ih =>
    intro i s
    rw [clearInputs]
    cases h : s.m_inputs[i]? with
    | none => rfl
    | some p =>
      simp only [Run.after]
      rw [ih]

theorem clearOutputs_frame (k : Nat) : ∀ (i : Nat) (s : DspNode),
    (clearOutputs k i s).node = { s with m_outputs := (clearOutputs k i s).node.m_outputs } := by
  induction k with
  | zero => intro i s; rfl
  | succ k ih =>
    intro i s
    rw [clearOutputs]
    cases h : s.m_outputs[i]? with
    | none => rfl
    | some p =>
      simp only [Run.after]
      rw [ih]

theorem clearInputs_not_thrown (k : Nat) : ∀ (i : Nat) (s : DspNode) (e : DspError),
    (clearInputs k i s).status ≠ .thrown e := by
  induction k with
  | zero => intro i s e h; cases h
  | succ k ih =>
    intro i s e
    rw [clearInputs]
    cases h : s.m_inputs[i]? with
    | none => intro h; cases h
    | some p => exact ih _ _ e

theorem clearOutputs_not_thrown (k : Nat) : ∀ (i : Nat) (s : DspNode) (e : DspError),
    (clearOutputs k i s).status ≠ .thrown e := by
  induction k with
  | zero => intro i s e h; cases h
  | succ k ih =>
    intro i s e
    rw [clearOutputs]
    cases h : s.m_outputs[i]? with
    | none => intro h; cases h
    | some p => exact ih _ _ e

theorem clearInputs_spec (k : Nat) : ∀ (i : Nat) (s : DspNode), i + k ≤ s.m_inputs.length →
    (clearInputs k i s).status = .ok ∧
    (clearInputs k i s).log = (List.range' i k).map DspEvent.inputCleared ∧
    ∀ j, (clearInputs k i s).node.m_inputs[j]? =
      if i ≤ j ∧ j < i + k then (s.m_inputs[j]?).map DspPort.clear else s.m_inputs[j]? := by
  induction k with
  | zero =>
    intro i s _
    refine ⟨rfl, rfl, fun j => ?_⟩
    have : ¬ (i ≤ j ∧ j < i + 0) := by omega
    rw [if_neg this]; rfl
  | succ k ih =>
    intro i s hlen
    rw [clearInputs]
    have hi : i < s.m_inputs.length := by omega
    rw [List.getElem?_eq_getElem hi]
    simp only [Run.after]
    obtain ⟨h1, h2, h3⟩ := ih (i + 1) { s with m_inputs := s.m_inputs.set i (s.m_inputs[i]).clear }
      (by simp; omega)
    refine ⟨h1, ?_, fun j => ?_⟩
    · rw [h2]; simp [List.range'_succ]
    · rw [h3 j]
      simp only [List.getElem?_set]
      by_cases hj : i = j
      · subst hj
        simp [hi]
      · by_cases hj2 : i + 1 ≤ j ∧ j < i + 1 + k
        · have : i ≤ j ∧ j < i + (k + 1) := by omega
          simp [hj, hj2, this]
        · have : ¬ (i ≤ j ∧ j < i + (k + 1)) := by omega
          simp [hj, hj2, this]

theorem clearOutputs_spec (k : Nat) : ∀ (i : Nat) (s : DspNode), i + k ≤ s.m_outputs.length →
    (clearOutputs k i s).status = .ok ∧
    (clearOutputs k i s).log = (List.range' i k).map DspEvent.outputCleared ∧
    ∀ j, (clearOutputs k i s).node.m_outputs[j]? =
      if i ≤ j ∧ j < i + k then (s.m_outputs[j]?).map DspPort.clear else s.m_outputs[j]? := by
  induction k with
  | zero =>
    intro i s _
    refine ⟨rfl, rfl, fun j => ?_⟩
    have : ¬ (i ≤ j ∧ j < i + 0) := by omega
    rw [if_neg this]; rfl
  | succ k ih =>
    intro i s hlen
    rw [clearOutputs]
    have hi : i < s.m_outputs.length := by omega
    rw [List.getElem?_eq_getElem hi]
    simp only [Run.after]
    obtain ⟨h1, h2, h3⟩ := ih (i + 1) { s with m_outputs := s.m_outputs.set i (s.m_outputs[i]).clear }
      (by simp; omega)
    refine ⟨h1, ?_, fun j => ?_⟩
    · rw [h2]; simp [List.range'_succ]
    · rw [h3 j]
      simp only [List.getElem?_set]
      by_cases hj : i = j
      · subst hj
        simp [hi]
      · by_cases hj2 : i + 1 ≤ j ∧ j < i + 1 + k
        · have : i ≤ j ∧ j < i + (k + 1) := by omega
          simp [hj, hj2, this]
        · have : ¬ (i ≤ j ∧ j < i + (k + 1)) := by omega
          simp [hj, hj2, this]

/-! ## `stop()` -/

theorem stop_of_not_running (s : DspNode) (h : s.m_running = false) : stop s = ⟨.ok, s, []⟩ := by
  simp [stop, h]

/-- Whatever the outcome, `stop()` only touches the running flag and the Ports. -/
theorem stop_frame (s : DspNode) :
    (stop s).node = { s with m_running := false, m_inputs := (stop s).node.m_inputs,
                             m_outputs := (stop s).node.m_outputs } := by
  unfold stop
  by_cases hr : s.m_running = true
  · rw [if_pos hr, Run.after_node]
    unfold Run.andThen
    split
    · dsimp only
      rw [clearOutputs_frame, clearInputs_frame]
    · rw [clearInputs_frame]
  · have hf : s.m_running = false := by simpa using hr
    rw [if_neg hr]
    cases s
    simp_all

theorem stop_running (s : DspNode) : (stop s).node.m_running = false := by
  rw [stop_frame]

theorem stop_not_thrown (s : DspNode) (e : DspError) : (stop s).status ≠ .thrown e := by
  unfold stop
  split
  · rw [Run.after_status]
    unfold Run.andThen
    split
    · exact clearOutputs_not_thrown _ _ _ e
    · exact clearInputs_not_thrown _ _ _ e
  · intro h; cases h


theorem clearInputs_length (k : Nat) : ∀ (i : Nat) (s : DspNode),
    (clearInputs k i s).node.m_inputs.length = s.m_inputs.length := by
  induction k with
  | zero => intro i s; rfl
  | succ k ih =>
    intro i s
    rw [clearInputs]
    cases h : s.m_inputs[i]? with
    | none => rfl
    | some p =>
      simp only [Run.after_node]
      rw [ih]; simp

theorem clearOutputs_length (k : Nat) : ∀ (i : Nat) (s : DspNode),
    (clearOutputs k i s).node.m_outputs.length = s.m_outputs.length := by
  induction k with
  | zero => intro i s; rfl
  | succ k ih =>
    intro i s
    rw [clearOutputs]
    cases h : s.m_outputs[i]? with
    | none => rfl
    | some p =>
      simp only [Run.after_node]
      rw [ih]; simp

theorem clearInputs_log (k : Nat) : ∀ (i : Nat) (s : DspNode),
    ∀ ev ∈ (clearInputs k i s).log, ev ≠ .prepare ∧ ev.isStartFailure = false := by
  induction k with
  | zero => intro i s ev h; simp [clearInputs] at h
  | succ k ih =>
    intro i s ev
    rw [clearInputs]
    cases hp : s.m_inputs[i]? with
    | none => intro h; simp at h
    | some p =>
      simp only [Run.after_log, List.cons_append, List.nil_append, List.mem_cons]
      rintro (h | h)
      · subst h; exact ⟨(by intro h; cases h), rfl⟩
      · exact ih _ _ ev h

theorem clearOutputs_log (k : Nat) : ∀ (i : Nat) (s : DspNode),
    ∀ ev ∈ (clearOutputs k i s).log, ev ≠ .prepare ∧ ev.isStartFailure = false := by
  induction k with
  | zero => intro i s ev h; simp [clearOutputs] at h
  | succ k ih =>
    intro i s ev
    rw [clearOutputs]
    cases hp : s.m_outputs[i]? with
    | none => intro h; simp at h
    | some p =>
      simp only [Run.after_log, List.cons_append, List.nil_append, List.mem_cons]
      rintro (h | h)
      · subst h; exact ⟨(by intro h; cases h), rfl⟩
      · exact ih _ _ ev h

/-- `stop()` keeps the lengths of both Port lists. -/
theorem stop_lengths (s : DspNode) :
    (stop s).node.m_inputs.length = s.m_inputs.length ∧
    (stop s).node.m_outputs.length = s.m_outputs.length := by
  unfold stop
  split
  · rw [Run.after_node]
    unfold Run.andThen
    split
    · dsimp only
      rw [clearOutputs_length, clearOutputs_frame]
      dsimp only
      rw [clearInputs_frame]
      dsimp only
      rw [clearInputs_length]
      exact ⟨rfl, rfl⟩
    · rw [clearInputs_length, clearInputs_frame]
      exact ⟨rfl, rfl⟩
  · exact ⟨rfl, rfl⟩

/-- `stop()` neither calls `prepare()` nor starts a Port. -/
theorem stop_log_clean (s : DspNode) :
    ∀ ev ∈ (stop s).log, ev ≠ .prepare ∧ ev.isStartFailure = false := by
  intro ev
  unfold stop
  split
  · simp only [Run.after_log, List.cons_append, List.nil_append, List.mem_cons]
    rintro (h | h | h)
    · subst h; exact ⟨(by intro h; cases h), rfl⟩
    · subst h; exact ⟨(by intro h; cases h), rfl⟩
    · revert h
      unfold Run.andThen
      split
      · simp only [List.mem_append]
        rintro (h | h)
        · exact clearInputs_log _ _ _ ev h
        · exact clearOutputs_log _ _ _ ev h
      · exact clearInputs_log _ _ _ ev
  · intro h; simp at h

/-- On a running node whose Port lists hold a Port for every index below
the counts, `stop()` returns after clearing the running flag, invoking
`release()` and clearing input Ports `0 .. m_nins - 1` then output Ports
`0 .. m_nouts - 1`, in that order.  Every Port below the counts is cleared, and
nothing else changes: the chain, both counts, both buffer-pointer arrays, the
sample rate, the block size and the in-place flag are as before, and so is the
peer set of every Port. -/
theorem stop_running_spec (s : DspNode) (hrun : s.m_running = true)
    (hin : s.m_nins ≤ s.m_inputs.length) (hout : s.m_nouts ≤ s.m_outputs.length) :
    (stop s).status = .ok ∧
    (stop s).log = [.setRunning false, .release]
      ++ (List.range s.m_nins).map DspEvent.inputCleared
      ++ (List.range s.m_nouts).map DspEvent.outputCleared ∧
    (stop s).node = { s with m_running := false, m_inputs := (stop s).node.m_inputs,
                             m_outputs := (stop s).node.m_outputs } ∧
    (∀ j, (stop s).node.m_inputs[j]? =
      if j < s.m_nins then (s.m_inputs[j]?).map DspPort.clear else s.m_inputs[j]?) ∧
    (∀ j, (stop s).node.m_outputs[j]? =
      if j < s.m_nouts then (s.m_outputs[j]?).map DspPort.clear else s.m_outputs[j]?) ∧
    (stop s).node.m_inputs.map DspPort.peers = s.m_inputs.map DspPort.peers ∧
    (stop s).node.m_outputs.map DspPort.peers = s.m_outputs.map DspPort.peers := by
  obtain ⟨a1, a2, a3⟩ := clearInputs_spec s.m_nins 0 { s with m_running := false }
    (by simpa using hin)
  have hfr := clearInputs_frame s.m_nins 0 { s with m_running := false }
  obtain ⟨b1, b2, b3⟩ := clearOutputs_spec s.m_nouts 0
    (clearInputs s.m_nins 0 { s with m_running := false }).node
    (by rw [hfr]; simpa using hout)
  have hfr2 := clearOutputs_frame s.m_nouts 0
    (clearInputs s.m_nins 0 { s with m_running := false }).node
  have hstop : stop s = Run.after [.setRunning false, .release]
      ((clearInputs s.m_nins 0 { s with m_running := false }).andThen
        fun s1 => clearOutputs s1.m_nouts 0 s1) := by
    simp [stop, hrun, getNumberOfInputs, getNumberOfOutputs]
  have hnouts : (clearInputs s.m_nins 0 { s with m_running := false }).node.m_nouts = s.m_nouts := by
    rw [hfr]
  rw [Run.andThen_ok _ _ a1] at hstop
  simp only [hnouts] at hstop
  have hI : ∀ j, (stop s).node.m_inputs[j]? =
      if j < s.m_nins then (s.m_inputs[j]?).map DspPort.clear else s.m_inputs[j]? := by
    intro j
    rw [hstop]
    simp only [Run.after_node]
    rw [hfr2]
    simpa using a3 j
  have hO : ∀ j, (stop s).node.m_outputs[j]? =
      if j < s.m_nouts then (s.m_outputs[j]?).map DspPort.clear else s.m_outputs[j]? := by
    intro j
    rw [hstop]
    simp only [Run.after_node]
    rw [b3 j, hfr]
    simp
  refine ⟨?_, ?_, stop_frame s, hI, hO, ?_, ?_⟩
  · rw [hstop]; exact b1
  · rw [hstop]
    simp only [Run.after_log, b2, a2, List.range_eq_range']
    simp
  · apply List.ext_getElem?
    intro j
    simp only [List.getElem?_map, hI j]
    split
    · cases s.m_inputs[j]? <;> rfl
    · rfl
  · apply List.ext_getElem?
    intro j
    simp only [List.getElem?_map, hO j]
    split
    · cases s.m_outputs[j]? <;> rfl
    · rfl

/-! ## The resize of `setNumberOfInlets` / `setNumberOfOutlets` -/

theorem resizeInlets_node (env : DspEnv) (n : Nat) (state : Bool) (s : DspNode) :
    (resizeInlets env n state s).node.m_nins = n ∧
    (resizeInlets env n state s).node.m_sample_ins = some (List.replicate n none) := by
  unfold resizeInlets
  cases getChain s with
  | none => exact ⟨rfl, rfl⟩
  | some chain =>
    dsimp only
    cases chain.resume env state with
    | ok c => exact ⟨rfl, rfl⟩
    | error e => exact ⟨rfl, rfl⟩

theorem resizeOutlets_node (env : DspEnv) (n : Nat) (state : Bool) (s : DspNode) :
    (resizeOutlets env n state s).node.m_nouts = n ∧
    (resizeOutlets env n state s).node.m_sample_outs = some (List.replicate n none) := by
  unfold resizeOutlets
  cases getChain s with
  | none => exact ⟨rfl, rfl⟩
  | some chain =>
    dsimp only
    cases chain.resume env state with
    | ok c => exact ⟨rfl, rfl⟩
    | error e => exact ⟨rfl, rfl⟩

theorem resume_false (env : DspEnv) (c : DspChain) : c.resume env false = .ok c := rfl

theorem resizeInlets_false_ok (env : DspEnv) (n : Nat) (s : DspNode) :
    (resizeInlets env n false s).status = .ok := by
  unfold resizeInlets
  cases getChain s with
  | none => rfl
  | some chain => simp [resume_false]

theorem resizeOutlets_false_ok (env : DspEnv) (n : Nat) (s : DspNode) :
    (resizeOutlets env n false s).status = .ok := by
  unfold resizeOutlets
  cases getChain s with
  | none => rfl
  | some chain => simp [resume_false]

/-- Either `setNumberOfInlets` stopped before the resize (the chain refused to
suspend, or the forced `stop()` did not return), or the resize took place. -/
theorem setNumberOfInlets_cases (env : DspEnv) (s : DspNode) (n : Nat) :
    (∃ e, setNumberOfInlets env s n = ⟨.thrown e, s, [.suspendThrew e]⟩) ∨
    (setNumberOfInlets env s n).status = .fault ∨
    ((setNumberOfInlets env s n).node.m_nins = n ∧
      (setNumberOfInlets env s n).node.m_sample_ins = some (List.replicate n none)) := by
  unfold setNumberOfInlets
  split
  · cases getChain s with
    | none =>
      dsimp only
      cases hst : (stop s).status with
      | ok =>
        right; right
        rw [Run.andThen_ok _ _ hst]
        exact resizeInlets_node env n false _
      | thrown e => exact absurd hst (stop_not_thrown s e)
      | fault =>
        right; left
        rw [Run.andThen_not_ok _ _ (by rw [hst]; intro h; cases h)]
        exact hst
    | some chain =>
      dsimp only
      cases chain.suspend env with
      | error e => left; exact ⟨e, rfl⟩
      | ok r =>
        right; right
        obtain ⟨state, c⟩ := r
        exact resizeInlets_node env n state _
  · right; right
    exact resizeInlets_node env n false s

/-- The same case analysis for `setNumberOfOutlets`. -/
theorem setNumberOfOutlets_cases (env : DspEnv) (s : DspNode) (n : Nat) :
    (∃ e, setNumberOfOutlets env s n = ⟨.thrown e, s, [.suspendThrew e]⟩) ∨
    (setNumberOfOutlets env s n).status = .fault ∨
    ((setNumberOfOutlets env s n).node.m_nouts = n ∧
      (setNumberOfOutlets env s n).node.m_sample_outs = some (List.replicate n none)) := by
  unfold setNumberOfOutlets
  split
  · cases getChain s with
    | none =>
      dsimp only
      cases hst : (stop s).status with
      | ok =>
        right; right
        rw [Run.andThen_ok _ _ hst]
        exact resizeOutlets_node env n false _
      | thrown e => exact absurd hst (stop_not_thrown s e)
      | fault =>
        right; left
        rw [Run.andThen_not_ok _ _ (by rw [hst]; intro h; cases h)]
        exact hst
    | some chain =>
      dsimp only
      cases chain.suspend env with
      | error e => left; exact ⟨e, rfl⟩
      | ok r =>
        right; right
        obtain ⟨state, c⟩ := r
        exact resizeOutlets_node env n state _
  · right; right
    exact resizeOutlets_node env n false s

theorem resizeInlets_thrown (env : DspEnv) (n : Nat) (state : Bool) (s : DspNode) (e : DspError)
    (h : (resizeInlets env n state s).status = .thrown e) :
    state = true ∧
    resizeInlets env n state s =
      ⟨.thrown e, { s with m_nins := n, m_sample_ins := some (List.replicate n none) },
        [.setNins n, .newSampleIns n, .resumeThrew true e]⟩ := by
  cases state with
  | false => rw [resizeInlets_false_ok] at h; cases h
  | true =>
    refine ⟨rfl, ?_⟩
    unfold resizeInlets at h ⊢
    cases hc : getChain s with
    | none => rw [hc] at h; cases h
    | some chain =>
      rw [hc] at h
      dsimp only at h ⊢
      cases hr : chain.resume env true with
      | ok c => rw [hr] at h; cases h
      | error e2 =>
        rw [hr] at h
        dsimp only at h ⊢
        cases h
        rfl

theorem resizeOutlets_thrown (env : DspEnv) (n : Nat) (state : Bool) (s : DspNode) (e : DspError)
    (h : (resizeOutlets env n state s).status = .thrown e) :
    state = true ∧
    resizeOutlets env n state s =
      ⟨.thrown e, { s with m_nouts := n, m_sample_outs := some (List.replicate n none) },
        [.setNouts n, .newSampleOuts n, .resumeThrew true e]⟩ := by
  cases state with
  | false => rw [resizeOutlets_false_ok] at h; cases h
  | true =>
    refine ⟨rfl, ?_⟩
    unfold resizeOutlets at h ⊢
    cases hc : getChain s with
    | none => rw [hc] at h; cases h
    | some chain =>
      rw [hc] at h
      dsimp only at h ⊢
      cases hr : chain.resume env true with
      | ok c => rw [hr] at h; cases h
      | error e2 =>
        rw [hr] at h
        dsimp only at h ⊢
        cases h
        rfl

theorem suspend_ok_chain (env : DspEnv) (chain c : DspChain) (state : Bool)
    (h : chain.suspend env = .ok (state, c)) :
    state = chain.running ∧ c = { chain with running := false } := by
  unfold DspChain.suspend at h
  cases hr : chain.running with
  | false =>
    rw [hr] at h
    simp at h
    obtain ⟨h1, h2⟩ := h
    subst h1 h2
    cases chain
    simp_all
  | true =>
    rw [hr] at h
    cases hs : env.suspendFailure with
    | none =>
      rw [hs] at h
      simp at h
      obtain ⟨h1, h2⟩ := h
      exact ⟨h1, h2.symm⟩
    | some e2 => rw [hs] at h; simp at h

theorem inputStartLog_congr (ps qs : List DspPort) (m : Nat) : ∀ i,
    (∀ j, i ≤ j → j < i + m → ps[j]? = qs[j]?) → inputStartLog ps m i = inputStartLog qs m i := by
  induction m with
  | zero => intro i _; rfl
  | succ m ih =>
    intro i h
    simp only [inputStartLog]
    rw [h i (le_refl i) (by omega), ih (i + 1) (fun j h1 h2 => h j (by omega) (by omega))]

/-- What the input loop of `start()` has done when it does not run out of
bounds: it completed `m` iterations, each of which started a Port and bound the
matching buffer pointer; everything else is untouched; it either finished or
stopped at Port `i + m`, which failed to start. -/
theorem startInputs_progress (env : DspEnv) (k : Nat) : ∀ (i : Nat) (s : DspNode),
    (startInputs env k i s).status ≠ .fault →
    ∃ m, m ≤ k ∧
      (∀ j, i ≤ j → j < i + m → ∃ p q, s.m_inputs[j]? = some p ∧ env.startInput p = .ok q ∧
        (startInputs env k i s).node.m_inputs[j]? = some q ∧
        bufferEntry (startInputs env k i s).node.m_sample_ins j = some q.getVector) ∧
      (∀ j, (j < i ∨ i + m ≤ j) →
        (startInputs env k i s).node.m_inputs[j]? = s.m_inputs[j]? ∧
        bufferEntry (startInputs env k i s).node.m_sample_ins j = bufferEntry s.m_sample_ins j) ∧
      ((startInputs env k i s).status = .ok → m = k ∧
        (startInputs env k i s).log = inputStartLog (startInputs env k i s).node.m_inputs m i ∧
        (startInputs env k i s).node.m_running = s.m_running) ∧
      (∀ e, (startInputs env k i s).status = .thrown e → m < k ∧
        (startInputs env k i s).log = inputStartLog (startInputs env k i s).node.m_inputs m i
          ++ [.inputStartThrew (i + m) e, .setRunning false] ∧
        (startInputs env k i s).node.m_running = false ∧
        ∃ p, s.m_inputs[i + m]? = some p ∧ env.startInput p = .error e) := by
  induction k with
  | zero =>
    intro i s _
    refine ⟨0, le_refl 0, fun j h1 h2 => by omega, fun j _ => ⟨rfl, rfl⟩, fun _ => ⟨rfl, rfl, rfl⟩,
      fun e h => by cases h⟩
  | succ k ih =>
    intro i s
    rw [startInputs]
    cases hp : s.m_inputs[i]? with
    | none => intro h; exact absurd rfl h
    | some p =>
      dsimp only
      cases hq : env.startInput p with
      | error e =>
        dsimp only
        intro _
        refine ⟨0, Nat.zero_le _, ?_, ?_, ?_, ?_⟩
        · intro j h1 h2; omega
        · intro j _; exact ⟨rfl, rfl⟩
        · intro h; cases h
        · intro e2 h
          cases h
          exact ⟨Nat.succ_pos k, rfl, rfl, p, hp, hq⟩
      | ok q =>
        dsimp only
        cases harr : s.m_sample_ins with
        | none => dsimp only; intro h; exact absurd rfl h
        | some arr =>
          dsimp only
          by_cases hi : i < arr.length
          · rw [if_pos hi]
            simp only [Run.after_status, Run.after_node, Run.after_log]
            intro hnf
            have hil : i < s.m_inputs.length := by
              rcases Nat.lt_or_ge i s.m_inputs.length with h | h
              · exact h
              · rw [List.getElem?_eq_none h] at hp; cases hp
            obtain ⟨m, hm, hA, hB, hC, hD⟩ := ih (i + 1)
              { s with m_inputs := s.m_inputs.set i q,
                       m_sample_ins := some (arr.set i q.getVector) } hnf
            have hIi := (hB i (Or.inl (Nat.lt_succ_self i))).1
            have hBi := (hB i (Or.inl (Nat.lt_succ_self i))).2
            simp only [List.getElem?_set, bufferEntry, Option.bind] at hIi hBi
            simp [hil, hi] at hIi hBi
            refine ⟨m + 1, by omega, ?_, ?_, ?_, ?_⟩
            · intro j h1 h2
              by_cases hji : j = i
              · subst hji
                exact ⟨p, q, hp, hq, hIi, hBi⟩
              · obtain ⟨p2, q2, a1, a2, a3, a4⟩ := hA j (by omega) (by omega)
                refine ⟨p2, q2, ?_, a2, a3, a4⟩
                simpa [List.getElem?_set, Ne.symm hji] using a1
            · intro j hj
              obtain ⟨b1, b2⟩ := hB j (by omega)
              have hji : i ≠ j := by omega
              constructor
              · rw [b1]; simp [List.getElem?_set, hji]
              · rw [b2]; simp [bufferEntry, List.getElem?_set, hji, harr]
            · intro hok
              obtain ⟨c1, c2, c3⟩ := hC hok
              refine ⟨by omega, ?_, c3⟩
              rw [c2]
              simp only [inputStartLog, hIi]
              rfl
            · intro e he
              obtain ⟨d1, d2, d3, p2, d4, d5⟩ := hD e he
              refine ⟨by omega, ?_, d3, p2, ?_, d5⟩
              · rw [d2]
                simp only [inputStartLog, hIi]
                have : i + 1 + m = i + (m + 1) := by omega
                rw [this]
                rfl
              · have : i + (m + 1) = i + 1 + m := by omega
                rw [this]
                have hne : i ≠ i + 1 + m := by omega
                simpa [List.getElem?_set, hne] using d4
          · rw [if_neg hi]; intro h; exact absurd rfl h

/-- Whatever its outcome, the input loop of `start()` only touches the input
Ports, the entries of the input buffer-pointer array and the running flag, which
it can only clear; the Port list and the array keep their lengths. -/
theorem startInputs_frame (env : DspEnv) (k : Nat) : ∀ (i : Nat) (s : DspNode),
    (startInputs env k i s).node =
      { s with m_inputs := (startInputs env k i s).node.m_inputs,
               m_sample_ins := (startInputs env k i s).node.m_sample_ins,
               m_running := (startInputs env k i s).node.m_running } ∧
    (s.m_running = false → (startInputs env k i s).node.m_running = false) ∧
    (startInputs env k i s).node.m_inputs.length = s.m_inputs.length ∧
    bufferLength (startInputs env k i s).node.m_sample_ins = bufferLength s.m_sample_ins := by
  induction k with
  | zero => intro i s; exact ⟨rfl, fun h => h, rfl, rfl⟩
  | succ k ih =>
    intro i s
    rw [startInputs]
    cases hp : s.m_inputs[i]? with
    | none => exact ⟨rfl, fun h => h, rfl, rfl⟩
    | some p =>
      dsimp only
      cases hq : env.startInput p with
      | error e => exact ⟨rfl, fun _ => rfl, rfl, rfl⟩
      | ok q =>
        dsimp only
        cases harr : s.m_sample_ins with
        | none =>
          dsimp only
          exact ⟨rfl, fun h => h, by simp, rfl⟩
        | some arr =>
          dsimp only
          by_cases hi : i < arr.length
          · rw [if_pos hi]
            simp only [Run.after_node]
            obtain ⟨h1, h2, h3, h4⟩ := ih (i + 1)
              { s with m_inputs := s.m_inputs.set i q,
                       m_sample_ins := some (arr.set i q.getVector) }
            refine ⟨?_, h2, ?_, ?_⟩
            · rw [h1]
            · rw [h3]; simp
            · rw [h4]; simp [bufferLength]
          · rw [if_neg hi]
            dsimp only
            exact ⟨rfl, fun h => h, by simp, rfl⟩

/-- The input loop of `start()` never calls `prepare()`, and it records a Port
failure only when it ends by throwing. -/
theorem startInputs_log_clean (env : DspEnv) (k : Nat) : ∀ (i : Nat) (s : DspNode),
    DspEvent.prepare ∉ (startInputs env k i s).log ∧
    ((∀ e, (startInputs env k i s).status ≠ .thrown e) →
      ∀ ev ∈ (startInputs env k i s).log, ev.isStartFailure = false) := by
  induction k with
  | zero => intro i s; exact ⟨by simp [startInputs], fun _ ev h => by simp [startInputs] at h⟩
  | succ k ih =>
    intro i s
    rw [startInputs]
    cases hp : s.m_inputs[i]? with
    | none => exact ⟨by simp, fun _ ev h => by simp at h⟩
    | some p =>
      dsimp only
      cases hq : env.startInput p with
      | error e =>
        dsimp only
        exact ⟨by simp, fun h => absurd rfl (h e)⟩
      | ok q =>
        dsimp only
        cases harr : s.m_sample_ins with
        | none =>
          dsimp only
          refine ⟨by simp, fun _ ev h => ?_⟩
          simp at h
          subst h
          rfl
        | some arr =>
          dsimp only
          by_cases hi : i < arr.length
          · rw [if_pos hi]
            simp only [Run.after_status, Run.after_log]
            obtain ⟨h1, h2⟩ := ih (i + 1)
              { s with m_inputs := s.m_inputs.set i q,
                       m_sample_ins := some (arr.set i q.getVector) }
            refine ⟨?_, fun hne ev hev => ?_⟩
            · simpa using h1
            · simp only [List.cons_append, List.nil_append, List.mem_cons] at hev
              rcases hev with h | h | h
              · subst h; rfl
              · subst h; rfl
              · exact h2 hne ev h
          · rw [if_neg hi]
            dsimp only
            refine ⟨by simp, fun _ ev h => ?_⟩
            simp at h
            subst h
            rfl

/-- The events of completed iterations hold neither `prepare()` nor a Port
failure. -/
theorem inputStartLog_clean (ps : List DspPort) (m : Nat) : ∀ i, ∀ ev ∈ inputStartLog ps m i,
    ev ≠ .prepare ∧ ev.isStartFailure = false := by
  induction m with
  | zero => intro i ev h; simp [inputStartLog] at h
  | succ m ih =>
    intro i ev h
    simp only [inputStartLog, List.cons_append, List.nil_append, List.mem_cons] at h
    rcases h with h | h | h
    · subst h; exact ⟨(by intro h; cases h), rfl⟩
    · subst h; exact ⟨(by intro h; cases h), rfl⟩
    · exact ih (i + 1) ev h

/-- When every Port the input loop of `start()` reaches exists, starts without
error and has a buffer-pointer entry to be bound to, the loop returns. -/
theorem startInputs_ok (env : DspEnv) (k : Nat) : ∀ (i : Nat) (s : DspNode),
    i + k ≤ s.m_inputs.length → i + k ≤ bufferLength s.m_sample_ins →
    (∀ j p, i ≤ j → j < i + k → s.m_inputs[j]? = some p → ∃ q, env.startInput p = .ok q) →
    (startInputs env k i s).status = .ok := by
  induction k with
  | zero => intro i s _ _ _; rfl
  | succ k ih =>
    intro i s h1 h2 h3
    rw [startInputs]
    have hil : i < s.m_inputs.length := by omega
    rw [List.getElem?_eq_getElem hil]
    dsimp only
    obtain ⟨q, hq⟩ := h3 i s.m_inputs[i] (le_refl i) (by omega) (List.getElem?_eq_getElem hil)
    rw [hq]
    dsimp only
    cases harr : s.m_sample_ins with
    | none => rw [harr] at h2; simp [bufferLength] at h2
    | some arr =>
      rw [harr] at h2
      have hi : i < arr.length := by simp only [bufferLength] at h2; omega
      dsimp only
      rw [if_pos hi, Run.after_status]
      refine ih (i + 1) _ (by simp; omega) (by simp only [bufferLength] at h2 ⊢; simp; omega) ?_
      intro j p hj1 hj2 hjp
      have hne : i ≠ j := by omega
      simp only [List.getElem?_set, hne, if_false] at hjp
      exact h3 j p (by omega) (by omega) hjp

theorem outputStartLog_congr (ps qs : List DspPort) (m : Nat) : ∀ i,
    (∀ j, i ≤ j → j < i + m → ps[j]? = qs[j]?) → outputStartLog ps m i = outputStartLog qs m i := by
  induction m with
  | zero => intro i _; rfl
  | succ m ih =>
    intro i h
    simp only [outputStartLog]
    rw [h i (le_refl i) (by omega), ih (i + 1) (fun j h1 h2 => h j (by omega) (by omega))]

/-- What the output loop of `start()` has done when it does not run out of
bounds: it completed `m` iterations, each of which started a Port and bound the
matching buffer pointer; everything else is untouched; it either finished or
stopped at Port `i + m`, which failed to start. -/
theorem startOutputs_progress (env : DspEnv) (k : Nat) : ∀ (i : Nat) (s : DspNode),
    (startOutputs env k i s).status ≠ .fault →
    ∃ m, m ≤ k ∧
      (∀ j, i ≤ j → j < i + m → ∃ p q, s.m_outputs[j]? = some p ∧ env.startOutput p = .ok q ∧
        (startOutputs env k i s).node.m_outputs[j]? = some q ∧
        bufferEntry (startOutputs env k i s).node.m_sample_outs j = some q.getVector) ∧
      (∀ j, (j < i ∨ i + m ≤ j) →
        (startOutputs env k i s).node.m_outputs[j]? = s.m_outputs[j]? ∧
        bufferEntry (startOutputs env k i s).node.m_sample_outs j = bufferEntry s.m_sample_outs j) ∧
      ((startOutputs env k i s).status = .ok → m = k ∧
        (startOutputs env k i s).log = outputStartLog (startOutputs env k i s).node.m_outputs m i ∧
        (startOutputs env k i s).node.m_running = s.m_running) ∧
      (∀ e, (startOutputs env k i s).status = .thrown e → m < k ∧
        (startOutputs env k i s).log = outputStartLog (startOutputs env k i s).node.m_outputs m i
          ++ [.outputStartThrew (i + m) e, .setRunning false] ∧
        (startOutputs env k i s).node.m_running = false ∧
        ∃ p, s.m_outputs[i + m]? = some p ∧ env.startOutput p = .error e) := by
  induction k with
  | zero =>
    intro i s _
    refine ⟨0, le_refl 0, fun j h1 h2 => by omega, fun j _ => ⟨rfl, rfl⟩, fun _ => ⟨rfl, rfl, rfl⟩,
      fun e h => by cases h⟩
  | succ k ih =>
    intro i s
    rw [startOutputs]
    cases hp : s.m_outputs[i]? with
    | none => intro h; exact absurd rfl h
    | some p =>
      dsimp only
      cases hq : env.startOutput p with
      | error e =>
        dsimp only
        intro _
        refine ⟨0, Nat.zero_le _, ?_, ?_, ?_, ?_⟩
        · intro j h1 h2; omega
        · intro j _; exact ⟨rfl, rfl⟩
        · intro h; cases h
        · intro e2 h
          cases h
          exact ⟨Nat.succ_pos k, rfl, rfl, p, hp, hq⟩
      | ok q =>
        dsimp only
        cases harr : s.m_sample_outs with
        | none => dsimp only; intro h; exact absurd rfl h
        | some arr =>
          dsimp only
          by_cases hi : i < arr.length
          · rw [if_pos hi]
            simp only [Run.after_status, Run.after_node, Run.after_log]
            intro hnf
            have hil : i < s.m_outputs.length := by
              rcases Nat.lt_or_ge i s.m_outputs.length with h | h
              · exact h
              · rw [List.getElem?_eq_none h] at hp; cases hp
            obtain ⟨m, hm, hA, hB, hC, hD⟩ := ih (i + 1)
              { s with m_outputs := s.m_outputs.set i q,
                       m_sample_outs := some (arr.set i q.getVector) } hnf
            have hIi := (hB i (Or.inl (Nat.lt_succ_self i))).1
            have hBi := (hB i (Or.inl (Nat.lt_succ_self i))).2
            simp only [List.getElem?_set, bufferEntry, Option.bind] at hIi hBi
            simp [hil, hi] at hIi hBi
            refine ⟨m + 1, by omega, ?_, ?_, ?_, ?_⟩
            · intro j h1 h2
              by_cases hji : j = i
              · subst hji
                exact ⟨p, q, hp, hq, hIi, hBi⟩
              · obtain ⟨p2, q2, a1, a2, a3, a4⟩ := hA j (by omega) (by omega)
                refine ⟨p2, q2, ?_, a2, a3, a4⟩
                simpa [List.getElem?_set, Ne.symm hji] using a1
            · intro j hj
              obtain ⟨b1, b2⟩ := hB j (by omega)
              have hji : i ≠ j := by omega
              constructor
              · rw [b1]; simp [List.getElem?_set, hji]
              · rw [b2]; simp [bufferEntry, List.getElem?_set, hji, harr]
            · intro hok
              obtain ⟨c1, c2, c3⟩ := hC hok
              refine ⟨by omega, ?_, c3⟩
              rw [c2]
              simp only [outputStartLog, hIi]
              rfl
            · intro e he
              obtain ⟨d1, d2, d3, p2, d4, d5⟩ := hD e he
              refine ⟨by omega, ?_, d3, p2, ?_, d5⟩
              · rw [d2]
                simp only [outputStartLog, hIi]
                have : i + 1 + m = i + (m + 1) := by omega
                rw [this]
                rfl
              · have : i + (m + 1) = i + 1 + m := by omega
                rw [this]
                have hne : i ≠ i + 1 + m := by omega
                simpa [List.getElem?_set, hne] using d4
          · rw [if_neg hi]; intro h; exact absurd rfl h

/-- Whatever its outcome, the output loop of `start()` only touches the input
Ports, the entries of the output buffer-pointer array and the running flag, which
it can only clear; the Port list and the array keep their lengths. -/
theorem startOutputs_frame (env : DspEnv) (k : Nat) : ∀ (i : Nat) (s : DspNode),
    (startOutputs env k i s).node =
      { s with m_outputs := (startOutputs env k i s).node.m_outputs,
               m_sample_outs := (startOutputs env k i s).node.m_sample_outs,
               m_running := (startOutputs env k i s).node.m_running } ∧
    (s.m_running = false → (startOutputs env k i s).node.m_running = false) ∧
    (startOutputs env k i s).node.m_outputs.length = s.m_outputs.length ∧
    bufferLength (startOutputs env k i s).node.m_sample_outs = bufferLength s.m_sample_outs := by
  induction k with
  | zero => intro i s; exact ⟨rfl, fun h => h, rfl, rfl⟩
  | succ k ih =>
    intro i s
    rw [startOutputs]
    cases hp : s.m_outputs[i]? with
    | none => exact ⟨rfl, fun h => h, rfl, rfl⟩
    | some p =>
      dsimp only
      cases hq : env.startOutput p with
      | error e => exact ⟨rfl, fun _ => rfl, rfl, rfl⟩
      | ok q =>
        dsimp only
        cases harr : s.m_sample_outs with
        | none =>
          dsimp only
          exact ⟨rfl, fun h => h, by simp, rfl⟩
        | some arr =>
          dsimp only
          by_cases hi : i < arr.length
          · rw [if_pos hi]
            simp only [Run.after_node]
            obtain ⟨h1, h2, h3, h4⟩ := ih (i + 1)
              { s with m_outputs := s.m_outputs.set i q,
                       m_sample_outs := some (arr.set i q.getVector) }
            refine ⟨?_, h2, ?_, ?_⟩
            · rw [h1]
            · rw [h3]; simp
            · rw [h4]; simp [bufferLength]
          · rw [if_neg hi]
            dsimp only
            exact ⟨rfl, fun h => h, by simp, rfl⟩

/-- The output loop of `start()` never calls `prepare()`, and it records a Port
failure only when it ends by throwing. -/
theorem startOutputs_log_clean (env : DspEnv) (k : Nat) : ∀ (i : Nat) (s : DspNode),
    DspEvent.prepare ∉ (startOutputs env k i s).log ∧
    ((∀ e, (startOutputs env k i s).status ≠ .thrown e) →
      ∀ ev ∈ (startOutputs env k i s).log, ev.isStartFailure = false) := by
  induction k with
  | zero => intro i s; exact ⟨by simp [startOutputs], fun _ ev h => by simp [startOutputs] at h⟩
  | succ k ih =>
    intro i s
    rw [startOutputs]
    cases hp : s.m_outputs[i]? with
    | none => exact ⟨by simp, fun _ ev h => by simp at h⟩
    | some p =>
      dsimp only
      cases hq : env.startOutput p with
      | error e =>
        dsimp only
        exact ⟨by simp, fun h => absurd rfl (h e)⟩
      | ok q =>
        dsimp only
        cases harr : s.m_sample_outs with
        | none =>
          dsimp only
          refine ⟨by simp, fun _ ev h => ?_⟩
          simp at h
          subst h
          rfl
        | some arr =>
          dsimp only
          by_cases hi : i < arr.length
          · rw [if_pos hi]
            simp only [Run.after_status, Run.after_log]
            obtain ⟨h1, h2⟩ := ih (i + 1)
              { s with m_outputs := s.m_outputs.set i q,
                       m_sample_outs := some (arr.set i q.getVector) }
            refine ⟨?_, fun hne ev hev => ?_⟩
            · simpa using h1
            · simp only [List.cons_append, List.nil_append, List.mem_cons] at hev
              rcases hev with h | h | h
              · subst h; rfl
              · subst h; rfl
              · exact h2 hne ev h
          · rw [if_neg hi]
            dsimp only
            refine ⟨by simp, fun _ ev h => ?_⟩
            simp at h
            subst h
            rfl

/-- The events of completed iterations hold neither `prepare()` nor a Port
failure. -/
theorem outputStartLog_clean (ps : List DspPort) (m : Nat) : ∀ i, ∀ ev ∈ outputStartLog ps m i,
    ev ≠ .prepare ∧ ev.isStartFailure = false := by
  induction m with
  | zero => intro i ev h; simp [outputStartLog] at h
  | succ m ih =>
    intro i ev h
    simp only [outputStartLog, List.cons_append, List.nil_append, List.mem_cons] at h
    rcases h with h | h | h
    · subst h; exact ⟨(by intro h; cases h), rfl⟩
    · subst h; exact ⟨(by intro h; cases h), rfl⟩
    · exact ih (i + 1) ev h

/-- When every Port the output loop of `start()` reaches exists, starts without
error and has a buffer-pointer entry to be bound to, the loop returns. -/
theorem startOutputs_ok (env : DspEnv) (k : Nat) : ∀ (i : Nat) (s : DspNode),
    i + k ≤ s.m_outputs.length → i + k ≤ bufferLength s.m_sample_outs →
    (∀ j p, i ≤ j → j < i + k → s.m_outputs[j]? = some p → ∃ q, env.startOutput p = .ok q) →
    (startOutputs env k i s).status = .ok := by
  induction k with
  | zero => intro i s _ _ _; rfl
  | succ k ih =>
    intro i s h1 h2 h3
    rw [startOutputs]
    have hil : i < s.m_outputs.length := by omega
    rw [List.getElem?_eq_getElem hil]
    dsimp only
    obtain ⟨q, hq⟩ := h3 i s.m_outputs[i] (le_refl i) (by omega) (List.getElem?_eq_getElem hil)
    rw [hq]
    dsimp only
    cases harr : s.m_sample_outs with
    | none => rw [harr] at h2; simp [bufferLength] at h2
    | some arr =>
      rw [harr] at h2
      have hi : i < arr.length := by simp only [bufferLength] at h2; omega
      dsimp only
      rw [if_pos hi, Run.after_status]
      refine ih (i + 1) _ (by simp; omega) (by simp only [bufferLength] at h2 ⊢; simp; omega) ?_
      intro j p hj1 hj2 hjp
      have hne : i ≠ j := by omega
      simp only [List.getElem?_set, hne, if_false] at hjp
      exact h3 j p (by omega) (by omega) hjp

/-! ## `prepare()` -/

theorem Run.andThen_assoc (r : Run) (f g : DspNode → Run) :
    (r.andThen f).andThen g = r.andThen fun t => (f t).andThen g := by
  by_cases hr : r.status = .ok
  · rw [Run.andThen_ok r f hr, Run.andThen_ok r _ hr]
    by_cases hf : (f r.node).status = .ok
    · rw [Run.andThen_ok _ g (by exact hf), Run.andThen_ok _ g hf]
      simp [List.append_assoc]
    · rw [Run.andThen_not_ok _ g (by exact hf), Run.andThen_not_ok _ g hf]
  · rw [Run.andThen_not_ok r f hr, Run.andThen_not_ok r g hr, Run.andThen_not_ok r _ hr]

/-- The setter calls of `prepare()` always return; they leave in each flag the
status of the last call of its setter, if any, and touch nothing else; their
effects are those assignments. -/
theorem runSetterCalls_spec (cs : List SetterCall) : ∀ (s : DspNode),
    (runSetterCalls cs s).status = .ok ∧
    (runSetterCalls cs s).node =
      { s with m_running := (lastPerform cs).getD s.m_running,
               m_inplace := (lastInplace cs).getD s.m_inplace } ∧
    ∀ ev ∈ (runSetterCalls cs s).log, (∃ b, ev = .setRunning b) ∨ (∃ b, ev = .setInplace b) := by
  induction cs with
  | nil => intro s; exact ⟨rfl, rfl, fun ev h => by simp [runSetterCalls] at h⟩
  | cons c cs ih =>
    intro s
    cases c with
    | shouldPerform status =>
      obtain ⟨h1, h2, h3⟩ := ih { s with m_running := status }
      have hrun : runSetterCalls (.shouldPerform status :: cs) s =
          { runSetterCalls cs { s with m_running := status } with
            log := [.setRunning status] ++ (runSetterCalls cs { s with m_running := status }).log } :=
        rfl
      rw [hrun]
      refine ⟨h1, ?_, fun ev hev => ?_⟩
      · dsimp only
        rw [h2]
        simp only [lastPerform]
        cases lastPerform cs <;> rfl
      · simp only [List.cons_append, List.nil_append, List.mem_cons] at hev
        rcases hev with h | h
        · exact Or.inl ⟨status, h⟩
        · exact h3 ev h
    | setInplace status =>
      obtain ⟨h1, h2, h3⟩ := ih { s with m_inplace := status }
      have hrun : runSetterCalls (.setInplace status :: cs) s =
          { runSetterCalls cs { s with m_inplace := status } with
            log := [.setInplace status] ++ (runSetterCalls cs { s with m_inplace := status }).log } :=
        rfl
      rw [hrun]
      refine ⟨h1, ?_, fun ev hev => ?_⟩
      · dsimp only
        rw [h2]
        simp only [lastInplace]
        cases lastInplace cs <;> rfl
      · simp only [List.cons_append, List.nil_append, List.mem_cons] at hev
        rcases hev with h | h
        · exact Or.inr ⟨status, h⟩
        · exact h3 ev h

/-- The call of `prepare()` always returns; it is recorded first, followed by
the flag assignments of its setter calls; the node keeps everything but the two
flags. -/
theorem prepare_spec (env : DspEnv) (t : DspNode) :
    (prepare env t).status = .ok ∧
    (prepare env t).node =
      { t with m_running := (lastPerform (env.prepare t)).getD t.m_running,
               m_inplace := (lastInplace (env.prepare t)).getD t.m_inplace } ∧
    ∃ rest, (prepare env t).log = DspEvent.prepare :: rest ∧
      ∀ ev ∈ rest, (∃ b, ev = .setRunning b) ∨ (∃ b, ev = .setInplace b) := by
  obtain ⟨h1, h2, h3⟩ := runSetterCalls_spec (env.prepare t) t
  exact ⟨h1, h2, _, rfl, h3⟩

/-- Among the effects of a call of `prepare()`, `prepare()` occurs once and
`release()` and Port failures never. -/
theorem prepare_counts (env : DspEnv) (t : DspNode) :
    (prepare env t).log.count .prepare = 1 ∧ (prepare env t).log.count .release = 0 ∧
    ∀ ev ∈ (prepare env t).log, ev.isStartFailure = false := by
  obtain ⟨_, _, rest, hlog, hrest⟩ := prepare_spec env t
  have hp : List.count DspEvent.prepare rest = 0 :=
    List.count_eq_zero.mpr fun h => by
      rcases hrest _ h with ⟨b, hb⟩ | ⟨b, hb⟩ <;> cases hb
  have hr : List.count DspEvent.release rest = 0 :=
    List.count_eq_zero.mpr fun h => by
      rcases hrest _ h with ⟨b, hb⟩ | ⟨b, hb⟩ <;> cases hb
  rw [hlog]
  refine ⟨by simp [hp], by simp [hr], fun ev hev => ?_⟩
  simp only [List.mem_cons] at hev
  rcases hev with h | h
  · subst h; rfl
  · rcases hrest _ h with ⟨b, hb⟩ | ⟨b, hb⟩ <;> (subst hb; rfl)

/-! ## `start()` -/

/-- The two ways the loops of `start()` can go: the input loop does not return;
or it returns and the outcome is that of the output loop. -/
theorem startLoops_cases (env : DspEnv) (chain : DspChain) (t : DspNode) :
    ((startInputsRun env chain t).status ≠ .ok ∧
      startLoops env chain t =
        ⟨(startInputsRun env chain t).status, (startInputsRun env chain t).node,
          captureLog chain ++ (startInputsRun env chain t).log⟩) ∨
    ((startInputsRun env chain t).status = .ok ∧
      startLoops env chain t =
        ⟨(startOutputsRun env chain t).status, (startOutputsRun env chain t).node,
          captureLog chain ++ ((startInputsRun env chain t).log ++
            (startOutputsRun env chain t).log)⟩) := by
  have hdef : startLoops env chain t = Run.after (captureLog chain)
      ((startInputsRun env chain t).andThen
        fun s1 => startOutputs env (getNumberOfOutputs s1) 0 s1) := rfl
  by_cases hI : (startInputsRun env chain t).status = .ok
  · right
    refine ⟨hI, ?_⟩
    rw [hdef, Run.andThen_ok _ _ hI]
    rfl
  · left
    refine ⟨hI, ?_⟩
    rw [hdef, Run.andThen_not_ok _ _ hI]
    rfl

/-- Whatever their outcome, the loops of `start()` leave the chain, both counts
and the in-place flag alone, keep the lengths of the Port lists and of the
buffer-pointer arrays, store the chain settings, and cannot set the running
flag. -/
theorem startLoops_frame (env : DspEnv) (chain : DspChain) (t : DspNode) :
    (startLoops env chain t).node =
      { t with m_samplerate := chain.getSampleRate, m_vectorsize := chain.getVectorSize,
               m_running := (startLoops env chain t).node.m_running,
               m_inputs := (startLoops env chain t).node.m_inputs,
               m_outputs := (startLoops env chain t).node.m_outputs,
               m_sample_ins := (startLoops env chain t).node.m_sample_ins,
               m_sample_outs := (startLoops env chain t).node.m_sample_outs } ∧
    (t.m_running = false → (startLoops env chain t).node.m_running = false) ∧
    (startLoops env chain t).node.m_inputs.length = t.m_inputs.length ∧
    (startLoops env chain t).node.m_outputs.length = t.m_outputs.length ∧
    bufferLength (startLoops env chain t).node.m_sample_ins = bufferLength t.m_sample_ins ∧
    bufferLength (startLoops env chain t).node.m_sample_outs = bufferLength t.m_sample_outs := by
  obtain ⟨i1, i2, i3, i4⟩ := startInputs_frame env (getNumberOfInputs t) 0
    { t with m_samplerate := chain.getSampleRate, m_vectorsize := chain.getVectorSize }
  obtain ⟨o1, o2, o3, o4⟩ := startOutputs_frame env
    (getNumberOfOutputs (startInputsRun env chain t).node) 0 (startInputsRun env chain t).node
  change (startInputsRun env chain t).node = _ at i1
  change _ → (startInputsRun env chain t).node.m_running = false at i2
  change (startInputsRun env chain t).node.m_inputs.length = _ at i3
  change bufferLength (startInputsRun env chain t).node.m_sample_ins = _ at i4
  change (startOutputsRun env chain t).node = _ at o1
  change _ → (startOutputsRun env chain t).node.m_running = false at o2
  change (startOutputsRun env chain t).node.m_outputs.length = _ at o3
  change bufferLength (startOutputsRun env chain t).node.m_sample_outs = _ at o4
  have hO : (startOutputsRun env chain t).node =
      { t with m_samplerate := chain.getSampleRate, m_vectorsize := chain.getVectorSize,
               m_running := (startOutputsRun env chain t).node.m_running,
               m_inputs := (startInputsRun env chain t).node.m_inputs,
               m_outputs := (startOutputsRun env chain t).node.m_outputs,
               m_sample_ins := (startInputsRun env chain t).node.m_sample_ins,
               m_sample_outs := (startOutputsRun env chain t).node.m_sample_outs } := by
    rw [o1, i1]
  rcases startLoops_cases env chain t with ⟨_, h⟩ | ⟨_, h⟩
  · rw [h]
    dsimp only
    refine ⟨?_, i2, i3, ?_, i4, ?_⟩
    · rw [i1]
    · rw [i1]
    · rw [i1]
  · rw [h]
    dsimp only
    refine ⟨?_, fun ht => o2 (i2 ht), ?_, ?_, ?_, ?_⟩
    · rw [hO]
    · rw [hO]; exact i3
    · rw [o3, i1]
    · rw [hO]; exact i4
    · rw [o4, i1]

theorem isOk_exists {α : Type} (x : Except DspError α) (h : x.isOk = true) : ∃ q, x = .ok q := by
  cases x with
  | ok q => exact ⟨q, rfl⟩
  | error e => simp [Except.isOk, Except.toBool] at h

/-- On a node bound to a chain, `start()` is the run up to `prepare()` followed
by `prepare()`. -/
theorem start_eq (env : DspEnv) (s : DspNode) (chain : DspChain)
    (hchain : getChain s = some chain) :
    start env s = (beforePrepare env s).andThen (prepare env) ∧
    beforePrepare env s = (stop s).andThen (startLoops env chain) := by
  have h2 : beforePrepare env s = (stop s).andThen (startLoops env chain) := by
    unfold beforePrepare; rw [hchain]
  refine ⟨?_, h2⟩
  rw [h2, Run.andThen_assoc]
  unfold start
  rw [hchain]
  rfl

/-- Whatever its outcome, the run of `start()` up to `prepare()` leaves the
chain, both counts and the in-place flag alone, keeps the lengths of the Port
lists and of the buffer-pointer arrays, and leaves the running flag cleared. -/
theorem beforePrepare_frame (env : DspEnv) (s : DspNode) (chain : DspChain)
    (hchain : getChain s = some chain) :
    (beforePrepare env s).node =
      { s with m_samplerate := (beforePrepare env s).node.m_samplerate,
               m_vectorsize := (beforePrepare env s).node.m_vectorsize,
               m_running := false,
               m_inputs := (beforePrepare env s).node.m_inputs,
               m_outputs := (beforePrepare env s).node.m_outputs,
               m_sample_ins := (beforePrepare env s).node.m_sample_ins,
               m_sample_outs := (beforePrepare env s).node.m_sample_outs } ∧
    (beforePrepare env s).node.m_inputs.length = s.m_inputs.length ∧
    (beforePrepare env s).node.m_outputs.length = s.m_outputs.length ∧
    bufferLength (beforePrepare env s).node.m_sample_ins = bufferLength s.m_sample_ins ∧
    bufferLength (beforePrepare env s).node.m_sample_outs = bufferLength s.m_sample_outs ∧
    ((stop s).status = .ok →
      (beforePrepare env s).node.m_samplerate = chain.getSampleRate ∧
      (beforePrepare env s).node.m_vectorsize = chain.getVectorSize) := by
  have hdef := (start_eq env s chain hchain).2
  obtain ⟨l1, l2⟩ := stop_lengths s
  by_cases hst : (stop s).status = .ok
  · rw [hdef, Run.andThen_ok _ _ hst]
    dsimp only
    obtain ⟨f1, f2, f3, f4, f5, f6⟩ := startLoops_frame env chain (stop s).node
    have f2' := f2 (stop_running s)
    refine ⟨?_, by rw [f3, l1], by rw [f4, l2], ?_, ?_, fun _ => ?_⟩
    · rw [f1, f2', stop_frame s]
    · rw [f5, stop_frame s]
    · rw [f6, stop_frame s]
    · rw [f1]; exact ⟨rfl, rfl⟩
  · rw [hdef, Run.andThen_not_ok _ _ hst]
    refine ⟨?_, l1, l2, ?_, ?_, fun h => absurd h hst⟩
    · rw [stop_frame s]
    · rw [stop_frame s]
    · rw [stop_frame s]

/-- The outcome of `start()` on a node bound to a chain.  Either the run up to
`prepare()` did not return, and `start()` ends there; or it returned, and
`start()` returns after `prepare()`, invoked on the node that run left. -/
theorem start_outcome (env : DspEnv) (s : DspNode) (chain : DspChain)
    (hchain : getChain s = some chain) :
    ((beforePrepare env s).status ≠ .ok ∧ start env s = beforePrepare env s) ∨
    ((beforePrepare env s).status = .ok ∧ (start env s).status = .ok ∧
      (start env s).node = (prepare env (beforePrepare env s).node).node ∧
      (start env s).log = (beforePrepare env s).log ++
        (prepare env (beforePrepare env s).node).log) := by
  have hdef := (start_eq env s chain hchain).1
  by_cases hb : (beforePrepare env s).status = .ok
  · right
    rw [hdef, Run.andThen_ok _ _ hb]
    exact ⟨hb, (prepare_spec env _).1, rfl, rfl⟩
  · left
    rw [hdef, Run.andThen_not_ok _ _ hb]
    exact ⟨hb, rfl⟩

/-- Whatever its outcome, `start()` on a node bound to a chain leaves the chain
and both counts alone and keeps the lengths of the Port lists and of the
buffer-pointer arrays; unless it returns normally it leaves the running flag
cleared and the in-place flag alone. -/
theorem start_frame (env : DspEnv) (s : DspNode) (chain : DspChain)
    (hchain : getChain s = some chain) :
    (start env s).node =
      { s with m_samplerate := (start env s).node.m_samplerate,
               m_vectorsize := (start env s).node.m_vectorsize,
               m_running := (start env s).node.m_running,
               m_inplace := (start env s).node.m_inplace,
               m_inputs := (start env s).node.m_inputs,
               m_outputs := (start env s).node.m_outputs,
               m_sample_ins := (start env s).node.m_sample_ins,
               m_sample_outs := (start env s).node.m_sample_outs } ∧
    (start env s).node.m_inputs.length = s.m_inputs.length ∧
    (start env s).node.m_outputs.length = s.m_outputs.length ∧
    bufferLength (start env s).node.m_sample_ins = bufferLength s.m_sample_ins ∧
    bufferLength (start env s).node.m_sample_outs = bufferLength s.m_sample_outs ∧
    ((stop s).status = .ok →
      (start env s).node.m_samplerate = chain.getSampleRate ∧
      (start env s).node.m_vectorsize = chain.getVectorSize) ∧
    ((start env s).status ≠ .ok →
      (start env s).node.m_running = false ∧ (start env s).node.m_inplace = s.m_inplace) := by
  obtain ⟨b1, b2, b3, b4, b5, b6⟩ := beforePrepare_frame env s chain hchain
  rcases start_outcome env s chain hchain with ⟨_, h⟩ | ⟨_, hok, hnode, _⟩
  · rw [h]
    refine ⟨?_, b2, b3, b4, b5, b6, fun _ => ⟨?_, ?_⟩⟩ <;> rw [b1]
  · obtain ⟨_, hp, _⟩ := prepare_spec env (beforePrepare env s).node
    rw [hp] at hnode
    rw [hnode]
    dsimp only
    refine ⟨?_, b2, b3, b4, b5, b6, fun h => absurd hok h⟩
    rw [b1]
/-- A failed `start()`, in full.  When `start()` on a node bound to a chain
throws `e`, the leading `stop()` had returned and exactly one Port failed to
start, with `e`: either input Port `j`, after input Ports `0 .. j - 1` were
started and bound, or output Port `j`, after every input Port and output Ports
`0 .. j - 1` were started and bound.  The only effect after the failure is the
clearing of the running flag; the Ports started before it keep their vectors
and the buffer pointers bound to them. -/
theorem start_thrown_spec (env : DspEnv) (s : DspNode) (chain : DspChain)
    (hchain : getChain s = some chain) (e : DspError)
    (hthrown : (start env s).status = .thrown e) :
    (stop s).status = .ok ∧
    ((∃ j, j < s.m_nins ∧
        (start env s).log = (stop s).log ++ captureLog chain
          ++ inputStartLog (start env s).node.m_inputs j 0
          ++ [.inputStartThrew j e, .setRunning false] ∧
        (∃ p, (stop s).node.m_inputs[j]? = some p ∧ env.startInput p = .error e) ∧
        (∀ i, i < j → ∃ p q, (stop s).node.m_inputs[i]? = some p ∧ env.startInput p = .ok q ∧
          (start env s).node.m_inputs[i]? = some q ∧
          bufferEntry (start env s).node.m_sample_ins i = some q.getVector)) ∨
     (∃ j, j < s.m_nouts ∧
        (start env s).log = (stop s).log ++ captureLog chain
          ++ inputStartLog (start env s).node.m_inputs s.m_nins 0
          ++ outputStartLog (start env s).node.m_outputs j 0
          ++ [.outputStartThrew j e, .setRunning false] ∧
        (∃ p, (stop s).node.m_outputs[j]? = some p ∧ env.startOutput p = .error e) ∧
        (∀ i, i < s.m_nins → ∃ p q, (stop s).node.m_inputs[i]? = some p ∧
          env.startInput p = .ok q ∧
          (start env s).node.m_inputs[i]? = some q ∧
          bufferEntry (start env s).node.m_sample_ins i = some q.getVector) ∧
        (∀ i, i < j → ∃ p q, (stop s).node.m_outputs[i]? = some p ∧ env.startOutput p = .ok q ∧
          (start env s).node.m_outputs[i]? = some q ∧
          bufferEntry (start env s).node.m_sample_outs i = some q.getVector))) := by
  have hstart : start env s = beforePrepare env s := by
    rcases start_outcome env s chain hchain with ⟨_, h⟩ | ⟨_, hok, _, _⟩
    · exact h
    · rw [hok] at hthrown; cases hthrown
  have hdef : start env s = (stop s).andThen (startLoops env chain) := by
    rw [hstart]; exact (start_eq env s chain hchain).2
  have hst : (stop s).status = .ok := by
    by_contra hne
    rw [hdef, Run.andThen_not_ok _ _ hne] at hthrown
    exact stop_not_thrown s e hthrown
  refine ⟨hst, ?_⟩
  have hn1 : (stop s).node.m_nins = s.m_nins := by rw [stop_frame s]
  have hn2 : (stop s).node.m_nouts = s.m_nouts := by rw [stop_frame s]
  have hIrun : startInputsRun env chain (stop s).node = startInputs env s.m_nins 0
      { (stop s).node with m_samplerate := chain.getSampleRate,
                           m_vectorsize := chain.getVectorSize } := by
    unfold startInputsRun getNumberOfInputs
    exact congrArg (fun k => startInputs env k 0
      { (stop s).node with m_samplerate := chain.getSampleRate,
                           m_vectorsize := chain.getVectorSize }) hn1
  obtain ⟨fI, _, _, _⟩ := startInputs_frame env s.m_nins 0
    { (stop s).node with m_samplerate := chain.getSampleRate,
                         m_vectorsize := chain.getVectorSize }
  rw [← hIrun] at fI
  have hIo : (startInputsRun env chain (stop s).node).node.m_outputs = (stop s).node.m_outputs := by
    rw [fI]
  have hIn : (startInputsRun env chain (stop s).node).node.m_nouts = s.m_nouts := by
    rw [fI]; exact hn2
  have hOrun : startOutputsRun env chain (stop s).node = startOutputs env s.m_nouts 0
      (startInputsRun env chain (stop s).node).node := by
    unfold startOutputsRun getNumberOfOutputs; rw [hIn]
  obtain ⟨fO, _, _, _⟩ := startOutputs_frame env s.m_nouts 0
    (startInputsRun env chain (stop s).node).node
  rw [← hOrun] at fO
  have hOi : (startOutputsRun env chain (stop s).node).node.m_inputs =
      (startInputsRun env chain (stop s).node).node.m_inputs := by
    rw [fO]
  have hOb : (startOutputsRun env chain (stop s).node).node.m_sample_ins =
      (startInputsRun env chain (stop s).node).node.m_sample_ins := by
    rw [fO]
  rw [hdef, Run.andThen_ok _ _ hst] at hthrown ⊢
  dsimp only at hthrown ⊢
  rcases startLoops_cases env chain (stop s).node with ⟨_, h⟩ | ⟨hIok, h⟩
  · -- an input Port failed
    rw [h] at hthrown ⊢
    dsimp only at hthrown ⊢
    obtain ⟨m, _, aI, _, _, dI⟩ := startInputs_progress env s.m_nins 0 _
      (by rw [← hIrun, hthrown]; intro h; cases h)
    rw [← hIrun] at aI dI
    obtain ⟨hm, hlog, _, p, hp, hpe⟩ := dI e hthrown
    simp only [Nat.zero_add] at hlog hp aI
    left
    refine ⟨m, hm, ?_, ⟨p, hp, hpe⟩, fun i hi => ?_⟩
    · rw [hlog]; simp only [List.append_assoc]
    · exact aI i (Nat.zero_le i) hi
  · -- an output Port failed
    rw [h] at hthrown ⊢
    dsimp only at hthrown ⊢
    obtain ⟨mI, _, aI, _, cI, _⟩ := startInputs_progress env s.m_nins 0 _
      (by rw [← hIrun, hIok]; intro h; cases h)
    rw [← hIrun] at aI cI
    obtain ⟨hmI, hlogI, _⟩ := cI hIok
    subst hmI
    obtain ⟨m, _, aO, _, _, dO⟩ := startOutputs_progress env s.m_nouts 0 _
      (by rw [← hOrun, hthrown]; intro h; cases h)
    rw [← hOrun] at aO dO
    obtain ⟨hm, hlog, _, p, hp, hpe⟩ := dO e hthrown
    simp only [Nat.zero_add] at hlog hp aO aI
    rw [hIo] at hp
    right
    refine ⟨m, hm, ?_, ⟨p, hp, hpe⟩, fun i hi => ?_, fun i hi => ?_⟩
    · rw [hlog, hlogI, hOi]; simp only [List.append_assoc]
    · obtain ⟨p1, q1, a1, a2, a3, a4⟩ := aI i (Nat.zero_le i) hi
      exact ⟨p1, q1, a1, a2, by rw [hOi]; exact a3, by rw [hOb]; exact a4⟩
    · obtain ⟨p1, q1, a1, a2, a3, a4⟩ := aO i (Nat.zero_le i) hi
      rw [hIo] at a1
      exact ⟨p1, q1, a1, a2, a3, a4⟩

/-- The loops of `start()` never call `prepare()`, and they record a Port failure
only when they end by throwing. -/
theorem startLoops_log_clean (env : DspEnv) (chain : DspChain) (t : DspNode) :
    DspEvent.prepare ∉ (startLoops env chain t).log ∧
    ((∀ e, (startLoops env chain t).status ≠ .thrown e) →
      ∀ x ∈ (startLoops env chain t).log, x.isStartFailure = false) := by
  have hcap : ∀ x ∈ captureLog chain, x ≠ .prepare ∧ x.isStartFailure = false := by
    intro x hx
    simp only [captureLog, List.mem_cons, List.mem_singleton] at hx
    rcases hx with hx | hx | hx
    · subst hx; exact ⟨(by intro h; cases h), rfl⟩
    · subst hx; exact ⟨(by intro h; cases h), rfl⟩
    · cases hx
  have hI := startInputs_log_clean env (getNumberOfInputs t) 0
    { t with m_samplerate := chain.getSampleRate, m_vectorsize := chain.getVectorSize }
  have hO := startOutputs_log_clean env
    (getNumberOfOutputs (startInputsRun env chain t).node) 0 (startInputsRun env chain t).node
  change DspEvent.prepare ∉ (startInputsRun env chain t).log ∧
    ((∀ e, (startInputsRun env chain t).status ≠ .thrown e) →
      ∀ ev ∈ (startInputsRun env chain t).log, ev.isStartFailure = false) at hI
  change DspEvent.prepare ∉ (startOutputsRun env chain t).log ∧
    ((∀ e, (startOutputsRun env chain t).status ≠ .thrown e) →
      ∀ ev ∈ (startOutputsRun env chain t).log, ev.isStartFailure = false) at hO
  rcases startLoops_cases env chain t with ⟨_, h⟩ | ⟨hIok, h⟩
  · rw [h]
    dsimp only
    constructor
    · intro hx
      rw [List.mem_append] at hx
      rcases hx with hx | hx
      · exact (hcap _ hx).1 rfl
      · exact hI.1 hx
    · intro hnot x hx
      rw [List.mem_append] at hx
      rcases hx with hx | hx
      · exact (hcap _ hx).2
      · exact hI.2 hnot x hx
  · rw [h]
    dsimp only
    constructor
    · intro hx
      simp only [List.mem_append] at hx
      rcases hx with hx | hx | hx
      · exact (hcap _ hx).1 rfl
      · exact hI.1 hx
      · exact hO.1 hx
    · intro hnot x hx
      simp only [List.mem_append] at hx
      rcases hx with hx | hx | hx
      · exact (hcap _ hx).2
      · exact hI.2 (fun e he => by rw [hIok] at he; cases he) x hx
      · exact hO.2 hnot x hx

/-- The run of `start()` up to `prepare()` does not call `prepare()`, and it
records a Port failure only when it ends by throwing. -/
theorem beforePrepare_log_clean (env : DspEnv) (s : DspNode) :
    DspEvent.prepare ∉ (beforePrepare env s).log ∧
    ((∀ e, (beforePrepare env s).status ≠ .thrown e) →
      ∀ x ∈ (beforePrepare env s).log, x.isStartFailure = false) := by
  unfold beforePrepare
  cases hc : getChain s with
  | none => exact ⟨by simp, fun _ x hx => by simp at hx⟩
  | some chain =>
    dsimp only
    obtain ⟨h1, h2⟩ := startLoops_log_clean env chain (stop s).node
    by_cases hst : (stop s).status = .ok
    · rw [Run.andThen_ok _ _ hst]
      dsimp only
      constructor
      · intro hx
        rw [List.mem_append] at hx
        rcases hx with hx | hx
        · exact (stop_log_clean s _ hx).1 rfl
        · exact h1 hx
      · intro hnot x hx
        rw [List.mem_append] at hx
        rcases hx with hx | hx
        · exact (stop_log_clean s x hx).2
        · exact h2 hnot x hx
    · rw [Run.andThen_not_ok _ _ hst]
      exact ⟨fun hx => (stop_log_clean s _ hx).1 rfl, fun _ x hx => (stop_log_clean s x hx).2⟩

/-- A Port failure is recorded by `start()` only when `start()` throws. -/
theorem start_failure_event (env : DspEnv) (s : DspNode) (ev : DspEvent)
    (hev : ev ∈ (start env s).log) (hfail : ev.isStartFailure = true) :
    ∃ e, (start env s).status = .thrown e := by
  by_contra hne
  have hnot : ∀ e, (start env s).status ≠ .thrown e := fun e h => hne ⟨e, h⟩
  have hclean : ∀ x ∈ (start env s).log, x.isStartFailure = false := by
    cases hc : getChain s with
    | none =>
      have : start env s = ⟨.ok, s, []⟩ := by unfold start; rw [hc]
      rw [this]
      intro x hx; simp at hx
    | some chain =>
      obtain ⟨_, hb⟩ := beforePrepare_log_clean env s
      rcases start_outcome env s chain hc with ⟨_, h⟩ | ⟨hbok, _, _, hlog⟩
      · rw [h] at hnot ⊢
        exact hb hnot
      · rw [hlog]
        intro x hx
        rw [List.mem_append] at hx
        rcases hx with hx | hx
        · exact hb (fun e he => by rw [hbok] at he; cases he) x hx
        · exact (prepare_counts env _).2.2 x hx
  rw [hclean ev hev] at hfail
  cases hfail

/-- Every effect of the input loop of `start()` is a Port started, a buffer
pointer bound, a Port failure, or the clearing of the running flag. -/
theorem startInputs_log_kind (env : DspEnv) (k : Nat) : ∀ (i : Nat) (s : DspNode),
    ∀ ev ∈ (startInputs env k i s).log,
      ev.isStartEffect = true ∨ ev.isStartFailure = true ∨ ev = .setRunning false := by
  induction k with
  | zero => intro i s ev h; simp [startInputs] at h
  | succ k ih =>
    intro i s ev
    rw [startInputs]
    cases hp : s.m_inputs[i]? with
    | none => intro h; simp at h
    | some p =>
      dsimp only
      cases hq : env.startInput p with
      | error e =>
        dsimp only
        intro h
        simp only [List.mem_cons, List.mem_singleton] at h
        rcases h with h | h | h
        · subst h; exact Or.inr (Or.inl rfl)
        · subst h; exact Or.inr (Or.inr rfl)
        · cases h
      | ok q =>
        dsimp only
        cases harr : s.m_sample_ins with
        | none =>
          dsimp only
          intro h
          simp at h
          subst h
          exact Or.inl rfl
        | some arr =>
          dsimp only
          by_cases hi : i < arr.length
          · rw [if_pos hi]
            simp only [Run.after_log, List.cons_append, List.nil_append, List.mem_cons]
            rintro (h | h | h)
            · subst h; exact Or.inl rfl
            · subst h; exact Or.inl rfl
            · exact ih _ _ ev h
          · rw [if_neg hi]
            dsimp only
            intro h
            simp at h
            subst h
            exact Or.inl rfl

/-- When the input loop of `start()` returns after at least one iteration, the
Port list covers every index it went through. -/
theorem startInputs_ok_bounds (env : DspEnv) (k : Nat) : ∀ (i : Nat) (s : DspNode),
    (startInputs env k i s).status = .ok → 0 < k → i + k ≤ s.m_inputs.length := by
  induction k with
  | zero => intro i s _ h; omega
  | succ k ih =>
    intro i s
    rw [startInputs]
    cases hp : s.m_inputs[i]? with
    | none => intro h; cases h
    | some p =>
      have hil : i < s.m_inputs.length := by
        rcases Nat.lt_or_ge i s.m_inputs.length with h | h
        · exact h
        · rw [List.getElem?_eq_none h] at hp; cases hp
      dsimp only
      cases hq : env.startInput p with
      | error e => dsimp only; intro h; cases h
      | ok q =>
        dsimp only
        cases harr : s.m_sample_ins with
        | none => dsimp only; intro h; cases h
        | some arr =>
          dsimp only
          by_cases hi : i < arr.length
          · rw [if_pos hi, Run.after_status]
            intro hok _
            by_cases hk : 0 < k
            · have := ih (i + 1) _ hok hk
              simp only [List.length_set] at this
              omega
            · omega
          · rw [if_neg hi]; intro h; cases h

/-- Every effect of the output loop of `start()` is a Port started, a buffer
pointer bound, a Port failure, or the clearing of the running flag. -/
theorem startOutputs_log_kind (env : DspEnv) (k : Nat) : ∀ (i : Nat) (s : DspNode),
    ∀ ev ∈ (startOutputs env k i s).log,
      ev.isStartEffect = true ∨ ev.isStartFailure = true ∨ ev = .setRunning false := by
  induction k with
  | zero => intro i s ev h; simp [startOutputs] at h
  | succ k ih =>
    intro i s ev
    rw [startOutputs]
    cases hp : s.m_outputs[i]? with
    | none => intro h; simp at h
    | some p =>
      dsimp only
      cases hq : env.startOutput p with
      | error e =>
        dsimp only
        intro h
        simp only [List.mem_cons, List.mem_singleton] at h
        rcases h with h | h | h
        · subst h; exact Or.inr (Or.inl rfl)
        · subst h; exact Or.inr (Or.inr rfl)
        · cases h
      | ok q =>
        dsimp only
        cases harr : s.m_sample_outs with
        | none =>
          dsimp only
          intro h
          simp at h
          subst h
          exact Or.inl rfl
        | some arr =>
          dsimp only
          by_cases hi : i < arr.length
          · rw [if_pos hi]
            simp only [Run.after_log, List.cons_append, List.nil_append, List.mem_cons]
            rintro (h | h | h)
            · subst h; exact Or.inl rfl
            · subst h; exact Or.inl rfl
            · exact ih _ _ ev h
          · rw [if_neg hi]
            dsimp only
            intro h
            simp at h
            subst h
            exact Or.inl rfl

/-- When the output loop of `start()` returns after at least one iteration, the
Port list covers every index it went through. -/
theorem startOutputs_ok_bounds (env : DspEnv) (k : Nat) : ∀ (i : Nat) (s : DspNode),
    (startOutputs env k i s).status = .ok → 0 < k → i + k ≤ s.m_outputs.length := by
  induction k with
  | zero => intro i s _ h; omega
  | succ k ih =>
    intro i s
    rw [startOutputs]
    cases hp : s.m_outputs[i]? with
    | none => intro h; cases h
    | some p =>
      have hil : i < s.m_outputs.length := by
        rcases Nat.lt_or_ge i s.m_outputs.length with h | h
        · exact h
        · rw [List.getElem?_eq_none h] at hp; cases hp
      dsimp only
      cases hq : env.startOutput p with
      | error e => dsimp only; intro h; cases h
      | ok q =>
        dsimp only
        cases harr : s.m_sample_outs with
        | none => dsimp only; intro h; cases h
        | some arr =>
          dsimp only
          by_cases hi : i < arr.length
          · rw [if_pos hi, Run.after_status]
            intro hok _
            by_cases hk : 0 < k
            · have := ih (i + 1) _ hok hk
              simp only [List.length_set] at this
              omega
            · omega
          · rw [if_neg hi]; intro h; cases h

/-- The loops of `start()` do not call `release()`. -/
theorem startLoops_no_release (env : DspEnv) (chain : DspChain) (t : DspNode) :
    DspEvent.release ∉ (startLoops env chain t).log := by
  have hcap : DspEvent.release ∉ captureLog chain := by simp [captureLog]
  have hI : DspEvent.release ∉ (startInputsRun env chain t).log := fun h => by
    rcases startInputs_log_kind env _ _ _ _ h with h | h | h <;> cases h
  have hO : DspEvent.release ∉ (startOutputsRun env chain t).log := fun h => by
    rcases startOutputs_log_kind env _ _ _ _ h with h | h | h <;> cases h
  rcases startLoops_cases env chain t with ⟨_, h⟩ | ⟨_, h⟩
  · rw [h]; simp only [List.mem_append]; tauto
  · rw [h]; simp only [List.mem_append]; tauto

/-- When the loops of `start()` return, both Port lists cover every index below
the counts. -/
theorem startLoops_ok_bounds (env : DspEnv) (chain : DspChain) (t : DspNode)
    (hok : (startLoops env chain t).status = .ok) :
    t.m_nins ≤ t.m_inputs.length ∧ t.m_nouts ≤ t.m_outputs.length := by
  obtain ⟨fI, _, _, _⟩ := startInputs_frame env (getNumberOfInputs t) 0
    { t with m_samplerate := chain.getSampleRate, m_vectorsize := chain.getVectorSize }
  change (startInputsRun env chain t).node = _ at fI
  rcases startLoops_cases env chain t with ⟨hI, h⟩ | ⟨hI, h⟩
  · rw [h] at hok; exact absurd hok hI
  · rw [h] at hok
    have hO : (startOutputsRun env chain t).status = .ok := hok
    constructor
    · by_cases hk : 0 < t.m_nins
      · have := startInputs_ok_bounds env (getNumberOfInputs t) 0 _ hI hk
        simpa [getNumberOfInputs] using this
      · omega
    · by_cases hk : 0 < t.m_nouts
      · have hn : getNumberOfOutputs (startInputsRun env chain t).node = t.m_nouts := by
          unfold getNumberOfOutputs; rw [fI]
        have := startOutputs_ok_bounds env
          (getNumberOfOutputs (startInputsRun env chain t).node) 0 _ hO (by rw [hn]; exact hk)
        rw [hn] at this
        have hl : (startInputsRun env chain t).node.m_outputs = t.m_outputs := by rw [fI]
        rw [hl] at this
        omega
      · omega

/-- A `start()` that returns, on a node bound to a chain: the run up to
`prepare()` returned with the running flag cleared; the flag is then what the
last `shouldPerform` call of `prepare()` says, and false if there is none;
`prepare()` occurs once among the effects, after everything the run up to it
did; `release()` occurs as often as in the leading `stop()`; and both Port lists
cover every index below the counts. -/
theorem start_ok_facts (env : DspEnv) (s : DspNode) (chain : DspChain)
    (hchain : getChain s = some chain) (hok : (start env s).status = .ok) :
    (beforePrepare env s).status = .ok ∧
    (beforePrepare env s).node.m_running = false ∧
    (start env s).node.m_running =
      (lastPerform (env.prepare (beforePrepare env s).node)).getD false ∧
    (start env s).log = (beforePrepare env s).log ++
      (prepare env (beforePrepare env s).node).log ∧
    (start env s).log.count .prepare = 1 ∧
    (start env s).log.count .release = (stop s).log.count .release ∧
    (stop s).status = .ok ∧
    (s.m_nins ≤ s.m_inputs.length ∧ s.m_nouts ≤ s.m_outputs.length) := by
  obtain ⟨hbf, _, _, _, _, _⟩ := beforePrepare_frame env s chain hchain
  have hflag : (beforePrepare env s).node.m_running = false := by rw [hbf]
  have hbdef := (start_eq env s chain hchain).2
  rcases start_outcome env s chain hchain with ⟨hb, h⟩ | ⟨hb, _, hnode, hlog⟩
  · rw [h] at hok; exact absurd hok hb
  · have hst : (stop s).status = .ok := by
      by_contra hne
      rw [hbdef, Run.andThen_not_ok _ _ hne] at hb
      exact hne hb
    have hloops : (startLoops env chain (stop s).node).status = .ok := by
      rw [hbdef, Run.andThen_ok _ _ hst] at hb
      exact hb
    have hblog : (beforePrepare env s).log =
        (stop s).log ++ (startLoops env chain (stop s).node).log := by
      rw [hbdef, Run.andThen_ok _ _ hst]
    obtain ⟨hp1, hp2, _⟩ := prepare_counts env (beforePrepare env s).node
    obtain ⟨hs2, _, _⟩ := prepare_spec env (beforePrepare env s).node
    obtain ⟨hnp, _⟩ := beforePrepare_log_clean env s
    obtain ⟨b1, b2⟩ := startLoops_ok_bounds env chain (stop s).node hloops
    obtain ⟨l1, l2⟩ := stop_lengths s
    have hn1 : (stop s).node.m_nins = s.m_nins := by rw [stop_frame s]
    have hn2 : (stop s).node.m_nouts = s.m_nouts := by rw [stop_frame s]
    refine ⟨hb, hflag, ?_, hlog, ?_, ?_, hst, ?_⟩
    · rw [hnode, (prepare_spec env _).2.1]
      dsimp only
      rw [hflag]
    · rw [hlog, List.count_append, hp1, List.count_eq_zero.mpr hnp]
    · rw [hlog, List.count_append, hp2, hblog, List.count_append,
        List.count_eq_zero.mpr (startLoops_no_release env chain _)]
      rfl
    · rw [hn1, l1] at b1
      rw [hn2, l2] at b2
      exact ⟨b1, b2⟩

/-- On a node bound to a chain with both counts at zero, `start()` returns. -/
theorem start_of_no_ports (env : DspEnv) (s : DspNode) (chain : DspChain)
    (hchain : getChain s = some chain) (hin : s.m_nins = 0) (hout : s.m_nouts = 0) :
    (start env s).status = .ok := by
  have hst : (stop s).status = .ok := by
    by_cases hr : s.m_running = true
    · exact (stop_running_spec s hr (by omega) (by omega)).1
    · rw [stop_of_not_running s (by simpa using hr)]
  have hn1 : (stop s).node.m_nins = 0 := by rw [stop_frame s]; exact hin
  have hn2 : (stop s).node.m_nouts = 0 := by rw [stop_frame s]; exact hout
  have hloops : (startLoops env chain (stop s).node).status = .ok := by
    obtain ⟨fI, _, _, _⟩ := startInputs_frame env (getNumberOfInputs (stop s).node) 0
      { (stop s).node with m_samplerate := chain.getSampleRate,
                           m_vectorsize := chain.getVectorSize }
    change (startInputsRun env chain (stop s).node).node = _ at fI
    have hI : (startInputsRun env chain (stop s).node).status = .ok := by
      unfold startInputsRun
      apply startInputs_ok
      · unfold getNumberOfInputs; omega
      · unfold getNumberOfInputs; omega
      · intro j p h1 h2; unfold getNumberOfInputs at h2; omega
    have hO : (startOutputsRun env chain (stop s).node).status = .ok := by
      have hz : (startInputsRun env chain (stop s).node).node.m_nouts = 0 := by
        rw [fI]; exact hn2
      unfold startOutputsRun
      apply startOutputs_ok
      · unfold getNumberOfOutputs; omega
      · unfold getNumberOfOutputs; omega
      · intro j p h1 h2; unfold getNumberOfOutputs at h2; omega
    rcases startLoops_cases env chain (stop s).node with ⟨h, _⟩ | ⟨_, h⟩
    · exact absurd hI h
    · rw [h]; exact hO
  rcases start_outcome env s chain hchain with ⟨hb, _⟩ | ⟨_, hok, _, _⟩
  · rw [(start_eq env s chain hchain).2, Run.andThen_ok _ _ hst] at hb
    exact absurd hloops hb
  · exact hok

/-! ## Connections -/

/-- A Port is not empty once a peer has been added to it. -/
theorem add_not_empty (p : DspPort) (node : Nat) : (p.add node).empty = false := by
  unfold DspPort.add DspPort.empty
  split
  · rename_i h
    cases hp : p.peers with
    | nil => rw [hp] at h; simp at h
    | cons a l => rfl
  · simp

/-! ## Kinds of effects -/

theorem clearInputs_kind (k : Nat) : ∀ (i : Nat) (s : DspNode),
    ∀ ev ∈ (clearInputs k i s).log, ev.isStopEffect = true := by
  induction k with
  | zero => intro i s ev h; simp [clearInputs] at h
  | succ k ih =>
    intro i s ev
    rw [clearInputs]
    cases hp : s.m_inputs[i]? with
    | none => intro h; simp at h
    | some p =>
      simp only [Run.after_log, List.cons_append, List.nil_append, List.mem_cons]
      rintro (h | h)
      · subst h; rfl
      · exact ih _ _ ev h

theorem clearOutputs_kind (k : Nat) : ∀ (i : Nat) (s : DspNode),
    ∀ ev ∈ (clearOutputs k i s).log, ev.isStopEffect = true := by
  induction k with
  | zero => intro i s ev h; simp [clearOutputs] at h
  | succ k ih =>
    intro i s ev
    rw [clearOutputs]
    cases hp : s.m_outputs[i]? with
    | none => intro h; simp at h
    | some p =>
      simp only [Run.after_log, List.cons_append, List.nil_append, List.mem_cons]
      rintro (h | h)
      · subst h; rfl
      · exact ih _ _ ev h

/-- Every effect of `stop()` is the clearing of the flag, `release()`, or the
clearing of a Port. -/
theorem stop_log_kind (s : DspNode) : ∀ ev ∈ (stop s).log, ev.isStopEffect = true := by
  intro ev
  unfold stop
  split
  · simp only [Run.after_log, List.cons_append, List.nil_append, List.mem_cons]
    rintro (h | h | h)
    · subst h; rfl
    · subst h; rfl
    · revert h
      unfold Run.andThen
      split
      · simp only [List.mem_append]
        rintro (h | h)
        · exact clearInputs_kind _ _ _ ev h
        · exact clearOutputs_kind _ _ _ ev h
      · exact clearInputs_kind _ _ _ ev
  · intro h; simp at h

theorem inputStartLog_kind (ps : List DspPort) (m : Nat) : ∀ i, ∀ ev ∈ inputStartLog ps m i,
    ev.isStartEffect = true := by
  induction m with
  | zero => intro i ev h; simp [inputStartLog] at h
  | succ m ih =>
    intro i ev h
    simp only [inputStartLog, List.cons_append, List.nil_append, List.mem_cons] at h
    rcases h with h | h | h
    · subst h; rfl
    · subst h; rfl
    · exact ih (i + 1) ev h

theorem outputStartLog_kind (ps : List DspPort) (m : Nat) : ∀ i, ∀ ev ∈ outputStartLog ps m i,
    ev.isStartEffect = true := by
  induction m with
  | zero => intro i ev h; simp [outputStartLog] at h
  | succ m ih =>
    intro i ev h
    simp only [outputStartLog, List.cons_append, List.nil_append, List.mem_cons] at h
    rcases h with h | h | h
    · subst h; rfl
    · subst h; rfl
    · exact ih (i + 1) ev h

/-- A running node stopped with every Port in place: `release()` occurs once
among the effects of `stop()`, `prepare()` never. -/
theorem stop_running_counts (s : DspNode) (hrun : s.m_running = true)
    (hin : s.m_nins ≤ s.m_inputs.length) (hout : s.m_nouts ≤ s.m_outputs.length) :
    (stop s).log.count .release = 1 ∧ (stop s).log.count .prepare = 0 := by
  obtain ⟨_, hlog, _⟩ := stop_running_spec s hrun hin hout
  constructor
  · rw [hlog]
    have h1 : List.count DspEvent.release
        ((List.range s.m_nins).map DspEvent.inputCleared) = 0 :=
      List.count_eq_zero.mpr (by simp)
    have h2 : List.count DspEvent.release
        ((List.range s.m_nouts).map DspEvent.outputCleared) = 0 :=
      List.count_eq_zero.mpr (by simp)
    simp only [List.count_append, h1, h2]
    rfl
  · exact List.count_eq_zero.mpr fun h => (stop_log_clean s _ h).1 rfl

/-! ## The branches of `setNumberOfInlets` -/

theorem resizeInlets_no_chain (env : DspEnv) (n : Nat) (state : Bool) (s : DspNode)
    (hnone : getChain s = none) :
    resizeInlets env n state s =
      ⟨.ok, { s with m_nins := n, m_sample_ins := some (List.replicate n none) },
        [.setNins n, .newSampleIns n]⟩ := by
  unfold resizeInlets
  rw [hnone]

theorem resizeInlets_chain_false (env : DspEnv) (n : Nat) (s : DspNode) (chain : DspChain)
    (hchain : getChain s = some chain) :
    resizeInlets env n false s =
      ⟨.ok, { s with m_nins := n, m_sample_ins := some (List.replicate n none) },
        [.setNins n, .newSampleIns n, .resumeReturned false]⟩ := by
  unfold resizeInlets
  rw [hchain]
  dsimp only
  rw [resume_false]
  dsimp only
  have h : s.m_chain = some chain := hchain
  rw [← h]

theorem resizeInlets_chain_log (env : DspEnv) (n : Nat) (state : Bool) (s : DspNode)
    (chain : DspChain) (hchain : getChain s = some chain) :
    ∃ last, (resizeInlets env n state s).log = [.setNins n, .newSampleIns n, last] ∧
      (last = .resumeReturned state ∨ ∃ e, last = .resumeThrew state e) := by
  unfold resizeInlets
  rw [hchain]
  dsimp only
  cases chain.resume env state with
  | ok c => exact ⟨_, rfl, Or.inl rfl⟩
  | error e => exact ⟨_, rfl, Or.inr ⟨e, rfl⟩⟩

theorem setNumberOfInlets_not_running (env : DspEnv) (s : DspNode) (n : Nat)
    (hstopped : s.m_running = false) :
    setNumberOfInlets env s n = resizeInlets env n false s := by
  unfold setNumberOfInlets
  rw [if_neg (by simp [hstopped])]

theorem setNumberOfInlets_running_chain (env : DspEnv) (s : DspNode) (n : Nat)
    (chain c : DspChain) (state : Bool) (hrun : s.m_running = true)
    (hchain : getChain s = some chain) (hsuspend : chain.suspend env = .ok (state, c)) :
    setNumberOfInlets env s n =
      Run.after [.suspendReturned state]
        (resizeInlets env n state { s with m_chain := some c }) := by
  unfold setNumberOfInlets
  rw [if_pos hrun, hchain]
  dsimp only
  rw [hsuspend]

theorem setNumberOfInlets_running_no_chain (env : DspEnv) (s : DspNode) (n : Nat)
    (hrun : s.m_running = true) (hnone : getChain s = none) :
    setNumberOfInlets env s n = (stop s).andThen (resizeInlets env n false) := by
  unfold setNumberOfInlets
  rw [if_pos hrun, hnone]

/-! ## The branches of `setNumberOfOutlets` -/

theorem resizeOutlets_no_chain (env : DspEnv) (n : Nat) (state : Bool) (s : DspNode)
    (hnone : getChain s = none) :
    resizeOutlets env n state s =
      ⟨.ok, { s with m_nouts := n, m_sample_outs := some (List.replicate n none) },
        [.setNouts n, .newSampleOuts n]⟩ := by
  unfold resizeOutlets
  rw [hnone]

theorem resizeOutlets_chain_false (env : DspEnv) (n : Nat) (s : DspNode) (chain : DspChain)
    (hchain : getChain s = some chain) :
    resizeOutlets env n false s =
      ⟨.ok, { s with m_nouts := n, m_sample_outs := some (List.replicate n none) },
        [.setNouts n, .newSampleOuts n, .resumeReturned false]⟩ := by
  unfold resizeOutlets
  rw [hchain]
  dsimp only
  rw [resume_false]
  dsimp only
  have h : s.m_chain = some chain := hchain
  rw [← h]

theorem resizeOutlets_chain_log (env : DspEnv) (n : Nat) (state : Bool) (s : DspNode)
    (chain : DspChain) (hchain : getChain s = some chain) :
    ∃ last, (resizeOutlets env n state s).log = [.setNouts n, .newSampleOuts n, last] ∧
      (last = .resumeReturned state ∨ ∃ e, last = .resumeThrew state e) := by
  unfold resizeOutlets
  rw [hchain]
  dsimp only
  cases chain.resume env state with
  | ok c => exact ⟨_, rfl, Or.inl rfl⟩
  | error e => exact ⟨_, rfl, Or.inr ⟨e, rfl⟩⟩

theorem setNumberOfOutlets_not_running (env : DspEnv) (s : DspNode) (n : Nat)
    (hstopped : s.m_running = false) :
    setNumberOfOutlets env s n = resizeOutlets env n false s := by
  unfold setNumberOfOutlets
  rw [if_neg (by simp [hstopped])]

theorem setNumberOfOutlets_running_chain (env : DspEnv) (s : DspNode) (n : Nat)
    (chain c : DspChain) (state : Bool) (hrun : s.m_running = true)
    (hchain : getChain s = some chain) (hsuspend : chain.suspend env = .ok (state, c)) :
    setNumberOfOutlets env s n =
      Run.after [.suspendReturned state]
        (resizeOutlets env n state { s with m_chain := some c }) := by
  unfold setNumberOfOutlets
  rw [if_pos hrun, hchain]
  dsimp only
  rw [hsuspend]

theorem setNumberOfOutlets_running_no_chain (env : DspEnv) (s : DspNode) (n : Nat)
    (hrun : s.m_running = true) (hnone : getChain s = none) :
    setNumberOfOutlets env s n = (stop s).andThen (resizeOutlets env n false) := by
  unfold setNumberOfOutlets
  rw [if_pos hrun, hnone]

/-! ## What the operations leave alone -/

theorem resizeInlets_frame (env : DspEnv) (n : Nat) (state : Bool) (s : DspNode) :
    (resizeInlets env n state s).node =
      { s with m_nins := n, m_sample_ins := some (List.replicate n none),
               m_chain := (resizeInlets env n state s).node.m_chain } := by
  unfold resizeInlets
  cases hc : getChain s with
  | none => dsimp only
  | some chain =>
    dsimp only
    cases chain.resume env state with
    | ok c => rfl
    | error e => dsimp only

/-- Whatever its outcome, `setNumberOfInlets(n)` leaves the output side and
the lengths of both Port lists alone, and the input side is either as before or
resized to `n`. -/
theorem setNumberOfInlets_frame (env : DspEnv) (s : DspNode) (n : Nat) :
    (setNumberOfInlets env s n).node.m_nouts = s.m_nouts ∧
    (setNumberOfInlets env s n).node.m_sample_outs = s.m_sample_outs ∧
    (setNumberOfInlets env s n).node.m_inputs.length = s.m_inputs.length ∧
    (setNumberOfInlets env s n).node.m_outputs.length = s.m_outputs.length ∧
    (((setNumberOfInlets env s n).node.m_nins = s.m_nins ∧
        (setNumberOfInlets env s n).node.m_sample_ins = s.m_sample_ins) ∨
      ((setNumberOfInlets env s n).node.m_nins = n ∧
        (setNumberOfInlets env s n).node.m_sample_ins = some (List.replicate n none))) := by
  have hres : ∀ (st : Bool) (t : DspNode),
      (resizeInlets env n st t).node.m_nouts = t.m_nouts ∧
      (resizeInlets env n st t).node.m_sample_outs = t.m_sample_outs ∧
      (resizeInlets env n st t).node.m_inputs = t.m_inputs ∧
      (resizeInlets env n st t).node.m_outputs = t.m_outputs ∧
      (resizeInlets env n st t).node.m_nins = n ∧
      (resizeInlets env n st t).node.m_sample_ins = some (List.replicate n none) := by
    intro st t
    rw [resizeInlets_frame]
    exact ⟨rfl, rfl, rfl, rfl, rfl, rfl⟩
  obtain ⟨l1, l2⟩ := stop_lengths s
  by_cases hrun : s.m_running = true
  · cases hc : getChain s with
    | none =>
      rw [setNumberOfInlets_running_no_chain env s n hrun hc]
      by_cases hst : (stop s).status = .ok
      · rw [Run.andThen_ok _ _ hst]
        dsimp only
        obtain ⟨a1, a2, a3, a4, a5, a6⟩ := hres false (stop s).node
        refine ⟨?_, ?_, by rw [a3, l1], by rw [a4, l2], Or.inr ⟨a5, a6⟩⟩
        · rw [a1, stop_frame s]
        · rw [a2, stop_frame s]
      · rw [Run.andThen_not_ok _ _ hst]
        refine ⟨?_, ?_, l1, l2, Or.inl ⟨?_, ?_⟩⟩ <;> rw [stop_frame s]
    | some chain =>
      cases hs : chain.suspend env with
      | error e =>
        have : setNumberOfInlets env s n = ⟨.thrown e, s, [.suspendThrew e]⟩ := by
          unfold setNumberOfInlets
          rw [if_pos hrun, hc]
          dsimp only
          rw [hs]
        rw [this]
        exact ⟨rfl, rfl, rfl, rfl, Or.inl ⟨rfl, rfl⟩⟩
      | ok r =>
        obtain ⟨state, c⟩ := r
        rw [setNumberOfInlets_running_chain env s n chain c state hrun hc hs, Run.after_node]
        obtain ⟨a1, a2, a3, a4, a5, a6⟩ := hres state { s with m_chain := some c }
        exact ⟨a1, a2, by rw [a3], by rw [a4], Or.inr ⟨a5, a6⟩⟩
  · have hstopped : s.m_running = false := by simpa using hrun
    rw [setNumberOfInlets_not_running env s n hstopped]
    obtain ⟨a1, a2, a3, a4, a5, a6⟩ := hres false s
    exact ⟨a1, a2, by rw [a3], by rw [a4], Or.inr ⟨a5, a6⟩⟩
theorem resizeOutlets_frame (env : DspEnv) (n : Nat) (state : Bool) (s : DspNode) :
    (resizeOutlets env n state s).node =
      { s with m_nouts := n, m_sample_outs := some (List.replicate n none),
               m_chain := (resizeOutlets env n state s).node.m_chain } := by
  unfold resizeOutlets
  cases hc : getChain s with
  | none => dsimp only
  | some chain =>
    dsimp only
    cases chain.resume env state with
    | ok c => rfl
    | error e => dsimp only

/-- Whatever its outcome, `setNumberOfOutlets(n)` leaves the input side and
the lengths of both Port lists alone, and the output side is either as before or
resized to `n`. -/
theorem setNumberOfOutlets_frame (env : DspEnv) (s : DspNode) (n : Nat) :
    (setNumberOfOutlets env s n).node.m_nins = s.m_nins ∧
    (setNumberOfOutlets env s n).node.m_sample_ins = s.m_sample_ins ∧
    (setNumberOfOutlets env s n).node.m_inputs.length = s.m_inputs.length ∧
    (setNumberOfOutlets env s n).node.m_outputs.length = s.m_outputs.length ∧
    (((setNumberOfOutlets env s n).node.m_nouts = s.m_nouts ∧
        (setNumberOfOutlets env s n).node.m_sample_outs = s.m_sample_outs) ∨
      ((setNumberOfOutlets env s n).node.m_nouts = n ∧
        (setNumberOfOutlets env s n).node.m_sample_outs = some (List.replicate n none))) := by
  have hres : ∀ (st : Bool) (t : DspNode),
      (resizeOutlets env n st t).node.m_nins = t.m_nins ∧
      (resizeOutlets env n st t).node.m_sample_ins = t.m_sample_ins ∧
      (resizeOutlets env n st t).node.m_inputs = t.m_inputs ∧
      (resizeOutlets env n st t).node.m_outputs = t.m_outputs ∧
      (resizeOutlets env n st t).node.m_nouts = n ∧
      (resizeOutlets env n st t).node.m_sample_outs = some (List.replicate n none) := by
    intro st t
    rw [resizeOutlets_frame]
    exact ⟨rfl, rfl, rfl, rfl, rfl, rfl⟩
  obtain ⟨l1, l2⟩ := stop_lengths s
  by_cases hrun : s.m_running = true
  · cases hc : getChain s with
    | none =>
      rw [setNumberOfOutlets_running_no_chain env s n hrun hc]
      by_cases hst : (stop s).status = .ok
      · rw [Run.andThen_ok _ _ hst]
        dsimp only
        obtain ⟨a1, a2, a3, a4, a5, a6⟩ := hres false (stop s).node
        refine ⟨?_, ?_, by rw [a3, l1], by rw [a4, l2], Or.inr ⟨a5, a6⟩⟩
        · rw [a1, stop_frame s]
        · rw [a2, stop_frame s]
      · rw [Run.andThen_not_ok _ _ hst]
        refine ⟨?_, ?_, l1, l2, Or.inl ⟨?_, ?_⟩⟩ <;> rw [stop_frame s]
    | some chain =>
      cases hs : chain.suspend env with
      | error e =>
        have : setNumberOfOutlets env s n = ⟨.thrown e, s, [.suspendThrew e]⟩ := by
          unfold setNumberOfOutlets
          rw [if_pos hrun, hc]
          dsimp only
          rw [hs]
        rw [this]
        exact ⟨rfl, rfl, rfl, rfl, Or.inl ⟨rfl, rfl⟩⟩
      | ok r =>
        obtain ⟨state, c⟩ := r
        rw [setNumberOfOutlets_running_chain env s n chain c state hrun hc hs, Run.after_node]
        obtain ⟨a1, a2, a3, a4, a5, a6⟩ := hres state { s with m_chain := some c }
        exact ⟨a1, a2, by rw [a3], by rw [a4], Or.inr ⟨a5, a6⟩⟩
  · have hstopped : s.m_running = false := by simpa using hrun
    rw [setNumberOfOutlets_not_running env s n hstopped]
    obtain ⟨a1, a2, a3, a4, a5, a6⟩ := hres false s
    exact ⟨a1, a2, by rw [a3], by rw [a4], Or.inr ⟨a5, a6⟩⟩

/-- Whatever its outcome, a public operation keeps the lengths of both Port
lists, and keeps each buffer-pointer array as long as its port count. -/
theorem op_run_frame (env : DspEnv) (s : DspNode) (op : DspOp) :
    (op.run env s).node.m_inputs.length = s.m_inputs.length ∧
    (op.run env s).node.m_outputs.length = s.m_outputs.length ∧
    (buffersMatch s → buffersMatch (op.run env s).node) := by
  cases op with
  | setNumberOfInlets n =>
    obtain ⟨a1, a2, a3, a4, a5⟩ := setNumberOfInlets_frame env s n
    refine ⟨a3, a4, fun hb => ?_⟩
    unfold buffersMatch getNumberOfInputs getNumberOfOutputs at hb ⊢
    show bufferLength (setNumberOfInlets env s n).node.m_sample_ins =
        (setNumberOfInlets env s n).node.m_nins ∧
      bufferLength (setNumberOfInlets env s n).node.m_sample_outs =
        (setNumberOfInlets env s n).node.m_nouts
    rw [a1, a2]
    refine ⟨?_, hb.2⟩
    rcases a5 with ⟨b1, b2⟩ | ⟨b1, b2⟩
    · rw [b1, b2]; exact hb.1
    · rw [b1, b2]; simp [bufferLength]
  | setNumberOfOutlets n =>
    obtain ⟨a1, a2, a3, a4, a5⟩ := setNumberOfOutlets_frame env s n
    refine ⟨a3, a4, fun hb => ?_⟩
    unfold buffersMatch getNumberOfInputs getNumberOfOutputs at hb ⊢
    show bufferLength (setNumberOfOutlets env s n).node.m_sample_ins =
        (setNumberOfOutlets env s n).node.m_nins ∧
      bufferLength (setNumberOfOutlets env s n).node.m_sample_outs =
        (setNumberOfOutlets env s n).node.m_nouts
    rw [a1, a2]
    refine ⟨hb.1, ?_⟩
    rcases a5 with ⟨b1, b2⟩ | ⟨b1, b2⟩
    · rw [b1, b2]; exact hb.2
    · rw [b1, b2]; simp [bufferLength]
  | addInput node index =>
    show (addInput s node index).node.m_inputs.length = _ ∧
      (addInput s node index).node.m_outputs.length = _ ∧
      (_ → buffersMatch (addInput s node index).node)
    unfold addInput
    split
    · split
      · exact ⟨by simp, rfl, fun h => h⟩
      · exact ⟨rfl, rfl, fun h => h⟩
    · exact ⟨rfl, rfl, fun h => h⟩
  | addOutput node index =>
    show (addOutput s node index).node.m_inputs.length = _ ∧
      (addOutput s node index).node.m_outputs.length = _ ∧
      (_ → buffersMatch (addOutput s node index).node)
    unfold addOutput
    split
    · split
      · exact ⟨rfl, by simp, fun h => h⟩
      · exact ⟨rfl, rfl, fun h => h⟩
    · exact ⟨rfl, rfl, fun h => h⟩
  | removeInput node index =>
    show (removeInput s node index).node.m_inputs.length = _ ∧
      (removeInput s node index).node.m_outputs.length = _ ∧
      (_ → buffersMatch (removeInput s node index).node)
    unfold removeInput
    split
    · split
      · exact ⟨by simp, rfl, fun h => h⟩
      · exact ⟨rfl, rfl, fun h => h⟩
    · exact ⟨rfl, rfl, fun h => h⟩
  | removeOutput node index =>
    show (removeOutput s node index).node.m_inputs.length = _ ∧
      (removeOutput s node index).node.m_outputs.length = _ ∧
      (_ → buffersMatch (removeOutput s node index).node)
    unfold removeOutput
    split
    · split
      · exact ⟨rfl, by simp, fun h => h⟩
      · exact ⟨rfl, rfl, fun h => h⟩
    · exact ⟨rfl, rfl, fun h => h⟩
  | setInplace status => exact ⟨rfl, rfl, fun h => h⟩
  | shouldPerform status => exact ⟨rfl, rfl, fun h => h⟩
  | start =>
    show (start env s).node.m_inputs.length = _ ∧ (start env s).node.m_outputs.length = _ ∧
      (_ → buffersMatch (start env s).node)
    cases hc : getChain s with
    | none =>
      have : start env s = ⟨.ok, s, []⟩ := by unfold start; rw [hc]
      rw [this]
      exact ⟨rfl, rfl, fun h => h⟩
    | some chain =>
      obtain ⟨hframe, l1, l2, l3, l4, _⟩ := start_frame env s chain hc
      refine ⟨l1, l2, fun hb => ?_⟩
      unfold buffersMatch getNumberOfInputs getNumberOfOutputs at hb ⊢
      rw [l3, l4]
      have h1 : (start env s).node.m_nins = s.m_nins := by rw [hframe]
      have h2 : (start env s).node.m_nouts = s.m_nouts := by rw [hframe]
      rw [h1, h2]
      exact hb
  | stop =>
    show (stop s).node.m_inputs.length = _ ∧ (stop s).node.m_outputs.length = _ ∧
      (_ → buffersMatch (stop s).node)
    obtain ⟨l1, l2⟩ := stop_lengths s
    refine ⟨l1, l2, fun hb => ?_⟩
    unfold buffersMatch getNumberOfInputs getNumberOfOutputs at hb ⊢
    rw [stop_frame s]
    exact hb

/-- In every reachable state the buffer-pointer arrays are as long as the port
counts. -/
theorem reachable_buffers (s : DspNode) (h : Reachable s) : buffersMatch s := by
  induction h with
  | fresh chain => exact ⟨rfl, rfl⟩
  | step env op _ _ ih => exact (op_run_frame env _ op).2.2 ih

/-- In every reachable state both Port lists are empty: the constructor creates
no Port and no public operation adds one. -/
theorem reachable_ports_empty (s : DspNode) (h : Reachable s) :
    s.m_inputs = [] ∧ s.m_outputs = [] := by
  induction h with
  | fresh chain => exact ⟨rfl, rfl⟩
  | step env op _ _ ih =>
    obtain ⟨l1, l2, _⟩ := op_run_frame env _ op
    rw [ih.1] at l1
    rw [ih.2] at l2
    exact ⟨List.length_eq_zero.mp l1, List.length_eq_zero.mp l2⟩

/-! ## Nodes that hold no Port -/

theorem clearInputs_no_ports (k i : Nat) (s : DspNode) (h : s.m_inputs = []) (hk : 0 < k) :
    clearInputs k i s = ⟨.fault, s, []⟩ := by
  cases k with
  | zero => omega
  | succ k => rw [clearInputs]; simp [h]

theorem clearOutputs_no_ports (k i : Nat) (s : DspNode) (h : s.m_outputs = []) (hk : 0 < k) :
    clearOutputs k i s = ⟨.fault, s, []⟩ := by
  cases k with
  | zero => omega
  | succ k => rw [clearOutputs]; simp [h]

theorem startInputs_no_ports (env : DspEnv) (k i : Nat) (s : DspNode) (h : s.m_inputs = [])
    (hk : 0 < k) : startInputs env k i s = ⟨.fault, s, []⟩ := by
  cases k with
  | zero => omega
  | succ k => rw [startInputs]; simp [h]

theorem startOutputs_no_ports (env : DspEnv) (k i : Nat) (s : DspNode) (h : s.m_outputs = [])
    (hk : 0 < k) : startOutputs env k i s = ⟨.fault, s, []⟩ := by
  cases k with
  | zero => omega
  | succ k => rw [startOutputs]; simp [h]

/-- A running node that holds no Port while one of its counts is not zero:
`stop()` clears the flag, calls `release()` and then reads a Port list out of
bounds. -/
theorem stop_no_ports (s : DspNode) (hrun : s.m_running = true) (hI : s.m_inputs = [])
    (hO : s.m_outputs = []) (hcount : 0 < s.m_nins + s.m_nouts) :
    (stop s).status = .fault ∧ (stop s).log = [.setRunning false, .release] := by
  have hstop : stop s = Run.after [.setRunning false, .release]
      ((clearInputs s.m_nins 0 { s with m_running := false }).andThen
        fun s1 => clearOutputs s1.m_nouts 0 s1) := by
    simp [stop, hrun, getNumberOfInputs, getNumberOfOutputs]
  rw [hstop]
  by_cases hn : 0 < s.m_nins
  · rw [clearInputs_no_ports s.m_nins 0 { s with m_running := false } hI hn, Run.andThen_not_ok _ _ (by intro h; cases h)]
    exact ⟨rfl, rfl⟩
  · have hz : s.m_nins = 0 := by omega
    have h0 : clearInputs s.m_nins 0 { s with m_running := false } =
        ⟨.ok, { s with m_running := false }, []⟩ :=
      (congrArg (fun n => clearInputs n 0 { s with m_running := false }) hz).trans rfl
    rw [h0, Run.andThen_ok _ _ rfl]
    dsimp only
    rw [clearOutputs_no_ports s.m_nouts 0 { s with m_running := false } hO (by omega)]
    exact ⟨rfl, rfl⟩

/-- A node bound to a chain that holds no Port while one of its counts is not
zero: `start()` reads a Port list out of bounds, in `stop()` or in its own
loops, before any Port is started and before `prepare()`. -/
theorem start_no_ports (env : DspEnv) (s : DspNode) (chain : DspChain)
    (hchain : getChain s = some chain) (hI : s.m_inputs = []) (hO : s.m_outputs = [])
    (hcount : 0 < s.m_nins + s.m_nouts) :
    (start env s).status = .fault ∧ DspEvent.prepare ∉ (start env s).log ∧
    ∀ ev ∈ (start env s).log, ev.isStartEffect = false := by
  have hbdef := (start_eq env s chain hchain).2
  have hstopkind : ∀ ev ∈ (stop s).log, ev.isStartEffect = false := by
    intro ev hev
    have hk := stop_log_kind s ev hev
    cases ev <;> first | rfl | cases hk
  have hfault : (beforePrepare env s).status = .fault ∧
      ∀ ev ∈ (beforePrepare env s).log, ev.isStartEffect = false := by
    by_cases hrun : s.m_running = true
    · obtain ⟨h1, _⟩ := stop_no_ports s hrun hI hO hcount
      rw [hbdef, Run.andThen_not_ok _ _ (by rw [h1]; intro h; cases h)]
      exact ⟨h1, hstopkind⟩
    · have hstopped : s.m_running = false := by simpa using hrun
      rw [hbdef, stop_of_not_running s hstopped, Run.andThen_ok _ _ rfl]
      dsimp only
      have hloops : startLoops env chain s =
          ⟨.fault, { s with m_samplerate := chain.getSampleRate,
                            m_vectorsize := chain.getVectorSize }, captureLog chain⟩ := by
        have hdef : startLoops env chain s = Run.after (captureLog chain)
            ((startInputs env s.m_nins 0
                { s with m_samplerate := chain.getSampleRate,
                         m_vectorsize := chain.getVectorSize }).andThen
              fun s1 => startOutputs env s1.m_nouts 0 s1) := rfl
        rw [hdef]
        by_cases hn : 0 < s.m_nins
        · rw [startInputs_no_ports env s.m_nins 0
              { s with m_samplerate := chain.getSampleRate,
                       m_vectorsize := chain.getVectorSize } hI hn,
            Run.andThen_not_ok _ _ (by intro h; cases h)]
          rfl
        · have hz : s.m_nins = 0 := by omega
          have h0 : startInputs env s.m_nins 0
              { s with m_samplerate := chain.getSampleRate,
                       m_vectorsize := chain.getVectorSize } =
              ⟨.ok, { s with m_samplerate := chain.getSampleRate,
                             m_vectorsize := chain.getVectorSize }, []⟩ :=
            (congrArg (fun n => startInputs env n 0
              { s with m_samplerate := chain.getSampleRate,
                       m_vectorsize := chain.getVectorSize }) hz).trans rfl
          rw [h0, Run.andThen_ok _ _ rfl]
          dsimp only
          rw [startOutputs_no_ports env s.m_nouts 0
            { s with m_samplerate := chain.getSampleRate,
                     m_vectorsize := chain.getVectorSize } hO (by omega)]
          rfl
      rw [hloops]
      refine ⟨rfl, fun ev hev => ?_⟩
      simp only [List.nil_append, captureLog, List.mem_cons, List.mem_singleton] at hev
      rcases hev with h | h | h
      · subst h; rfl
      · subst h; rfl
      · cases h
  rcases start_outcome env s chain hchain with ⟨_, h⟩ | ⟨hb, _, _, _⟩
  · rw [h]
    exact ⟨hfault.1, (beforePrepare_log_clean env s).1, hfault.2⟩
  · rw [hfault.1] at hb; cases hb

/-- On a node that holds no Port, no Port can fail to start. -/
theorem portsStart_no_ports (env : DspEnv) (s : DspNode) (hI : s.m_inputs = [])
    (hO : s.m_outputs = []) : portsStart env s := by
  unfold portsStart
  rw [hI, hO]
  simp

/-- The node built by the constructor alone is reachable. -/
theorem reachable_freshNode : Reachable freshNode :=
  Reachable.fresh (some liveChain)

/-- The node built by the constructor and `setNumberOfInlets(1)` is reachable. -/
theorem reachable_oneInletNode : Reachable oneInletNode :=
  Reachable.step calmEnv (.setNumberOfInlets 1) (Reachable.fresh (some liveChain)) (by decide)

/-- The node built by the constructor, `setNumberOfInlets(1)` and
`shouldPerform(true)` is reachable. -/
theorem reachable_markedNode : Reachable markedNode :=
  Reachable.step calmEnv (.shouldPerform true) reachable_oneInletNode (by decide)

/-- The chainless node built by the constructor, `setNumberOfInlets(1)` and
`shouldPerform(true)` is reachable. -/
theorem reachable_looseNode : Reachable looseNode :=
  Reachable.step calmEnv (.shouldPerform true)
    (Reachable.step calmEnv (.setNumberOfInlets 1) (Reachable.fresh none) (by decide))
    (by decide)

/-! ## Starting a node -/

/-- C1 (counterexample): a freshly constructed node of a running chain is bound
to that chain and has no Port, so no Port of it fails to start.  `start()`
returns normally on it, and the running flag is false afterwards, both when
`prepare()` calls no setter (`calmEnv`) and when it calls `shouldPerform(false)`
(`idleEnv`). -/
theorem start_not_running_counterexample :
    Reachable freshNode ∧ getChain freshNode = some liveChain ∧
    portsStart calmEnv freshNode ∧
    (start calmEnv freshNode).status = .ok ∧
    (start calmEnv freshNode).node.m_running = false ∧
    portsStart idleEnv freshNode ∧
    (start idleEnv freshNode).status = .ok ∧
    (start idleEnv freshNode).node.m_running = false :=
  ⟨reachable_freshNode, rfl, by decide, by decide, by decide, by decide,
    by decide, by decide⟩

/-- C1 (amended): for every node bound to a Chain, `DspNode::start()` is the run
up to `prepare()` (the leading `stop()`, the capture of the chain settings and
the two Port loops) followed, if that run returns, by `prepare()`.  The node
handed to `prepare()` has the running flag false, and when `start()` does not
return normally the flag is false.  When `start()` returns normally the flag is
the status of the last `shouldPerform(status)` call that `prepare()` made, and
false if it made none: the node is in the Running state after `start()` exactly
when `prepare()` ended its `shouldPerform` calls with `shouldPerform(true)`.
`start()` does return normally whenever both port counts are zero. -/
theorem start_running_flag (env : DspEnv) (s : DspNode) (chain : DspChain)
    (hchain : getChain s = some chain) :
    start env s = (beforePrepare env s).andThen (prepare env) ∧
    (beforePrepare env s).node.m_running = false ∧
    ((start env s).status = .ok →
      (start env s).node.m_running =
        (lastPerform (env.prepare (beforePrepare env s).node)).getD false) ∧
    ((start env s).status = .ok →
      ((start env s).node.m_running = true ↔
        lastPerform (env.prepare (beforePrepare env s).node) = some true)) ∧
    ((start env s).status ≠ .ok → (start env s).node.m_running = false) ∧
    (s.m_nins = 0 → s.m_nouts = 0 → (start env s).status = .ok) := by
  have hflag : (beforePrepare env s).node.m_running = false := by
    rw [(beforePrepare_frame env s chain hchain).1]
  refine ⟨(start_eq env s chain hchain).1, hflag,
    fun hok => (start_ok_facts env s chain hchain hok).2.2.1, fun hok => ?_,
    fun hne => ((start_frame env s chain hchain).2.2.2.2.2.2 hne).1,
    start_of_no_ports env s chain hchain⟩
  rw [(start_ok_facts env s chain hchain hok).2.2.1]
  cases lastPerform (env.prepare (beforePrepare env s).node) with
  | none => simp
  | some b => cases b <;> simp

/-- C1 (amended), on a fresh node of a running chain: with a `prepare()` that
ends by calling `shouldPerform(true)` the node is Running after `start()`, with
one that calls `shouldPerform(false)` it is not. -/
theorem start_running_flag_witness :
    getChain freshNode = some liveChain ∧
    (start eagerEnv freshNode).status = .ok ∧
    lastPerform (eagerEnv.prepare (beforePrepare eagerEnv freshNode).node) = some true ∧
    (start eagerEnv freshNode).node.m_running = true ∧
    (start idleEnv freshNode).status = .ok ∧
    (start idleEnv freshNode).node.m_running =
      (lastPerform (idleEnv.prepare (beforePrepare idleEnv freshNode).node)).getD false ∧
    (start idleEnv freshNode).node.m_running = false :=
  ⟨rfl, by decide, by decide,
    ((start_running_flag eagerEnv freshNode liveChain rfl).2.2.2.1 (by decide)).mpr (by decide),
    by decide,
    (start_running_flag idleEnv freshNode liveChain rfl).2.2.1 (by decide),
    by decide⟩

/-! ## Resizing the port sets -/

/-- C2: whenever `setNumberOfInlets(n)` completes without error the input port
count is `n` and the input buffer-pointer array is a freshly allocated array of
length exactly `n`; likewise `setNumberOfOutlets(n)` for the output count and
the output array.  On a node that is not running both calls do complete without
error. -/
theorem setNumberOf_resizes (env : DspEnv) (s : DspNode) (n : Nat) :
    ((setNumberOfInlets env s n).status = .ok →
      getNumberOfInputs (setNumberOfInlets env s n).node = n ∧
      (setNumberOfInlets env s n).node.m_sample_ins = some (List.replicate n none) ∧
      bufferLength (setNumberOfInlets env s n).node.m_sample_ins = n) ∧
    ((setNumberOfOutlets env s n).status = .ok →
      getNumberOfOutputs (setNumberOfOutlets env s n).node = n ∧
      (setNumberOfOutlets env s n).node.m_sample_outs = some (List.replicate n none) ∧
      bufferLength (setNumberOfOutlets env s n).node.m_sample_outs = n) ∧
    (s.m_running = false →
      (setNumberOfInlets env s n).status = .ok ∧ (setNumberOfOutlets env s n).status = .ok) := by
  refine ⟨fun hok => ?_, fun hok => ?_, fun hstop => ?_⟩
  · rcases setNumberOfInlets_cases env s n with ⟨e, he⟩ | hf | ⟨h1, h2⟩
    · rw [he] at hok; cases hok
    · rw [hf] at hok; cases hok
    · exact ⟨h1, h2, by rw [h2]; simp [bufferLength]⟩
  · rcases setNumberOfOutlets_cases env s n with ⟨e, he⟩ | hf | ⟨h1, h2⟩
    · rw [he] at hok; cases hok
    · rw [hf] at hok; cases hok
    · exact ⟨h1, h2, by rw [h2]; simp [bufferLength]⟩
  · constructor
    · unfold setNumberOfInlets
      rw [if_neg (by simp [hstop])]
      exact resizeInlets_false_ok env n s
    · unfold setNumberOfOutlets
      rw [if_neg (by simp [hstop])]
      exact resizeOutlets_false_ok env n s

/-- C2, on the running node `busyNode` of a chain that suspends and resumes:
both resizes complete and leave count 3 and an array of length 3. -/
theorem setNumberOf_resizes_witness :
    (getNumberOfInputs (setNumberOfInlets calmEnv busyNode 3).node = 3 ∧
      (setNumberOfInlets calmEnv busyNode 3).node.m_sample_ins = some (List.replicate 3 none) ∧
      bufferLength (setNumberOfInlets calmEnv busyNode 3).node.m_sample_ins = 3) ∧
    (getNumberOfOutputs (setNumberOfOutlets calmEnv busyNode 3).node = 3 ∧
      (setNumberOfOutlets calmEnv busyNode 3).node.m_sample_outs = some (List.replicate 3 none) ∧
      bufferLength (setNumberOfOutlets calmEnv busyNode 3).node.m_sample_outs = 3) :=
  ⟨(setNumberOf_resizes calmEnv busyNode 3).1 (by decide),
   (setNumberOf_resizes calmEnv busyNode 3).2.1 (by decide)⟩

/-- C4: on a running node bound to a Chain whose `suspend()` fails,
`setNumberOfInlets(n)` and `setNumberOfOutlets(n)` throw that error, perform
nothing else, and leave the whole node (both counts and both buffer-pointer
arrays included) exactly as before the call. -/
theorem suspend_failure_leaves_node (env : DspEnv) (s : DspNode) (n : Nat) (chain : DspChain)
    (e : DspError) (hrun : s.m_running = true) (hchain : getChain s = some chain)
    (hsuspend : chain.suspend env = .error e) :
    setNumberOfInlets env s n = ⟨.thrown e, s, [.suspendThrew e]⟩ ∧
    setNumberOfOutlets env s n = ⟨.thrown e, s, [.suspendThrew e]⟩ := by
  constructor
  · unfold setNumberOfInlets
    rw [if_pos hrun, hchain]
    dsimp only
    rw [hsuspend]
  · unfold setNumberOfOutlets
    rw [if_pos hrun, hchain]
    dsimp only
    rw [hsuspend]

/-- C4, on the running node `busyNode` whose chain cannot be suspended. -/
theorem suspend_failure_leaves_node_witness :
    setNumberOfInlets stuckEnv busyNode 5 = ⟨.thrown .suspendFailure, busyNode, [.suspendThrew .suspendFailure]⟩ ∧
    setNumberOfOutlets stuckEnv busyNode 5 = ⟨.thrown .suspendFailure, busyNode, [.suspendThrew .suspendFailure]⟩ :=
  suspend_failure_leaves_node stuckEnv busyNode 5 liveChain .suspendFailure rfl rfl rfl

/-- C5 (counterexample): on the running node `busyNode`, whose chain suspends but
fails to resume, `setNumberOfInlets(3)` and `setNumberOfOutlets(3)` fail and the
count and the buffer-pointer array of the resized side are not the pre-call
ones. -/
theorem resume_failure_not_rolled_back :
    (setNumberOfInlets cyclicEnv busyNode 3).status = .thrown .cyclicGraph ∧
    (setNumberOfInlets cyclicEnv busyNode 3).node.m_nins ≠ busyNode.m_nins ∧
    (setNumberOfInlets cyclicEnv busyNode 3).node.m_sample_ins ≠ busyNode.m_sample_ins ∧
    (setNumberOfOutlets cyclicEnv busyNode 3).status = .thrown .cyclicGraph ∧
    (setNumberOfOutlets cyclicEnv busyNode 3).node.m_nouts ≠ busyNode.m_nouts ∧
    (setNumberOfOutlets cyclicEnv busyNode 3).node.m_sample_outs ≠ busyNode.m_sample_outs := by
  decide

/-- C5 (amended): when `setNumberOfInlets(n)` or `setNumberOfOutlets(n)` fails
with an error, either the Chain's `suspend()` raised it and the node is exactly
in its pre-call state, or the Chain's `resume(true)` raised it after a
successful `suspend()`, and then the resize is not rolled back: the resized side
has count `n` and a fresh buffer-pointer array of length `n`, the chain is left
suspended, and every other field of the node is as before the call. -/
theorem setNumberOf_failure_state (env : DspEnv) (s : DspNode) (n : Nat) (e : DspError) :
    ((setNumberOfInlets env s n).status = .thrown e →
      setNumberOfInlets env s n = ⟨.thrown e, s, [.suspendThrew e]⟩ ∨
      ∃ chain, getChain s = some chain ∧ s.m_running = true ∧ chain.running = true ∧
        setNumberOfInlets env s n =
          ⟨.thrown e,
            { s with m_chain := some { chain with running := false }, m_nins := n,
                     m_sample_ins := some (List.replicate n none) },
            [.suspendReturned true, .setNins n, .newSampleIns n, .resumeThrew true e]⟩) ∧
    ((setNumberOfOutlets env s n).status = .thrown e →
      setNumberOfOutlets env s n = ⟨.thrown e, s, [.suspendThrew e]⟩ ∨
      ∃ chain, getChain s = some chain ∧ s.m_running = true ∧ chain.running = true ∧
        setNumberOfOutlets env s n =
          ⟨.thrown e,
            { s with m_chain := some { chain with running := false }, m_nouts := n,
                     m_sample_outs := some (List.replicate n none) },
            [.suspendReturned true, .setNouts n, .newSampleOuts n, .resumeThrew true e]⟩) := by
  constructor
  · intro h
    unfold setNumberOfInlets at h ⊢
    by_cases hr : s.m_running = true
    · rw [if_pos hr] at h ⊢
      cases hc : getChain s with
      | none =>
        rw [hc] at h
        dsimp only at h
        exfalso
        cases hst : (stop s).status with
        | ok =>
          rw [Run.andThen_ok _ _ hst] at h
          dsimp only at h
          rw [resizeInlets_false_ok] at h
          cases h
        | thrown e2 => exact stop_not_thrown s e2 hst
        | fault =>
          rw [Run.andThen_not_ok _ _ (by rw [hst]; intro h; cases h), hst] at h
          cases h
      | some chain =>
        rw [hc] at h
        dsimp only at h ⊢
        cases hs : chain.suspend env with
        | error e2 =>
          rw [hs] at h
          dsimp only at h ⊢
          cases h
          left; rfl
        | ok r =>
          obtain ⟨state, c⟩ := r
          rw [hs] at h
          dsimp only at h ⊢
          rw [Run.after_status] at h
          obtain ⟨hstate, hrun⟩ := resizeInlets_thrown env n state _ e h
          obtain ⟨h1, h2⟩ := suspend_ok_chain env chain c state hs
          right
          refine ⟨chain, rfl, hr, ?_, ?_⟩
          · rw [← h1, hstate]
          · rw [hrun, hstate, h2]; rfl
    · rw [if_neg hr, resizeInlets_false_ok] at h
      cases h
  · intro h
    unfold setNumberOfOutlets at h ⊢
    by_cases hr : s.m_running = true
    · rw [if_pos hr] at h ⊢
      cases hc : getChain s with
      | none =>
        rw [hc] at h
        dsimp only at h
        exfalso
        cases hst : (stop s).status with
        | ok =>
          rw [Run.andThen_ok _ _ hst] at h
          dsimp only at h
          rw [resizeOutlets_false_ok] at h
          cases h
        | thrown e2 => exact stop_not_thrown s e2 hst
        | fault =>
          rw [Run.andThen_not_ok _ _ (by rw [hst]; intro h; cases h), hst] at h
          cases h
      | some chain =>
        rw [hc] at h
        dsimp only at h ⊢
        cases hs : chain.suspend env with
        | error e2 =>
          rw [hs] at h
          dsimp only at h ⊢
          cases h
          left; rfl
        | ok r =>
          obtain ⟨state, c⟩ := r
          rw [hs] at h
          dsimp only at h ⊢
          rw [Run.after_status] at h
          obtain ⟨hstate, hrun⟩ := resizeOutlets_thrown env n state _ e h
          obtain ⟨h1, h2⟩ := suspend_ok_chain env chain c state hs
          right
          refine ⟨chain, rfl, hr, ?_, ?_⟩
          · rw [← h1, hstate]
          · rw [hrun, hstate, h2]; rfl
    · rw [if_neg hr, resizeOutlets_false_ok] at h
      cases h

/-- C5 (amended), on the running node `busyNode` whose chain suspends but fails
to resume. -/
theorem setNumberOf_failure_state_witness :
    (setNumberOfInlets cyclicEnv busyNode 3 =
        ⟨.thrown .cyclicGraph, busyNode, [.suspendThrew .cyclicGraph]⟩ ∨
      ∃ chain, getChain busyNode = some chain ∧ busyNode.m_running = true ∧
        chain.running = true ∧
        setNumberOfInlets cyclicEnv busyNode 3 =
          ⟨.thrown .cyclicGraph,
            { busyNode with m_chain := some { chain with running := false }, m_nins := 3,
                            m_sample_ins := some (List.replicate 3 none) },
            [.suspendReturned true, .setNins 3, .newSampleIns 3,
              .resumeThrew true .cyclicGraph]⟩) :=
  (setNumberOf_failure_state cyclicEnv busyNode 3 .cyclicGraph).1 (by decide)

/-! ## Failure and success of `start()` -/

/-- C6: if an input or output Port fails to start during `DspNode::start()`
(its failure with error `e` is among the effects of the call), then `start()`
throws that same error `e`, which is the one the Port's own `start` raised, the
running flag is false afterwards and `prepare()` is not invoked.  The effects of the call stop there: when input Port `i` failed,
only input Ports `0 .. i - 1` were started and bound before it; when output Port
`i` failed, only the input Ports and output Ports `0 .. i - 1` were; the single
effect after the failure is the clearing of the running flag. -/
theorem start_port_failure (env : DspEnv) (s : DspNode) (i : Nat) (e : DspError)
    (hfail : DspEvent.inputStartThrew i e ∈ (start env s).log ∨
      DspEvent.outputStartThrew i e ∈ (start env s).log) :
    (start env s).status = .thrown e ∧
    (start env s).node.m_running = false ∧
    DspEvent.prepare ∉ (start env s).log ∧
    (DspEvent.inputStartThrew i e ∈ (start env s).log →
      i < s.m_nins ∧
      (∃ p, (stop s).node.m_inputs[i]? = some p ∧ env.startInput p = .error e) ∧
      (start env s).log = (stop s).log
        ++ [.setSampleRate (start env s).node.m_samplerate,
            .setVectorSize (start env s).node.m_vectorsize]
        ++ inputStartLog (start env s).node.m_inputs i 0
        ++ [.inputStartThrew i e, .setRunning false]) ∧
    (DspEvent.outputStartThrew i e ∈ (start env s).log →
      i < s.m_nouts ∧
      (∃ p, (stop s).node.m_outputs[i]? = some p ∧ env.startOutput p = .error e) ∧
      (start env s).log = (stop s).log
        ++ [.setSampleRate (start env s).node.m_samplerate,
            .setVectorSize (start env s).node.m_vectorsize]
        ++ inputStartLog (start env s).node.m_inputs s.m_nins 0
        ++ outputStartLog (start env s).node.m_outputs i 0
        ++ [.outputStartThrew i e, .setRunning false]) := by
  -- the call threw, and it is bound to a chain
  have hthrown : ∃ e2, (start env s).status = .thrown e2 := by
    rcases hfail with h | h
    · exact start_failure_event env s _ h rfl
    · exact start_failure_event env s _ h rfl
  obtain ⟨e2, he2⟩ := hthrown
  have hchain : ∃ chain, getChain s = some chain := by
    cases hc : getChain s with
    | some chain => exact ⟨chain, rfl⟩
    | none =>
      unfold start at he2
      rw [hc] at he2
      cases he2
  obtain ⟨chain, hchain⟩ := hchain
  obtain ⟨_, _, _, _, _, hset, hflag⟩ := start_frame env s chain hchain
  obtain ⟨hst, hshape⟩ := start_thrown_spec env s chain hchain e2 he2
  obtain ⟨hrate, hvec⟩ := hset hst
  have hrun : (start env s).node.m_running = false :=
    (hflag (by rw [he2]; intro h; cases h)).1
  have hcap : [DspEvent.setSampleRate (start env s).node.m_samplerate,
      DspEvent.setVectorSize (start env s).node.m_vectorsize] = captureLog chain := by
    rw [hrate, hvec]; rfl
  rw [hcap]
  have hcapclean : ∀ x ∈ captureLog chain, x ≠ .prepare ∧ x.isStartFailure = false := by
    intro x hx
    simp only [captureLog, List.mem_cons, List.mem_singleton] at hx
    rcases hx with hx | hx | hx
    · subst hx; exact ⟨(by intro h; cases h), rfl⟩
    · subst hx; exact ⟨(by intro h; cases h), rfl⟩
    · cases hx
  rcases hshape with ⟨j, hj, hlog, hport, _⟩ | ⟨j, hj, hlog, hport, _, _⟩
  · -- the failing Port is input Port `j`
    have hmem : ∀ x ∈ (start env s).log, x = .inputStartThrew j e2 ∨
        (x ≠ .prepare ∧ x.isStartFailure = false) := by
      intro x hx
      rw [hlog] at hx
      simp only [List.mem_append, List.mem_cons, List.mem_singleton] at hx
      rcases hx with ((hx | hx) | hx) | hx
      · exact Or.inr (stop_log_clean s x hx)
      · exact Or.inr (hcapclean x hx)
      · exact Or.inr (inputStartLog_clean _ _ _ x hx)
      · rcases hx with hx | hx | hx
        · exact Or.inl hx
        · subst hx; exact Or.inr ⟨(by intro h; cases h), rfl⟩
        · cases hx
    have hev : (i = j ∧ e = e2) ∧ DspEvent.inputStartThrew i e ∈ (start env s).log := by
      rcases hfail with h | h
      · rcases hmem _ h with h2 | h2
        · cases h2; exact ⟨⟨rfl, rfl⟩, h⟩
        · exact absurd h2.2 (by simp [DspEvent.isStartFailure])
      · rcases hmem _ h with h2 | h2
        · cases h2
        · exact absurd h2.2 (by simp [DspEvent.isStartFailure])
    obtain ⟨⟨hij, hee⟩, _⟩ := hev
    subst hij hee
    refine ⟨he2, hrun, ?_, fun _ => ⟨hj, hport, hlog⟩, fun h => ?_⟩
    · intro hp
      rcases hmem _ hp with h2 | h2
      · cases h2
      · exact h2.1 rfl
    · rcases hmem _ h with h2 | h2
      · cases h2
      · exact absurd h2.2 (by simp [DspEvent.isStartFailure])
  · -- the failing Port is output Port `j`
    have hmem : ∀ x ∈ (start env s).log, x = .outputStartThrew j e2 ∨
        (x ≠ .prepare ∧ x.isStartFailure = false) := by
      intro x hx
      rw [hlog] at hx
      simp only [List.mem_append, List.mem_cons, List.mem_singleton] at hx
      rcases hx with (((hx | hx) | hx) | hx) | hx
      · exact Or.inr (stop_log_clean s x hx)
      · exact Or.inr (hcapclean x hx)
      · exact Or.inr (inputStartLog_clean _ _ _ x hx)
      · exact Or.inr (outputStartLog_clean _ _ _ x hx)
      · rcases hx with hx | hx | hx
        · exact Or.inl hx
        · subst hx; exact Or.inr ⟨(by intro h; cases h), rfl⟩
        · cases hx
    have hev : (i = j ∧ e = e2) ∧ DspEvent.outputStartThrew i e ∈ (start env s).log := by
      rcases hfail with h | h
      · rcases hmem _ h with h2 | h2
        · cases h2
        · exact absurd h2.2 (by simp [DspEvent.isStartFailure])
      · rcases hmem _ h with h2 | h2
        · cases h2; exact ⟨⟨rfl, rfl⟩, h⟩
        · exact absurd h2.2 (by simp [DspEvent.isStartFailure])
    obtain ⟨⟨hij, hee⟩, _⟩ := hev
    subst hij hee
    refine ⟨he2, hrun, ?_, fun h => ?_, fun _ => ⟨hj, hport, hlog⟩⟩
    · intro hp
      rcases hmem _ hp with h2 | h2
      · cases h2
      · exact h2.1 rfl
    · rcases hmem _ h with h2 | h2
      · cases h2
      · exact absurd h2.2 (by simp [DspEvent.isStartFailure])

/-- C6, on `wiredNode` when its input Port 1 cannot start: input Port 0 has been
started and bound, nothing follows the failure but the clearing of the flag. -/
theorem start_port_failure_witness :
    (DspEvent.inputStartThrew 1 .portStartFailure ∈ (start brokenInputEnv wiredNode).log ∨
      DspEvent.outputStartThrew 1 .portStartFailure ∈ (start brokenInputEnv wiredNode).log) ∧
    (start brokenInputEnv wiredNode).status = .thrown .portStartFailure ∧
    (start brokenInputEnv wiredNode).node.m_running = false ∧
    DspEvent.prepare ∉ (start brokenInputEnv wiredNode).log ∧
    (start brokenInputEnv wiredNode).log =
      [.setSampleRate 44100, .setVectorSize 64, .inputStarted 0, .bindInput 0 (some 100),
        .inputStartThrew 1 .portStartFailure, .setRunning false] :=
  ⟨by decide,
    (start_port_failure brokenInputEnv wiredNode 1 .portStartFailure (by decide)).1,
    (start_port_failure brokenInputEnv wiredNode 1 .portStartFailure (by decide)).2.1,
    (start_port_failure brokenInputEnv wiredNode 1 .portStartFailure (by decide)).2.2.1,
    by decide⟩

/-- C8 (evaluation at the failing input): the node built by the constructor on a
chain followed by `setNumberOfInlets(1)` is bound to the chain and has input
count 1, but holds no input Port, so none of its Ports fails to start.  Whatever
the Port oracles and `prepare()` are, `start()` on it reads `m_inputs[0]` out of
bounds: no Port is started, no buffer pointer is bound and `prepare()` is not
invoked.  The same happens on every reachable node bound to a chain one of
whose counts is not zero. -/
theorem start_reads_missing_port :
    Reachable oneInletNode ∧ getChain oneInletNode = some liveChain ∧
    getNumberOfInputs oneInletNode = 1 ∧ oneInletNode.m_inputs = [] ∧
    (∀ env, portsStart env oneInletNode ∧
      (start env oneInletNode).status = .fault ∧
      DspEvent.prepare ∉ (start env oneInletNode).log ∧
      ∀ ev ∈ (start env oneInletNode).log, ev.isStartEffect = false) ∧
    (∀ s env chain, Reachable s → getChain s = some chain → 0 < s.m_nins + s.m_nouts →
      portsStart env s ∧ (start env s).status = .fault ∧
      DspEvent.prepare ∉ (start env s).log) := by
  refine ⟨reachable_oneInletNode, rfl, rfl, rfl, fun env => ?_,
    fun s env chain hreach hchain hcount => ?_⟩
  · obtain ⟨h1, h2, h3⟩ := start_no_ports env oneInletNode liveChain rfl rfl rfl (by decide)
    exact ⟨portsStart_no_ports env oneInletNode rfl rfl, h1, h2, h3⟩
  · obtain ⟨hI, hO⟩ := reachable_ports_empty s hreach
    obtain ⟨h1, h2, _⟩ := start_no_ports env s chain hchain hI hO hcount
    exact ⟨portsStart_no_ports env s hI hO, h1, h2⟩

/-! ## Stopping a node -/

/-- C9: `stop()` is idempotent.  For every node state, `stop()` followed by
`stop()` gives the same outcome, node state and effects as a single `stop()`,
and a `stop()` issued on the state left by `stop()` returns at once: the node is
unchanged and no effect is performed (neither `release()` nor any Port's
`clear()`). -/
theorem stop_idempotent (s : DspNode) :
    (stop s).andThen stop = stop s ∧
    stop (stop s).node = ⟨.ok, (stop s).node, []⟩ := by
  have h2 : stop (stop s).node = ⟨.ok, (stop s).node, []⟩ :=
    stop_of_not_running _ (stop_running s)
  refine ⟨?_, h2⟩
  cases hst : (stop s).status with
  | ok =>
    rw [Run.andThen_ok _ _ hst, h2]
    simp [← hst]
  | thrown e => exact Run.andThen_not_ok _ _ (by rw [hst]; intro h; cases h)
  | fault => exact Run.andThen_not_ok _ _ (by rw [hst]; intro h; cases h)

/-- C10 (evaluation at the failing input): the node built by the constructor,
`setNumberOfInlets(1)` and `shouldPerform(true)` is running and has input count
1, but holds no input Port.  `stop()` on it clears the running flag, invokes
`release()` and then reads `m_inputs[0]` out of bounds instead of clearing the
Ports.  The same happens on every reachable running node one of whose counts is
not zero. -/
theorem stop_reads_missing_port :
    Reachable markedNode ∧ markedNode.m_running = true ∧
    getNumberOfInputs markedNode = 1 ∧ markedNode.m_inputs = [] ∧
    (stop markedNode).status = .fault ∧
    (stop markedNode).log = [.setRunning false, .release] ∧
    (∀ s, Reachable s → s.m_running = true → 0 < s.m_nins + s.m_nouts →
      (stop s).status = .fault ∧ (stop s).log = [.setRunning false, .release]) := by
  refine ⟨reachable_markedNode, rfl, rfl, rfl, by decide, by decide,
    fun s hreach hrun hcount => ?_⟩
  obtain ⟨hI, hO⟩ := reachable_ports_empty s hreach
  exact stop_no_ports s hrun hI hO hcount

/-! ## Connections -/

/-- C12: `addInput(peer, index)` with `index` at or beyond the number of input
Ports returns the node unchanged, with no effect.  With `index` in range it
returns after applying `Port.add(peer)` to input Port `index` and to nothing
else: `isInputConnected(index)` is then true, every other input Port, every
output Port, both counts, both buffer-pointer arrays, the chain, the sample
rate, the block size and both flags are unchanged.  `addOutput` does the same
on the output side. -/
theorem add_connection (s : DspNode) (node index : Nat) :
    (s.m_inputs.length ≤ index → addInput s node index = ⟨.ok, s, []⟩) ∧
    (index < s.m_inputs.length → ∃ p, s.m_inputs[index]? = some p ∧
      addInput s node index =
        ⟨.ok, { s with m_inputs := s.m_inputs.set index (p.add node) },
          [.inputAdded index node]⟩ ∧
      (addInput s node index).node.m_inputs[index]? = some (p.add node) ∧
      isInputConnected (addInput s node index).node index = some true ∧
      ∀ j, j ≠ index → (addInput s node index).node.m_inputs[j]? = s.m_inputs[j]?) ∧
    (s.m_outputs.length ≤ index → addOutput s node index = ⟨.ok, s, []⟩) ∧
    (index < s.m_outputs.length → ∃ p, s.m_outputs[index]? = some p ∧
      addOutput s node index =
        ⟨.ok, { s with m_outputs := s.m_outputs.set index (p.add node) },
          [.outputAdded index node]⟩ ∧
      (addOutput s node index).node.m_outputs[index]? = some (p.add node) ∧
      isOutputConnected (addOutput s node index).node index = some true ∧
      ∀ j, j ≠ index → (addOutput s node index).node.m_outputs[j]? = s.m_outputs[j]?) := by
  refine ⟨fun h => ?_, fun h => ?_, fun h => ?_, fun h => ?_⟩
  · unfold addInput
    rw [if_neg (by omega)]
  · have hrun : addInput s node index =
        ⟨.ok, { s with m_inputs := s.m_inputs.set index ((s.m_inputs[index]).add node) },
          [.inputAdded index node]⟩ := by
      unfold addInput
      rw [if_pos h, List.getElem?_eq_getElem h]
    refine ⟨s.m_inputs[index], List.getElem?_eq_getElem h, hrun, ?_, ?_, fun j hj => ?_⟩
    · rw [hrun]; simp [h]
    · rw [hrun]
      simp [isInputConnected, h, add_not_empty]
    · rw [hrun]
      simp [List.getElem?_set, Ne.symm hj]
  · unfold addOutput
    rw [if_neg (by omega)]
  · have hrun : addOutput s node index =
        ⟨.ok, { s with m_outputs := s.m_outputs.set index ((s.m_outputs[index]).add node) },
          [.outputAdded index node]⟩ := by
      unfold addOutput
      rw [if_pos h, List.getElem?_eq_getElem h]
    refine ⟨s.m_outputs[index], List.getElem?_eq_getElem h, hrun, ?_, ?_, fun j hj => ?_⟩
    · rw [hrun]; simp [h]
    · rw [hrun]
      simp [isOutputConnected, h, add_not_empty]
    · rw [hrun]
      simp [List.getElem?_set, Ne.symm hj]

/-- C12, on `wiredNode`: input Port 1 has no peer; after `addInput(8, 1)` it is
connected, and `addInput(8, 2)` is out of range and changes nothing. -/
theorem add_connection_witness :
    wiredNode.m_inputs.length ≤ 2 ∧ addInput wiredNode 8 2 = ⟨.ok, wiredNode, []⟩ ∧
    1 < wiredNode.m_inputs.length ∧ isInputConnected wiredNode 1 = some false ∧
    (∃ p, wiredNode.m_inputs[1]? = some p ∧
      addInput wiredNode 8 1 =
        ⟨.ok, { wiredNode with m_inputs := wiredNode.m_inputs.set 1 (p.add 8) },
          [.inputAdded 1 8]⟩ ∧
      (addInput wiredNode 8 1).node.m_inputs[1]? = some (p.add 8) ∧
      isInputConnected (addInput wiredNode 8 1).node 1 = some true ∧
      ∀ j, j ≠ 1 → (addInput wiredNode 8 1).node.m_inputs[j]? = wiredNode.m_inputs[j]?) :=
  ⟨by decide, (add_connection wiredNode 8 2).1 (by decide), by decide, by decide,
    (add_connection wiredNode 8 1).2.1 (by decide)⟩

/-! ## Resizing and the chain -/

/-- C13 (counterexample): the node that the constructor builds on a running
chain is hosted by that chain and its own running flag is false.
`setNumberOfInlets(3)` and `setNumberOfOutlets(3)` change its count and replace
its buffer-pointer array without any call of `suspend()`.  The same happens on
the node that a `start()` whose `prepare()` calls no setter has just left. -/
theorem resize_without_suspend :
    Reachable freshNode ∧
    getChain freshNode = some liveChain ∧ liveChain.running = true ∧
    (setNumberOfInlets calmEnv freshNode 3).log =
      [.setNins 3, .newSampleIns 3, .resumeReturned false] ∧
    getNumberOfInputs freshNode = 0 ∧
    getNumberOfInputs (setNumberOfInlets calmEnv freshNode 3).node = 3 ∧
    freshNode.m_sample_ins = none ∧
    (setNumberOfInlets calmEnv freshNode 3).node.m_sample_ins = some [none, none, none] ∧
    (setNumberOfOutlets calmEnv freshNode 3).log =
      [.setNouts 3, .newSampleOuts 3, .resumeReturned false] ∧
    getNumberOfOutputs freshNode = 0 ∧
    getNumberOfOutputs (setNumberOfOutlets calmEnv freshNode 3).node = 3 ∧
    (start calmEnv freshNode).status = .ok ∧
    getChain (start calmEnv freshNode).node = some liveChain ∧
    (setNumberOfInlets calmEnv (start calmEnv freshNode).node 3).log =
      [.setNins 3, .newSampleIns 3, .resumeReturned false] ∧
    getNumberOfInputs (setNumberOfInlets calmEnv (start calmEnv freshNode).node 3).node = 3 :=
  ⟨reachable_freshNode, by decide, by decide, by decide, by decide, by decide, by decide,
    by decide, by decide, by decide, by decide, by decide, by decide, by decide, by decide⟩

/-- C13 (amended): what decides is the node's own running flag, not the
Chain's.
For every node bound to a Chain whose own flag `m_running` is true,
`setNumberOfInlets(n)` and `setNumberOfOutlets(n)` never change the port count or
replace the buffer-pointer array unless a call to the Chain's `suspend()` has
first succeeded within that same call: they call `suspend()` first, and either it
fails and the node is unchanged, or it returns and only then are the count
changed and the array replaced.  For a node whose flag is false they change the
count and replace the array at once, without calling `suspend()`, and call
`resume(false)`, whether or not the Chain is running. -/
theorem resize_suspend_gate (env : DspEnv) (s : DspNode) (n : Nat) (chain : DspChain)
    (hchain : getChain s = some chain) :
    (s.m_running = true →
      ((∃ e, setNumberOfInlets env s n = ⟨.thrown e, s, [.suspendThrew e]⟩) ∨
        ∃ last, (setNumberOfInlets env s n).log =
          [.suspendReturned chain.running, .setNins n, .newSampleIns n, last]) ∧
      ((∃ e, setNumberOfOutlets env s n = ⟨.thrown e, s, [.suspendThrew e]⟩) ∨
        ∃ last, (setNumberOfOutlets env s n).log =
          [.suspendReturned chain.running, .setNouts n, .newSampleOuts n, last])) ∧
    (s.m_running = false →
      setNumberOfInlets env s n =
        ⟨.ok, { s with m_nins := n, m_sample_ins := some (List.replicate n none) },
          [.setNins n, .newSampleIns n, .resumeReturned false]⟩ ∧
      setNumberOfOutlets env s n =
        ⟨.ok, { s with m_nouts := n, m_sample_outs := some (List.replicate n none) },
          [.setNouts n, .newSampleOuts n, .resumeReturned false]⟩) := by
  refine ⟨fun hrun => ?_, fun hstopped => ?_⟩
  · cases hs : chain.suspend env with
    | error e =>
      constructor
      · left
        refine ⟨e, ?_⟩
        unfold setNumberOfInlets
        rw [if_pos hrun, hchain]
        dsimp only
        rw [hs]
      · left
        refine ⟨e, ?_⟩
        unfold setNumberOfOutlets
        rw [if_pos hrun, hchain]
        dsimp only
        rw [hs]
    | ok r =>
      obtain ⟨state, c⟩ := r
      obtain ⟨hstate, _⟩ := suspend_ok_chain env chain c state hs
      subst hstate
      constructor
      · right
        rw [setNumberOfInlets_running_chain env s n chain c _ hrun hchain hs]
        obtain ⟨last, hlog, _⟩ := resizeInlets_chain_log env n chain.running
          { s with m_chain := some c } c rfl
        exact ⟨last, by rw [Run.after_log, hlog]; rfl⟩
      · right
        rw [setNumberOfOutlets_running_chain env s n chain c _ hrun hchain hs]
        obtain ⟨last, hlog, _⟩ := resizeOutlets_chain_log env n chain.running
          { s with m_chain := some c } c rfl
        exact ⟨last, by rw [Run.after_log, hlog]; rfl⟩
  · constructor
    · rw [setNumberOfInlets_not_running env s n hstopped,
        resizeInlets_chain_false env n s chain hchain]
    · rw [setNumberOfOutlets_not_running env s n hstopped,
        resizeOutlets_chain_false env n s chain hchain]

/-- C13 (amended), on two nodes hosted by the running chain `liveChain`: the
node built by the constructor, `setNumberOfInlets(1)` and `shouldPerform(true)`,
whose flag is true, and the node built by the constructor alone, whose flag is
false. -/
theorem resize_suspend_gate_witness :
    getChain markedNode = some liveChain ∧ markedNode.m_running = true ∧
    ((∃ e, setNumberOfInlets calmEnv markedNode 3 =
        ⟨.thrown e, markedNode, [.suspendThrew e]⟩) ∨
      ∃ last, (setNumberOfInlets calmEnv markedNode 3).log =
        [.suspendReturned liveChain.running, .setNins 3, .newSampleIns 3, last]) ∧
    (setNumberOfInlets calmEnv markedNode 3).log =
      [.suspendReturned true, .setNins 3, .newSampleIns 3, .resumeReturned true] ∧
    getChain freshNode = some liveChain ∧ freshNode.m_running = false ∧
    setNumberOfInlets calmEnv freshNode 3 =
      ⟨.ok, { freshNode with m_nins := 3, m_sample_ins := some (List.replicate 3 none) },
        [.setNins 3, .newSampleIns 3, .resumeReturned false]⟩ :=
  ⟨rfl, rfl, ((resize_suspend_gate calmEnv markedNode 3 liveChain rfl).1 rfl).1, by decide,
    rfl, rfl, ((resize_suspend_gate calmEnv freshNode 3 liveChain rfl).2 rfl).1⟩

/-- C14: `setNumberOfInlets(n)` and `setNumberOfOutlets(n)` on a node bound to a
Chain.  When the node is not running, `suspend()` is not called and the effects
are the resize followed by `resume(false)`.  When the node is running and
`suspend()` returns `state`, the effects are that return, the resize, and then
`resume(state)` (which returns or throws).  In both cases `resume` is called
exactly once, after the resize, with that prior state.  On a node without a
Chain neither `suspend()` nor `resume()` is among the effects. -/
theorem resume_after_resize (env : DspEnv) (s : DspNode) (n : Nat) :
    (∀ chain, getChain s = some chain → s.m_running = false →
      (setNumberOfInlets env s n).log = [.setNins n, .newSampleIns n, .resumeReturned false] ∧
      (setNumberOfOutlets env s n).log =
        [.setNouts n, .newSampleOuts n, .resumeReturned false]) ∧
    (∀ chain state c, getChain s = some chain → s.m_running = true →
      chain.suspend env = .ok (state, c) →
      (∃ last, (setNumberOfInlets env s n).log =
          [.suspendReturned state, .setNins n, .newSampleIns n, last] ∧
        (last = .resumeReturned state ∨ ∃ e, last = .resumeThrew state e) ∧
        (setNumberOfInlets env s n).log.countP DspEvent.isResume = 1 ∧
        (setNumberOfInlets env s n).log.countP DspEvent.isSuspend = 1) ∧
      (∃ last, (setNumberOfOutlets env s n).log =
          [.suspendReturned state, .setNouts n, .newSampleOuts n, last] ∧
        (last = .resumeReturned state ∨ ∃ e, last = .resumeThrew state e) ∧
        (setNumberOfOutlets env s n).log.countP DspEvent.isResume = 1 ∧
        (setNumberOfOutlets env s n).log.countP DspEvent.isSuspend = 1)) ∧
    (getChain s = none →
      (∀ ev ∈ (setNumberOfInlets env s n).log, ev.isSuspend = false ∧ ev.isResume = false) ∧
      (∀ ev ∈ (setNumberOfOutlets env s n).log, ev.isSuspend = false ∧ ev.isResume = false)) := by
  refine ⟨fun chain hchain hstopped => ?_, fun chain state c hchain hrun hs => ?_, fun hnone => ?_⟩
  · rw [setNumberOfInlets_not_running env s n hstopped,
      resizeInlets_chain_false env n s chain hchain,
      setNumberOfOutlets_not_running env s n hstopped,
      resizeOutlets_chain_false env n s chain hchain]
    exact ⟨rfl, rfl⟩
  · constructor
    · rw [setNumberOfInlets_running_chain env s n chain c state hrun hchain hs]
      obtain ⟨last, hlog, hlast⟩ := resizeInlets_chain_log env n state
        { s with m_chain := some c } c rfl
      refine ⟨last, by rw [Run.after_log, hlog]; rfl, hlast, ?_, ?_⟩
      · rw [Run.after_log, hlog]
        rcases hlast with h | ⟨e, h⟩ <;> subst h <;> rfl
      · rw [Run.after_log, hlog]
        rcases hlast with h | ⟨e, h⟩ <;> subst h <;> rfl
    · rw [setNumberOfOutlets_running_chain env s n chain c state hrun hchain hs]
      obtain ⟨last, hlog, hlast⟩ := resizeOutlets_chain_log env n state
        { s with m_chain := some c } c rfl
      refine ⟨last, by rw [Run.after_log, hlog]; rfl, hlast, ?_, ?_⟩
      · rw [Run.after_log, hlog]
        rcases hlast with h | ⟨e, h⟩ <;> subst h <;> rfl
      · rw [Run.after_log, hlog]
        rcases hlast with h | ⟨e, h⟩ <;> subst h <;> rfl
  · have hstopkind : ∀ ev ∈ (stop s).log, ev.isSuspend = false ∧ ev.isResume = false := by
      intro ev hev
      have hk := stop_log_kind s ev hev
      cases ev <;> first | exact ⟨rfl, rfl⟩ | cases hk
    have hstopnone : getChain (stop s).node = none := by
      unfold getChain at hnone ⊢
      rw [stop_frame s]; exact hnone
    constructor
    · intro ev hev
      by_cases hrun : s.m_running = true
      · rw [setNumberOfInlets_running_no_chain env s n hrun hnone] at hev
        by_cases hst : (stop s).status = .ok
        · rw [Run.andThen_ok _ _ hst, resizeInlets_no_chain env n false _ hstopnone] at hev
          simp only [List.mem_append, List.mem_cons, List.mem_singleton] at hev
          rcases hev with h | h | h | h
          · exact hstopkind ev h
          · subst h; exact ⟨rfl, rfl⟩
          · subst h; exact ⟨rfl, rfl⟩
          · cases h
        · rw [Run.andThen_not_ok _ _ hst] at hev
          exact hstopkind ev hev
      · have hstopped : s.m_running = false := by simpa using hrun
        rw [setNumberOfInlets_not_running env s n hstopped,
          resizeInlets_no_chain env n false s hnone] at hev
        simp only [List.mem_cons, List.mem_singleton] at hev
        rcases hev with h | h | h
        · subst h; exact ⟨rfl, rfl⟩
        · subst h; exact ⟨rfl, rfl⟩
        · cases h
    · intro ev hev
      by_cases hrun : s.m_running = true
      · rw [setNumberOfOutlets_running_no_chain env s n hrun hnone] at hev
        by_cases hst : (stop s).status = .ok
        · rw [Run.andThen_ok _ _ hst, resizeOutlets_no_chain env n false _ hstopnone] at hev
          simp only [List.mem_append, List.mem_cons, List.mem_singleton] at hev
          rcases hev with h | h | h | h
          · exact hstopkind ev h
          · subst h; exact ⟨rfl, rfl⟩
          · subst h; exact ⟨rfl, rfl⟩
          · cases h
        · rw [Run.andThen_not_ok _ _ hst] at hev
          exact hstopkind ev hev
      · have hstopped : s.m_running = false := by simpa using hrun
        rw [setNumberOfOutlets_not_running env s n hstopped,
          resizeOutlets_no_chain env n false s hnone] at hev
        simp only [List.mem_cons, List.mem_singleton] at hev
        rcases hev with h | h | h
        · subst h; exact ⟨rfl, rfl⟩
        · subst h; exact ⟨rfl, rfl⟩
        · cases h

/-- C14, on the running node `busyNode` (its chain returns `true` from
`suspend()`), on the stopped node `wiredNode`, and on the node `orphanNode`
without a chain. -/
theorem resume_after_resize_witness :
    (getChain busyNode = some liveChain ∧ busyNode.m_running = true ∧
      liveChain.suspend calmEnv = .ok (true, { liveChain with running := false }) ∧
      ∃ last, (setNumberOfInlets calmEnv busyNode 3).log =
          [.suspendReturned true, .setNins 3, .newSampleIns 3, last] ∧
        (last = .resumeReturned true ∨ ∃ e, last = .resumeThrew true e) ∧
        (setNumberOfInlets calmEnv busyNode 3).log.countP DspEvent.isResume = 1 ∧
        (setNumberOfInlets calmEnv busyNode 3).log.countP DspEvent.isSuspend = 1) ∧
    (getChain wiredNode = some liveChain ∧ wiredNode.m_running = false ∧
      (setNumberOfInlets calmEnv wiredNode 3).log =
        [.setNins 3, .newSampleIns 3, .resumeReturned false]) ∧
    (getChain orphanNode = none ∧
      ∀ ev ∈ (setNumberOfInlets calmEnv orphanNode 3).log,
        ev.isSuspend = false ∧ ev.isResume = false) :=
  ⟨⟨rfl, rfl, rfl,
      ((resume_after_resize calmEnv busyNode 3).2.1 liveChain true
        { liveChain with running := false } rfl rfl rfl).1⟩,
    ⟨rfl, rfl, ((resume_after_resize calmEnv wiredNode 3).1 liveChain rfl rfl).1⟩,
    ⟨rfl, ((resume_after_resize calmEnv orphanNode 3).2.2 rfl).1⟩⟩

/-- C15 (evaluation at the failing input): the chainless node built by the
constructor, `setNumberOfInlets(1)` and `shouldPerform(true)` is running, has no
owning Chain and has input count 1, but holds no input Port.
`setNumberOfInlets(n)` and `setNumberOfOutlets(n)` on it run the forced `stop()`,
which clears the flag, invokes `release()` and then reads `m_inputs[0]` out of
bounds: no Port is cleared and the resize is never reached.  The same happens on
every reachable running node without a Chain one of whose counts is not zero. -/
theorem forced_stop_reads_missing_port :
    Reachable looseNode ∧ looseNode.m_running = true ∧ getChain looseNode = none ∧
    getNumberOfInputs looseNode = 1 ∧ looseNode.m_inputs = [] ∧
    (∀ env n,
      (setNumberOfInlets env looseNode n).status = .fault ∧
      (setNumberOfInlets env looseNode n).log = [.setRunning false, .release] ∧
      (setNumberOfOutlets env looseNode n).status = .fault ∧
      (setNumberOfOutlets env looseNode n).log = [.setRunning false, .release]) ∧
    (∀ s env n, Reachable s → s.m_running = true → getChain s = none →
      0 < s.m_nins + s.m_nouts →
      (setNumberOfInlets env s n).status = .fault ∧
      (setNumberOfOutlets env s n).status = .fault) := by
  have hgen : ∀ (s : DspNode) (env : DspEnv) (n : Nat), s.m_inputs = [] → s.m_outputs = [] →
      s.m_running = true → getChain s = none → 0 < s.m_nins + s.m_nouts →
      (setNumberOfInlets env s n).status = .fault ∧
      (setNumberOfInlets env s n).log = [.setRunning false, .release] ∧
      (setNumberOfOutlets env s n).status = .fault ∧
      (setNumberOfOutlets env s n).log = [.setRunning false, .release] := by
    intro s env n hI hO hrun hnone hcount
    obtain ⟨h1, h2⟩ := stop_no_ports s hrun hI hO hcount
    have hne : (stop s).status ≠ .ok := by rw [h1]; intro h; cases h
    rw [setNumberOfInlets_running_no_chain env s n hrun hnone,
      setNumberOfOutlets_running_no_chain env s n hrun hnone,
      Run.andThen_not_ok _ _ hne, Run.andThen_not_ok _ _ hne]
    exact ⟨h1, h2, h1, h2⟩
  refine ⟨reachable_looseNode, rfl, rfl, rfl, rfl,
    fun env n => hgen looseNode env n rfl rfl rfl rfl (by decide),
    fun s env n hreach hrun hnone hcount => ?_⟩
  obtain ⟨hI, hO⟩ := reachable_ports_empty s hreach
  obtain ⟨h1, _, h3, _⟩ := hgen s env n hI hO hrun hnone hcount
  exact ⟨h1, h3⟩

/-! ## Invariants of reachable states -/

/-- C16: in every state reachable from a freshly constructed node by public
operations, each of which may return or throw, the input buffer-pointer array
is as long as the input port count and the output buffer-pointer array as long
as the output port count (the null array of a fresh node has no entry, and its
count is zero).  The same holds of the state any further operation leaves,
whatever its outcome. -/
theorem buffer_length_invariant (s : DspNode) (hreach : Reachable s) :
    (bufferLength s.m_sample_ins = getNumberOfInputs s ∧
      bufferLength s.m_sample_outs = getNumberOfOutputs s) ∧
    ∀ (env : DspEnv) (op : DspOp),
      bufferLength (op.run env s).node.m_sample_ins = getNumberOfInputs (op.run env s).node ∧
      bufferLength (op.run env s).node.m_sample_outs = getNumberOfOutputs (op.run env s).node :=
  ⟨reachable_buffers s hreach, fun env op => (op_run_frame env s op).2.2 (reachable_buffers s hreach)⟩

/-- C16, on the state left by `sessionRun`: two resizes, the node marked running,
then a resize that throws. -/
theorem buffer_length_invariant_witness :
    Reachable sessionRun.node ∧ sessionRun.status = .thrown .suspendFailure ∧
    (bufferLength sessionRun.node.m_sample_ins = getNumberOfInputs sessionRun.node ∧
      bufferLength sessionRun.node.m_sample_outs = getNumberOfOutputs sessionRun.node) ∧
    getNumberOfInputs sessionRun.node = 2 ∧ getNumberOfOutputs sessionRun.node = 1 :=
  ⟨Reachable.step stuckEnv (.setNumberOfInlets 5) (Reachable.step calmEnv (.shouldPerform true)
      (Reachable.step calmEnv (.setNumberOfOutlets 1)
        (Reachable.step calmEnv (.setNumberOfInlets 2) (Reachable.fresh (some liveChain))
          (by decide)) (by decide)) (by decide)) (by decide),
    by decide,
    (buffer_length_invariant sessionRun.node
      (Reachable.step stuckEnv (.setNumberOfInlets 5) (Reachable.step calmEnv (.shouldPerform true)
        (Reachable.step calmEnv (.setNumberOfOutlets 1)
          (Reachable.step calmEnv (.setNumberOfInlets 2) (Reachable.fresh (some liveChain))
            (by decide)) (by decide)) (by decide)) (by decide))).1,
    by decide, by decide⟩

/-! ## Lifecycle -/

/-- C17: on a node without an owning Chain `DspNode::start()` returns at once:
the node is unchanged (running flag, sample rate, block size, buffer pointers
and Ports included) and the call has no effect at all, so no Port is started
and neither `stop()`, `release()` nor `prepare()` is invoked. -/
theorem start_without_chain (env : DspEnv) (s : DspNode) (hnone : getChain s = none) :
    start env s = ⟨.ok, s, []⟩ := by
  unfold start
  rw [hnone]

/-- C17, on the running node `orphanNode`: it stays running, Ports untouched. -/
theorem start_without_chain_witness :
    getChain orphanNode = none ∧ start calmEnv orphanNode = ⟨.ok, orphanNode, []⟩ :=
  ⟨rfl, start_without_chain calmEnv orphanNode rfl⟩

/-- C18 (counterexample): the node that the constructor builds on a chain is
stopped, bound to the chain and has no Port that could fail to start.  With a
`prepare()` that calls no setter, `start(); stop()` returns having invoked
`prepare()` once and `release()` not at all. -/
theorem start_stop_no_release :
    Reachable freshNode ∧
    freshNode.m_running = false ∧ getChain freshNode = some liveChain ∧
    portsStart calmEnv freshNode ∧
    ((start calmEnv freshNode).andThen stop).status = .ok ∧
    ((start calmEnv freshNode).andThen stop).log.count .prepare = 1 ∧
    ((start calmEnv freshNode).andThen stop).log.count .release = 0 :=
  ⟨reachable_freshNode, by decide, by decide, by decide, by decide, by decide, by decide⟩

/-- C18 (amended): for every stopped node bound to a Chain on which `start()`
returns normally, the sequence `start(); stop()` returns normally; `start()`
invokes `prepare()` exactly once and `release()` not at all; the `stop()` that
follows does not invoke `prepare()` and invokes `release()` exactly once if
`prepare()` ended its `shouldPerform` calls with `shouldPerform(true)`, and not
at all otherwise. -/
theorem prepare_release_pairing (env : DspEnv) (s : DspNode) (chain : DspChain)
    (hchain : getChain s = some chain) (hstopped : s.m_running = false)
    (hok : (start env s).status = .ok) :
    ((start env s).andThen stop).status = .ok ∧
    ((start env s).andThen stop).log = (start env s).log ++ (stop (start env s).node).log ∧
    (start env s).log.count .prepare = 1 ∧
    (start env s).log.count .release = 0 ∧
    (stop (start env s).node).log.count .prepare = 0 ∧
    (stop (start env s).node).log.count .release =
      if lastPerform (env.prepare (beforePrepare env s).node) = some true then 1 else 0 := by
  obtain ⟨_, _, hflag, _, hp, hr, _, hin, hout⟩ := start_ok_facts env s chain hchain hok
  obtain ⟨hframe, l1, l2, _⟩ := start_frame env s chain hchain
  have hnins : (start env s).node.m_nins = s.m_nins := by rw [hframe]
  have hnouts : (start env s).node.m_nouts = s.m_nouts := by rw [hframe]
  have hr0 : (start env s).log.count .release = 0 := by
    rw [hr, stop_of_not_running s hstopped]
    rfl
  have hseq : ((start env s).andThen stop).log =
      (start env s).log ++ (stop (start env s).node).log := by
    rw [Run.andThen_ok _ _ hok]
  have hstatus : ((start env s).andThen stop).status = (stop (start env s).node).status := by
    rw [Run.andThen_ok _ _ hok]
  cases hlast : lastPerform (env.prepare (beforePrepare env s).node) with
  | none =>
    rw [hlast] at hflag
    have hnot : (start env s).node.m_running = false := hflag
    have hstop := stop_of_not_running _ hnot
    refine ⟨by rw [hstatus, hstop], hseq, hp, hr0, by rw [hstop]; rfl, ?_⟩
    rw [hstop, if_neg (by intro h; cases h)]
    rfl
  | some b =>
    rw [hlast] at hflag
    cases b with
    | false =>
      have hnot : (start env s).node.m_running = false := hflag
      have hstop := stop_of_not_running _ hnot
      refine ⟨by rw [hstatus, hstop], hseq, hp, hr0, by rw [hstop]; rfl, ?_⟩
      rw [hstop, if_neg (by intro h; cases h)]
      rfl
    | true =>
      have hrun : (start env s).node.m_running = true := hflag
      have hin2 : (start env s).node.m_nins ≤ (start env s).node.m_inputs.length := by
        rw [hnins, l1]; exact hin
      have hout2 : (start env s).node.m_nouts ≤ (start env s).node.m_outputs.length := by
        rw [hnouts, l2]; exact hout
      obtain ⟨hst2, _⟩ := stop_running_spec _ hrun hin2 hout2
      obtain ⟨hc1, hc2⟩ := stop_running_counts _ hrun hin2 hout2
      refine ⟨by rw [hstatus, hst2], hseq, hp, hr0, hc2, ?_⟩
      rw [hc1, if_pos rfl]

/-- C18 (amended), on the stopped node that the constructor builds on a chain:
with a `prepare()` that ends by calling `shouldPerform(true)`, `start(); stop()`
invokes `prepare()` once and then `release()` once. -/
theorem prepare_release_pairing_witness :
    getChain freshNode = some liveChain ∧ freshNode.m_running = false ∧
    (start eagerEnv freshNode).status = .ok ∧
    lastPerform (eagerEnv.prepare (beforePrepare eagerEnv freshNode).node) = some true ∧
    ((start eagerEnv freshNode).andThen stop).status = .ok ∧
    (start eagerEnv freshNode).log.count .prepare = 1 ∧
    (stop (start eagerEnv freshNode).node).log.count .release =
      (if lastPerform (eagerEnv.prepare (beforePrepare eagerEnv freshNode).node) = some true
        then 1 else 0) ∧
    ((start eagerEnv freshNode).andThen stop).log =
      [.setSampleRate 44100, .setVectorSize 64, .prepare, .setInplace false,
        .setRunning true, .setRunning false, .release] :=
  ⟨rfl, rfl, by decide, by decide,
    (prepare_release_pairing eagerEnv freshNode liveChain rfl rfl (by decide)).1,
    (prepare_release_pairing eagerEnv freshNode liveChain rfl rfl (by decide)).2.2.1,
    (prepare_release_pairing eagerEnv freshNode liveChain rfl rfl (by decide)).2.2.2.2.2,
    by decide⟩

/-! ## The Port lists -/

/-- C19 (evaluation at the failing input): the node that the constructor and
`setNumberOfInlets(1)` produce is reachable, its input port count is 1 and it
holds no input Port, so `start()` reads `m_inputs[0]` out of bounds, and so does
`stop()` once the node is marked running.  More generally no reachable state
holds any Port at all, so the Port lists match the counts only while both counts
are zero. -/
theorem port_lists_never_grow :
    Reachable oneInletNode ∧
    getNumberOfInputs oneInletNode = 1 ∧ oneInletNode.m_inputs.length = 0 ∧
    ¬ portsMatch oneInletNode ∧
    (start calmEnv oneInletNode).status = .fault ∧
    (stop (shouldPerform oneInletNode true).node).status = .fault ∧
    (∀ s, Reachable s → s.m_inputs = [] ∧ s.m_outputs = []) :=
  ⟨Reachable.step calmEnv (.setNumberOfInlets 1) (Reachable.fresh (some liveChain)) (by decide),
    by decide, by decide, by decide, by decide, by decide, reachable_ports_empty⟩

end Kiwi
